import Mathlib

/-! GOMC checkpoint writer (`src/CheckpointOutput.cpp`).

A shallow embedding of the checkpoint writer of GOMC 2.70 and of the byte
format it produces, followed by theorems about the section order, the
layout of each section, the recoverability of the written state, the
primitive codec and its failure paths, the parallel-tempering flag, the
length of the file and the offsets of its sections, and the behaviour of the
array encoders on empty and ragged input.

Modelling conventions
* unsigned machine integers are `Nat`; a conversion to `uint32_t` is an
  explicit `% 2 ^ 32`;
* a `double` is its 64-bit IEEE-754 pattern (`Double.bits`);
* the object representation of a scalar depends on the host byte order,
  which is a parameter of the build (`Build.order`);
* a byte of the destination file is either a definite value or
  *indeterminate* (read from storage that was never written);
* a member function is a transition `World → Res`; besides normal return
  it can end in `exit(EXIT_FAILURE)` or in an out-of-range access, and in
  each case the world reached so far is kept;
* loop counters are mathematical integers: the overflow of an `int`
  counter, which needs a trip count of `2 ^ 31` or more, is not represented.
-/

namespace GOMC

/-! ## Scalars and their object representation -/

/-- Byte order of the host; the writer performs no normalisation. -/
inductive ByteOrder
  | little
  | big
deriving DecidableEq, Repr

/-- A `double`, identified with its 64-bit pattern. -/
structure Double where
  bits : Nat
deriving DecidableEq, Repr

/-- One byte of the destination file. -/
inductive OutByte
  | val (b : Nat)
  | indet
deriving DecidableEq, Repr

/-- The `n` low-order base-256 digits of `v`, least significant first. -/
def leBytes : Nat → Nat → List Nat
  | 0, _ => []
  | n + 1, v => (v % 256) :: leBytes n (v / 256)

/-- Value of a little-endian digit string. -/
def leValue : List Nat → Nat
  | [] => 0
  | b :: bs => b + 256 * leValue bs

/-- Object representation (`width` bytes, in address order) of the unsigned
value `v` on a host of byte order `o`. -/
def objectBytes (o : ByteOrder) (width : Nat) (v : Nat) : List Nat :=
  match o with
  | .little => leBytes width v
  | .big => (leBytes width v).reverse

/-- Value of an object representation read in byte order `o`. -/
def objectValue (o : ByteOrder) (bs : List Nat) : Nat :=
  match o with
  | .little => leValue bs
  | .big => leValue bs.reverse

/-- Conversion to `uint32_t`. -/
def toUint32 (v : Nat) : Nat := v % 2 ^ 32

/-- Storage of `union dbl_output_union { char bin_value[8]; double dbl_value; }`
after `temp.dbl_value = data`: all eight bytes belong to the double. -/
def dbl_output_union (o : ByteOrder) (data : Double) : List OutByte :=
  (objectBytes o 8 data.bits).map OutByte.val

/-- Storage of a local `union uint32_output_union { char bin_value[8];
uint32_t uint_value; }` declared without initialiser: eight bytes nobody
has written. -/
def uint32_output_union_fresh : List OutByte := List.replicate 8 OutByte.indet

/-- The assignment `temp.uint_value = data`: it stores the four bytes of the
`uint32_t` at the start of the union and leaves bytes 4..7 as they were. -/
def uint32_output_union_assign (o : ByteOrder) (temp : List OutByte) (data : Nat) :
    List OutByte :=
  (objectBytes o 4 (toUint32 data)).map OutByte.val ++ temp.drop 4

/-- Storage of `union int8_input_union { char bin_value[1]; int8_t int_value; }`
after `temp.int_value = data`; `data` is the value as a byte (two's
complement). -/
def int8_input_union (data : Nat) : List OutByte := [OutByte.val (data % 256)]

/-! ## The world the writer acts on -/

/-- State outside the snapshot: the `FILE*` member `outputFile`, the
destination file, and the two text channels. -/
structure World where
  /-- whether `fopen(filename, "wb")` succeeds -/
  canOpen : Bool
  /-- the handle is open: `outputFile != NULL` -/
  outputFile : Bool
  /-- contents of the destination file -/
  file : List OutByte
  stdout : List String
  stderr : List String
deriving DecidableEq, Repr

/-- Append bytes to the destination file (`fprintf` followed by `fflush`). -/
def World.emit (w : World) (bs : List OutByte) : World :=
  { w with file := w.file ++ bs }

/-- How a member function ends. -/
inductive Res
  | ok (w : World)
  | exit (w : World)
  | undef (w : World)
deriving DecidableEq, Repr

/-- The world in which a run ended. -/
def Res.world : Res → World
  | .ok w => w
  | .exit w => w
  | .undef w => w

/-- Whether the call returned normally. -/
def Res.isOk : Res → Bool
  | .ok _ => true
  | _ => false

/-- A `void` member function. -/
abbrev Run := World → Res

/-- Statement sequencing `f; g`. -/
def seq (f g : Run) : Run := fun w =>
  match f w with
  | .ok w1 => g w1
  | r => r

/-- The empty statement. -/
def skip : Run := fun w => .ok w

/-- The loop `for (int i = 0; i < n; i++) body(i)`. -/
def forLoop : Nat → (Nat → Run) → Run
  | 0, _ => skip
  | n + 1, body => seq (forLoop n body) (body n)

/-- Evaluation of `xs[i]` followed by `k` applied to the element; an index
outside the array is undefined behaviour. -/
def index {α : Type} (xs : List α) (i : Nat) (k : α → Run) : Run := fun w =>
  match xs[i]? with
  | some v => k v w
  | none => .undef w

/-! ## Build configuration and simulation state -/

/-- Compile-time parameters: the `GOMC_LIB_MPI` switch, the constant
`BOX_TOTAL` (an `int` macro defined in a header that is not part of the
sources, hence a parameter) and the host byte order. -/
structure Build where
  GOMC_LIB_MPI : Bool
  BOX_TOTAL : Nat
  order : ByteOrder
deriving DecidableEq, Repr

/-- Modelled from the spec: the class `XYZ` (its header is not part of the
sources), a point with the three `double` members the writer reads. -/
structure XYZ where
  x : Double
  y : Double
  z : Double
deriving DecidableEq, Repr

/-- Modelled from the spec: the class `XYZArray` (its header is not part of the
sources), an array of points; `Count()` is the length, `Get(i)` and
`operator[]` index it. -/
abbrev XYZArray := List XYZ

/-- Modelled from the spec: the class `BoxDimensions` (its header is not part of
the sources): for each box three axis lengths, `XYZArray axis`, and three
cosines, `double cosAngle[BOX_TOTAL][3]`. -/
structure BoxDimensions where
  axis : XYZArray
  cosAngle : List (List Double)
deriving DecidableEq, Repr

/-- Number of state words of the generator. -/
def N : Nat := 624

/-- Modelled from the spec: the class `MTRand` (MersenneTwister.h is not part of
the sources): the state vector `state[N]`, the read cursor `pNext` (kept as
its offset from `state`), the remaining-values counter `left` and the seed
`seedValue`. -/
structure MTRand where
  state : List Nat
  pNext : Nat
  left : Nat
  seedValue : Nat
deriving DecidableEq, Repr

/-- Modelled from the spec: `MTRand::save` (MersenneTwister.h is not part of
the sources). It stores the `N` state words and then `left` in consecutive
words from the caller's pointer on, `N + 1` words in all, as the comment in
`printRandomNumbers` records. `capacity` is the number of words of the
caller's array and the result is what that array holds afterwards: the first
`capacity` of the stored words. -/
def MTRand.save (g : MTRand) (capacity : Nat) : List Nat :=
  (g.state.take N ++ [g.left]).take capacity

/-- Modelled from the spec: the class `MoleculeLookup` (its header is not part
of the sources): the lookup array and the start-offset array, raw arrays with
their counts, the kind count `numKinds`, and the vector `fixedAtom`. -/
structure MoleculeLookup where
  molLookup : List Nat
  molLookupCount : Nat
  boxAndKindStart : List Nat
  boxAndKindStartCount : Nat
  numKinds : Nat
  fixedAtom : List Nat
deriving DecidableEq, Repr

/-- Modelled from the spec: the class `MoveSettings` (its header is not part of
the sources): the ten arrays the writer saves, with the element types of the
encoders they are passed to. -/
structure MoveSettings where
  scale : List (List (List Double))
  acceptPercent : List (List (List Double))
  accepted : List (List (List Nat))
  tries : List (List (List Nat))
  tempAccepted : List (List (List Nat))
  tempTries : List (List (List Nat))
  mp_tries : List (List Nat)
  mp_accepted : List (List Nat)
  mp_t_max : List Double
  mp_r_max : List Double
deriving DecidableEq, Repr

/-- The `CheckpointOutput` object (its members as the constructor and `Init`
set them): references into the live simulation and the settings stored by
`Init`. The member `outputFile` lives in `World`. -/
structure CheckpointOutput where
  moveSetRef : MoveSettings
  molLookupRef : MoleculeLookup
  boxDimRef : BoxDimensions
  prngRef : MTRand
  prngPTRef : MTRand
  coordCurrRef : XYZArray
  enableParallelTempering : Bool
  enableOutCheckpoint : Bool
  stepsPerCheckpoint : Nat
  filename : String
deriving DecidableEq, Repr

/-! ## Primitive codec -/

/-- What `outputFile == NULL` leads to in each codec function: the message
on `stderr` and `exit(EXIT_FAILURE)`. -/
def fatalNotOpen (filename : String) : Run := fun w =>
  .exit { w with stderr := w.stderr ++ ["Error opening checkpoint output file " ++ filename] }

def outputDoubleIn8Chars (cfg : Build) (filename : String) (data : Double) : Run := fun w =>
  if w.outputFile = false then fatalNotOpen filename w
  else .ok (w.emit (dbl_output_union cfg.order data))

def outputIntIn1Char (filename : String) (data : Nat) : Run := fun w =>
  if w.outputFile = false then fatalNotOpen filename w
  else .ok (w.emit (int8_input_union data))

def outputUintIn8Chars (cfg : Build) (filename : String) (data : Nat) : Run := fun w =>
  if w.outputFile = false then fatalNotOpen filename w
  else .ok (w.emit (uint32_output_union_assign cfg.order uint32_output_union_fresh data))

/-- The call `fopen(filename, "wb")`: on success the file is created or truncated. -/
def openOutputFile (filename : String) : Run := fun w =>
  if w.canOpen then .ok { w with outputFile := true, file := [] }
  else .exit { w with outputFile := false,
                      stderr := w.stderr ++ ["Error opening checkpoint output file " ++ filename] }

/-! ## Array section encoders -/

def printVector3DDouble (cfg : Build) (filename : String)
    (data : List (List (List Double))) : Run :=
  let size_x := data.length
  index data 0 fun d0 =>
  let size_y := d0.length
  index d0 0 fun d00 =>
  let size_z := d00.length
  seq (outputUintIn8Chars cfg filename size_x) <|
  seq (outputUintIn8Chars cfg filename size_y) <|
  seq (outputUintIn8Chars cfg filename size_z) <|
  forLoop size_x fun i =>
    forLoop size_y fun j =>
      forLoop size_z fun k =>
        index data i fun di => index di j fun dij => index dij k fun v =>
          outputDoubleIn8Chars cfg filename v

def printVector3DUint (cfg : Build) (filename : String)
    (data : List (List (List Nat))) : Run :=
  let size_x := data.length
  index data 0 fun d0 =>
  let size_y := d0.length
  index d0 0 fun d00 =>
  let size_z := d00.length
  seq (outputUintIn8Chars cfg filename size_x) <|
  seq (outputUintIn8Chars cfg filename size_y) <|
  seq (outputUintIn8Chars cfg filename size_z) <|
  forLoop size_x fun i =>
    forLoop size_y fun j =>
      forLoop size_z fun k =>
        index data i fun di => index di j fun dij => index dij k fun v =>
          outputUintIn8Chars cfg filename v

def printVector2DUint (cfg : Build) (filename : String) (data : List (List Nat)) : Run :=
  let size_x := data.length
  index data 0 fun d0 =>
  let size_y := d0.length
  seq (outputUintIn8Chars cfg filename size_x) <|
  seq (outputUintIn8Chars cfg filename size_y) <|
  forLoop size_x fun i =>
    forLoop size_y fun j =>
      index data i fun di => index di j fun v =>
        outputUintIn8Chars cfg filename v

def printVector1DDouble (cfg : Build) (filename : String) (data : List Double) : Run :=
  let size_x := data.length
  seq (outputUintIn8Chars cfg filename size_x) <|
  forLoop size_x fun i =>
    index data i fun v => outputDoubleIn8Chars cfg filename v

/-! ## Section writers -/

namespace CheckpointOutput

def printParallelTemperingBoolean (self : CheckpointOutput) : Run :=
  let s := if self.enableParallelTempering then 1 else 0
  outputIntIn1Char self.filename s

def printStepNumber (cfg : Build) (self : CheckpointOutput) (step : Nat) : Run :=
  let s := toUint32 (toUint32 step + 1)
  outputUintIn8Chars cfg self.filename s

def printBoxDimensionsData (cfg : Build) (self : CheckpointOutput) : Run :=
  let totalBoxes := toUint32 cfg.BOX_TOTAL
  seq (outputUintIn8Chars cfg self.filename totalBoxes) <|
  forLoop totalBoxes fun b =>
    index self.boxDimRef.axis b fun axis =>
    seq (outputDoubleIn8Chars cfg self.filename axis.x) <|
    seq (outputDoubleIn8Chars cfg self.filename axis.y) <|
    seq (outputDoubleIn8Chars cfg self.filename axis.z) <|
    seq (index self.boxDimRef.cosAngle b fun row => index row 0 fun c =>
          outputDoubleIn8Chars cfg self.filename c) <|
    seq (index self.boxDimRef.cosAngle b fun row => index row 1 fun c =>
          outputDoubleIn8Chars cfg self.filename c) <|
    index self.boxDimRef.cosAngle b fun row => index row 2 fun c =>
      outputDoubleIn8Chars cfg self.filename c

/-- The array is `new uint32_t[N + 1]`; the loop reads its elements `0` to
`N - 1`. -/
def printRandomNumbers (cfg : Build) (self : CheckpointOutput) : Run :=
  let saveArray := self.prngRef.save (N + 1)
  seq (forLoop N fun i =>
        index saveArray i fun v => outputUintIn8Chars cfg self.filename v) <|
  seq (outputUintIn8Chars cfg self.filename self.prngRef.pNext) <|
  seq (outputUintIn8Chars cfg self.filename self.prngRef.left) <|
  outputUintIn8Chars cfg self.filename self.prngRef.seedValue

/-- The array is `new uint32_t[N]`; the loop reads its elements `0` to `N - 1`,
which hold the state words. Compiled only under `GOMC_LIB_MPI`. -/
def printRandomNumbersParallelTempering (cfg : Build) (self : CheckpointOutput) : Run :=
  let saveArray := self.prngPTRef.save N
  seq (forLoop N fun i =>
        index saveArray i fun v => outputUintIn8Chars cfg self.filename v) <|
  seq (outputUintIn8Chars cfg self.filename self.prngPTRef.pNext) <|
  seq (outputUintIn8Chars cfg self.filename self.prngPTRef.left) <|
  outputUintIn8Chars cfg self.filename self.prngPTRef.seedValue

def printCoordinates (cfg : Build) (self : CheckpointOutput) : Run :=
  let count := toUint32 self.coordCurrRef.length
  seq (outputUintIn8Chars cfg self.filename count) <|
  forLoop count fun i =>
    seq (index self.coordCurrRef i fun p => outputDoubleIn8Chars cfg self.filename p.x) <|
    seq (index self.coordCurrRef i fun p => outputDoubleIn8Chars cfg self.filename p.y) <|
    index self.coordCurrRef i fun p => outputDoubleIn8Chars cfg self.filename p.z

def printMoleculeLookupData (cfg : Build) (self : CheckpointOutput) : Run :=
  let m := self.molLookupRef
  seq (outputUintIn8Chars cfg self.filename m.molLookupCount) <|
  seq (forLoop m.molLookupCount fun i =>
        index m.molLookup i fun v => outputUintIn8Chars cfg self.filename v) <|
  seq (outputUintIn8Chars cfg self.filename m.boxAndKindStartCount) <|
  seq (forLoop m.boxAndKindStartCount fun i =>
        index m.boxAndKindStart i fun v => outputUintIn8Chars cfg self.filename v) <|
  seq (outputUintIn8Chars cfg self.filename m.numKinds) <|
  seq (outputUintIn8Chars cfg self.filename (toUint32 m.fixedAtom.length)) <|
  forLoop m.fixedAtom.length fun i =>
    index m.fixedAtom i fun v => outputUintIn8Chars cfg self.filename v

def printMoveSettingsData (cfg : Build) (self : CheckpointOutput) : Run :=
  let ms := self.moveSetRef
  seq (printVector3DDouble cfg self.filename ms.scale) <|
  seq (printVector3DDouble cfg self.filename ms.acceptPercent) <|
  seq (printVector3DUint cfg self.filename ms.accepted) <|
  seq (printVector3DUint cfg self.filename ms.tries) <|
  seq (printVector3DUint cfg self.filename ms.tempAccepted) <|
  seq (printVector3DUint cfg self.filename ms.tempTries) <|
  seq (printVector2DUint cfg self.filename ms.mp_tries) <|
  seq (printVector2DUint cfg self.filename ms.mp_accepted) <|
  seq (printVector1DDouble cfg self.filename ms.mp_t_max) <|
  printVector1DDouble cfg self.filename ms.mp_r_max

/-- The part of `DoOutput` under `#if GOMC_LIB_MPI`. -/
def printParallelTemperingPart (cfg : Build) (self : CheckpointOutput) : Run :=
  if cfg.GOMC_LIB_MPI then
    seq (printParallelTemperingBoolean self) <|
      if self.enableParallelTempering then printRandomNumbersParallelTempering cfg self
      else skip
  else skip

/-- The line `std::cout << "Checkpoint saved to " << filename << std::endl`. -/
def printSaved (self : CheckpointOutput) : Run := fun w =>
  .ok { w with stdout := w.stdout ++ ["Checkpoint saved to " ++ self.filename] }

def DoOutput (cfg : Build) (self : CheckpointOutput) (step : Nat) : Run :=
  if self.enableOutCheckpoint then
    seq (openOutputFile self.filename) <|
    seq (printStepNumber cfg self step) <|
    seq (printBoxDimensionsData cfg self) <|
    seq (printRandomNumbers cfg self) <|
    seq (printCoordinates cfg self) <|
    seq (printMoleculeLookupData cfg self) <|
    seq (printMoveSettingsData cfg self) <|
    seq (printParallelTemperingPart cfg self) <|
    printSaved self
  else skip

end CheckpointOutput

/-! ## Vocabulary for the file layout -/

/-- The padded unsigned field: what `outputUintIn8Chars` appends for `v`. -/
def uintField (o : ByteOrder) (v : Nat) : List OutByte :=
  uint32_output_union_assign o uint32_output_union_fresh v

/-- The double field: what `outputDoubleIn8Chars` appends for `d`. -/
def dblField (o : ByteOrder) (d : Double) : List OutByte :=
  dbl_output_union o d

/-- The axis of box `b` (`axis.Get(b)`). -/
def BoxDimensions.axisOf (box : BoxDimensions) (b : Nat) : XYZ :=
  box.axis.getD b ⟨⟨0⟩, ⟨0⟩, ⟨0⟩⟩

/-- The entry `cosAngle[b][j]`. -/
def BoxDimensions.cosOf (box : BoxDimensions) (b j : Nat) : Double :=
  (box.cosAngle.getD b []).getD j ⟨0⟩

/-- The six doubles of box `b`, in file order. -/
def boxFields (o : ByteOrder) (box : BoxDimensions) (b : Nat) : List OutByte :=
  dblField o (box.axisOf b).x ++ dblField o (box.axisOf b).y ++ dblField o (box.axisOf b).z ++
  dblField o (box.cosOf b 0) ++ dblField o (box.cosOf b 1) ++ dblField o (box.cosOf b 2)

/-- The three doubles of one atom, in file order. -/
def xyzFields (o : ByteOrder) (p : XYZ) : List OutByte :=
  dblField o p.x ++ dblField o p.y ++ dblField o p.z

/-- An open, empty destination. -/
def blank : World :=
  { canOpen := true, outputFile := true, file := [], stdout := [], stderr := [] }

/-- The bytes a writer puts into an open, empty destination, when it
returns. -/
def written (r : Run) : Option (List OutByte) :=
  match r blank with
  | .ok w => some w.file
  | _ => none

/-- On every open destination `r` returns, having appended exactly `bs`. -/
def Emits (r : Run) (bs : List OutByte) : Prop :=
  ∀ w : World, w.outputFile = true → r w = .ok (w.emit bs)

/-- On no open destination does `r` return. -/
def Fails (r : Run) : Prop :=
  ∀ w : World, w.outputFile = true → (r w).isOk = false

/-- On open destinations the behaviour of `r` does not depend on the world:
it always appends the same bytes, or it never returns. -/
def Local (r : Run) : Prop :=
  (∃ bs, Emits r bs) ∨ Fails r

/-! ## Reading the format back -/

/-- The values of a run of bytes, when none of them is indeterminate. -/
def definite : List OutByte → Option (List Nat)
  | [] => some []
  | .val b :: bs => (definite bs).map (b :: ·)
  | .indet :: _ => none

/-- A reader consumes a prefix of the file and returns what it denotes. -/
abbrev Reader (α : Type) := List OutByte → Option (α × List OutByte)

/-- Read one padded unsigned field: the first four bytes, in the host byte
order, are the value; the other four are skipped whatever they are. -/
def readUint (o : ByteOrder) : Reader Nat := fun bs =>
  if bs.length < 8 then none
  else (definite (bs.take 4)).map fun ds => (objectValue o ds, bs.drop 8)

/-- Read one double field. -/
def readDouble (o : ByteOrder) : Reader Double := fun bs =>
  if bs.length < 8 then none
  else (definite (bs.take 8)).map fun ds => (⟨objectValue o ds⟩, bs.drop 8)

/-- The 32-bit logical value of a padded unsigned field. -/
def fieldValue (o : ByteOrder) (field : List OutByte) : Option Nat :=
  (readUint o field).map Prod.fst

/-- Run `p`, then the reader chosen by its result, on what `p` left. -/
def Reader.bind {α β : Type} (p : Reader α) (f : α → Reader β) : Reader β := fun bs =>
  (p bs).bind fun r => f r.1 r.2

/-- Consume nothing. -/
def Reader.pure {α : Type} (a : α) : Reader α := fun bs => some (a, bs)

/-- Read `n` items with `p`, one after the other. -/
def readMany {α : Type} (p : Reader α) : Nat → Reader (List α)
  | 0 => Reader.pure []
  | n + 1 => p.bind fun x => (readMany p n).bind fun xs => Reader.pure (x :: xs)

def readXYZ (o : ByteOrder) : Reader XYZ :=
  (readDouble o).bind fun x => (readDouble o).bind fun y => (readDouble o).bind fun z =>
    Reader.pure ⟨x, y, z⟩

/-- One box: the axis and the three cosines. -/
def readBox (o : ByteOrder) : Reader (XYZ × List Double) :=
  (readXYZ o).bind fun axis => (readMany (readDouble o) 3).bind fun cos =>
    Reader.pure (axis, cos)

def readBoxDimensions (o : ByteOrder) : Reader BoxDimensions :=
  (readUint o).bind fun totalBoxes => (readMany (readBox o) totalBoxes).bind fun boxes =>
    Reader.pure ⟨boxes.map Prod.fst, boxes.map Prod.snd⟩

def readGenerator (o : ByteOrder) : Reader MTRand :=
  (readMany (readUint o) N).bind fun state => (readUint o).bind fun pNext =>
  (readUint o).bind fun left => (readUint o).bind fun seedValue =>
    Reader.pure ⟨state, pNext, left, seedValue⟩

def readCoordinates (o : ByteOrder) : Reader XYZArray :=
  (readUint o).bind fun count => readMany (readXYZ o) count

def readMoleculeLookup (o : ByteOrder) : Reader MoleculeLookup :=
  (readUint o).bind fun molLookupCount =>
  (readMany (readUint o) molLookupCount).bind fun molLookup =>
  (readUint o).bind fun boxAndKindStartCount =>
  (readMany (readUint o) boxAndKindStartCount).bind fun boxAndKindStart =>
  (readUint o).bind fun numKinds =>
  (readUint o).bind fun fixedCount =>
  (readMany (readUint o) fixedCount).bind fun fixedAtom =>
    Reader.pure ⟨molLookup, molLookupCount, boxAndKindStart, boxAndKindStartCount, numKinds,
      fixedAtom⟩

/-- A 3D array: the three sizes, then `X` rows of `Y` cells of `Z` scalars. -/
def readArray3 {α : Type} (o : ByteOrder) (p : Reader α) : Reader (List (List (List α))) :=
  (readUint o).bind fun X => (readUint o).bind fun Y => (readUint o).bind fun Z =>
    readMany (readMany (readMany p Z) Y) X

def readArray2 {α : Type} (o : ByteOrder) (p : Reader α) : Reader (List (List α)) :=
  (readUint o).bind fun X => (readUint o).bind fun Y => readMany (readMany p Y) X

def readArray1 {α : Type} (o : ByteOrder) (p : Reader α) : Reader (List α) :=
  (readUint o).bind fun X => readMany p X

def readMoveSettings (o : ByteOrder) : Reader MoveSettings :=
  (readArray3 o (readDouble o)).bind fun scale =>
  (readArray3 o (readDouble o)).bind fun acceptPercent =>
  (readArray3 o (readUint o)).bind fun accepted =>
  (readArray3 o (readUint o)).bind fun tries =>
  (readArray3 o (readUint o)).bind fun tempAccepted =>
  (readArray3 o (readUint o)).bind fun tempTries =>
  (readArray2 o (readUint o)).bind fun mp_tries =>
  (readArray2 o (readUint o)).bind fun mp_accepted =>
  (readArray1 o (readDouble o)).bind fun mp_t_max =>
  (readArray1 o (readDouble o)).bind fun mp_r_max =>
    Reader.pure ⟨scale, acceptPercent, accepted, tries, tempAccepted, tempTries, mp_tries,
      mp_accepted, mp_t_max, mp_r_max⟩

/-- What a checkpoint holds: the step and the five parts of the state. -/
structure Snapshot where
  step : Nat
  boxDim : BoxDimensions
  prng : MTRand
  coordinates : XYZArray
  molLookup : MoleculeLookup
  moveSettings : MoveSettings
deriving DecidableEq, Repr

/-- The snapshot a `CheckpointOutput` object refers to at `step`. -/
def snapshotOf (self : CheckpointOutput) (step : Nat) : Snapshot :=
  { step := step, boxDim := self.boxDimRef, prng := self.prngRef,
    coordinates := self.coordCurrRef, molLookup := self.molLookupRef,
    moveSettings := self.moveSetRef }

/-- The reader of the six sections, in the writer's order; the step is the
stored counter minus one. -/
def readCheckpoint (o : ByteOrder) : Reader Snapshot :=
  (readUint o).bind fun next =>
  (readBoxDimensions o).bind fun boxDim =>
  (readGenerator o).bind fun prng =>
  (readCoordinates o).bind fun coordinates =>
  (readMoleculeLookup o).bind fun molLookup =>
  (readMoveSettings o).bind fun moveSettings =>
    Reader.pure ⟨next - 1, boxDim, prng, coordinates, molLookup, moveSettings⟩

/-- The reader `p` reads `x` from `bytes`, whatever follows them, and stops right
after. -/
def Decodes {α : Type} (p : Reader α) (bytes : List OutByte) (x : α) : Prop :=
  ∀ rest : List OutByte, p (bytes ++ rest) = some (x, rest)

/-! ## A small snapshot used to exercise the definitions -/

/-- State words of the demo generator. -/
def demoState : List Nat := List.range 624

def demoBuild : Build := { GOMC_LIB_MPI := false, BOX_TOTAL := 1, order := .little }

/-- One box with axis (10, 10, 10) and zero cosines, two atoms at (0, 0, 0)
and (1, 1, 1), seed 42, parallel tempering disabled. -/
def demo : CheckpointOutput :=
  { moveSetRef :=
      { scale := [[[⟨0x3FF0000000000000⟩], [⟨0x4024000000000000⟩]]]
        acceptPercent := [[[⟨0⟩], [⟨0x3FE0000000000000⟩]]]
        accepted := [[[3], [5]]]
        tries := [[[7], [9]]]
        tempAccepted := [[[1], [2]]]
        tempTries := [[[4], [6]]]
        mp_tries := [[8, 10]]
        mp_accepted := [[2, 3]]
        mp_t_max := [⟨0x3FF0000000000000⟩]
        mp_r_max := [⟨0x4024000000000000⟩] }
    molLookupRef :=
      { molLookup := [1, 0]
        molLookupCount := 2
        boxAndKindStart := [0, 2]
        boxAndKindStartCount := 2
        numKinds := 1
        fixedAtom := [0, 0] }
    boxDimRef :=
      { axis := [⟨⟨0x4024000000000000⟩, ⟨0x4024000000000000⟩, ⟨0x4024000000000000⟩⟩]
        cosAngle := [[⟨0⟩, ⟨0⟩, ⟨0⟩]] }
    prngRef := { state := demoState, pNext := 17, left := 607, seedValue := 42 }
    prngPTRef := { state := List.replicate 624 0, pNext := 0, left := 624, seedValue := 42 }
    coordCurrRef := [⟨⟨0⟩, ⟨0⟩, ⟨0⟩⟩,
                     ⟨⟨0x3FF0000000000000⟩, ⟨0x3FF0000000000000⟩, ⟨0x3FF0000000000000⟩⟩]
    enableParallelTempering := false
    enableOutCheckpoint := true
    stepsPerCheckpoint := 1000
    filename := "checkpoint.dat" }

/-- A destination that has not been opened yet and holds older contents. -/
def demoWorld : World :=
  { canOpen := true, outputFile := false, file := [.val 7, .indet], stdout := [], stderr := [] }

/-! ## Shapes of the move-statistics arrays -/

/-- A two-level array with `X` rows of `Y` entries each. -/
def Uniform2 {α : Type} (data : List (List α)) (X Y : Nat) : Prop :=
  data.length = X ∧ ∀ row, row ∈ data → row.length = Y

/-- A three-level array of dimensions `X × Y × Z`. -/
def Uniform3 {α : Type} (data : List (List (List α))) (X Y Z : Nat) : Prop :=
  data.length = X ∧ ∀ row, row ∈ data → Uniform2 row Y Z

instance {α : Type} (data : List (List α)) (X Y : Nat) : Decidable (Uniform2 data X Y) := by
  unfold Uniform2
  infer_instance

instance {α : Type} (data : List (List (List α))) (X Y Z : Nat) :
    Decidable (Uniform3 data X Y Z) := by
  unfold Uniform3
  infer_instance

/-- The scalars of a two-level array in row-major order. -/
def rowMajor2 {α : Type} (data : List (List α)) : List α := data.flatten

/-- The scalars of a three-level array in row-major order. -/
def rowMajor3 {α : Type} (data : List (List (List α))) : List α := data.flatten.flatten

/-- The element `data[i][j]`, when both indices are in range. -/
def at2 {α : Type} (data : List (List α)) (i j : Nat) : Option α :=
  data[i]?.bind fun row => row[j]?

/-- The element `data[i][j][k]`, when the three indices are in range. -/
def at3 {α : Type} (data : List (List (List α))) (i j k : Nat) : Option α :=
  (at2 data i j).bind fun cell => cell[k]?

/-! ## Sections of the file -/

/-- The destination file after a call that returned. -/
def Res.file? : Res → Option (List OutByte)
  | .ok w => some w.file
  | _ => none

/-- Concatenation, in list order and with nothing in between, of the bytes of
sections each of which was written; `none` as soon as one was not. -/
def concatSections : List (Option (List OutByte)) → Option (List OutByte)
  | [] => some []
  | s :: rest => s.bind fun a => (concatSections rest).map fun b => a ++ b

/-- Second extent of a nested array, `data[0].size()`. -/
def dimY {α : Type} (data : List (List α)) : Nat := (data.headD []).length

/-- Third extent of a nested array, `data[0][0].size()`. -/
def dimZ {α : Type} (data : List (List (List α))) : Nat := ((data.headD []).headD []).length

/-- A uniform 3D array whose two outer extents are not zero. -/
def Regular3 {α : Type} (data : List (List (List α))) : Prop :=
  1 ≤ data.length ∧ 1 ≤ dimY data ∧ Uniform3 data data.length (dimY data) (dimZ data)

/-- A uniform 2D array whose outer extent is not zero. -/
def Regular2 {α : Type} (data : List (List α)) : Prop :=
  1 ≤ data.length ∧ Uniform2 data data.length (dimY data)

instance {α : Type} (data : List (List (List α))) : Decidable (Regular3 data) := by
  unfold Regular3
  infer_instance

instance {α : Type} (data : List (List α)) : Decidable (Regular2 data) := by
  unfold Regular2
  infer_instance

/-- Layout of a 3D array section: three size fields, then the scalars in
row-major order. -/
def array3Bytes {α : Type} (o : ByteOrder) (enc : α → List OutByte)
    (data : List (List (List α))) : List OutByte :=
  uintField o data.length ++ (uintField o (dimY data) ++ (uintField o (dimZ data)
    ++ (rowMajor3 data).flatMap enc))

/-- Layout of a 2D array section. -/
def array2Bytes {α : Type} (o : ByteOrder) (enc : α → List OutByte)
    (data : List (List α)) : List OutByte :=
  uintField o data.length ++ (uintField o (dimY data) ++ (rowMajor2 data).flatMap enc)

/-- Layout of a 1D array section. -/
def array1Bytes {α : Type} (o : ByteOrder) (enc : α → List OutByte)
    (data : List α) : List OutByte :=
  uintField o data.length ++ data.flatMap enc

/-- The shape condition on the move statistics: every multi-dimensional
array is uniform with non-empty outer dimensions. -/
def RegularMoves (ms : MoveSettings) : Prop :=
  Regular3 ms.scale ∧ Regular3 ms.acceptPercent ∧ Regular3 ms.accepted ∧ Regular3 ms.tries ∧
  Regular3 ms.tempAccepted ∧ Regular3 ms.tempTries ∧ Regular2 ms.mp_tries ∧
  Regular2 ms.mp_accepted

instance (ms : MoveSettings) : Decidable (RegularMoves ms) := by
  unfold RegularMoves
  infer_instance

/-- Layout of the move-statistics section. -/
def moveSettingsBytes (o : ByteOrder) (ms : MoveSettings) : List OutByte :=
  array3Bytes o (dblField o) ms.scale ++ (array3Bytes o (dblField o) ms.acceptPercent
  ++ (array3Bytes o (uintField o) ms.accepted ++ (array3Bytes o (uintField o) ms.tries
  ++ (array3Bytes o (uintField o) ms.tempAccepted ++ (array3Bytes o (uintField o) ms.tempTries
  ++ (array2Bytes o (uintField o) ms.mp_tries ++ (array2Bytes o (uintField o) ms.mp_accepted
  ++ (array1Bytes o (dblField o) ms.mp_t_max ++ array1Bytes o (dblField o) ms.mp_r_max))))))))

/-! ## Well-typed and valid snapshots -/

/-- Every entry of a 3D array satisfies `P`. -/
def All3 {α : Type} (P : α → Prop) (data : List (List (List α))) : Prop :=
  ∀ row, row ∈ data → ∀ cell, cell ∈ row → ∀ v, v ∈ cell → P v

/-- Every entry of a 2D array satisfies `P`. -/
def All2 {α : Type} (P : α → Prop) (data : List (List α)) : Prop :=
  ∀ row, row ∈ data → ∀ v, v ∈ row → P v

/-- A 64-bit pattern. -/
def IsDouble (d : Double) : Prop := d.bits < 2 ^ 64

/-- A `uint` value. -/
def IsUint (v : Nat) : Prop := v < 2 ^ 32

def IsXYZ (p : XYZ) : Prop := IsDouble p.x ∧ IsDouble p.y ∧ IsDouble p.z

/-- The declarations the values come from: `double` and `uint` ranges,
`state[624]`, `cosAngle[BOX_TOTAL][3]`, an axis per box, and raw arrays that
hold as many entries as their counts say. -/
structure WellTyped (cfg : Build) (obj : CheckpointOutput) : Prop where
  boxTotal : cfg.BOX_TOTAL < 2 ^ 31
  axisCount : obj.boxDimRef.axis.length = cfg.BOX_TOTAL
  axisDouble : ∀ p, p ∈ obj.boxDimRef.axis → IsXYZ p
  cosCount : obj.boxDimRef.cosAngle.length = cfg.BOX_TOTAL
  cosRow : ∀ row, row ∈ obj.boxDimRef.cosAngle → row.length = 3
  cosDouble : ∀ row, row ∈ obj.boxDimRef.cosAngle → ∀ c, c ∈ row → IsDouble c
  stateCount : obj.prngRef.state.length = 624
  stateUint : ∀ v, v ∈ obj.prngRef.state → IsUint v
  pNextUint : IsUint obj.prngRef.pNext
  leftUint : IsUint obj.prngRef.left
  seedUint : IsUint obj.prngRef.seedValue
  coordDouble : ∀ p, p ∈ obj.coordCurrRef → IsXYZ p
  molLookupLength : obj.molLookupRef.molLookup.length = obj.molLookupRef.molLookupCount
  molLookupUint : ∀ v, v ∈ obj.molLookupRef.molLookup → IsUint v
  startLength :
    obj.molLookupRef.boxAndKindStart.length = obj.molLookupRef.boxAndKindStartCount
  startUint : ∀ v, v ∈ obj.molLookupRef.boxAndKindStart → IsUint v
  numKindsUint : IsUint obj.molLookupRef.numKinds
  fixedUint : ∀ v, v ∈ obj.molLookupRef.fixedAtom → IsUint v
  scaleDouble : All3 IsDouble obj.moveSetRef.scale
  acceptPercentDouble : All3 IsDouble obj.moveSetRef.acceptPercent
  acceptedUint : All3 IsUint obj.moveSetRef.accepted
  triesUint : All3 IsUint obj.moveSetRef.tries
  tempAcceptedUint : All3 IsUint obj.moveSetRef.tempAccepted
  tempTriesUint : All3 IsUint obj.moveSetRef.tempTries
  mpTriesUint : All2 IsUint obj.moveSetRef.mp_tries
  mpAcceptedUint : All2 IsUint obj.moveSetRef.mp_accepted
  mpTMaxDouble : ∀ d, d ∈ obj.moveSetRef.mp_t_max → IsDouble d
  mpRMaxDouble : ∀ d, d ∈ obj.moveSetRef.mp_r_max → IsDouble d

/-- The three extents of a 3D array are below `2^31`. -/
def SmallDims3 {α : Type} (data : List (List (List α))) : Prop :=
  data.length < 2 ^ 31 ∧ dimY data < 2 ^ 31 ∧ dimZ data < 2 ^ 31

/-- The two extents of a 2D array are below `2^31`. -/
def SmallDims2 {α : Type} (data : List (List α)) : Prop :=
  data.length < 2 ^ 31 ∧ dimY data < 2 ^ 31

/-- A valid snapshot: the step counter does not wrap, all counts and sizes
are below `2^31`, and every multi-dimensional array is uniform with non-empty
outer dimensions. -/
structure Valid (obj : CheckpointOutput) (step : Nat) : Prop where
  stepSmall : step + 1 < 2 ^ 32
  atoms : obj.coordCurrRef.length < 2 ^ 31
  molLookupCount : obj.molLookupRef.molLookupCount < 2 ^ 31
  startCount : obj.molLookupRef.boxAndKindStartCount < 2 ^ 31
  fixedCount : obj.molLookupRef.fixedAtom.length < 2 ^ 31
  regular : RegularMoves obj.moveSetRef
  scaleDims : SmallDims3 obj.moveSetRef.scale
  acceptPercentDims : SmallDims3 obj.moveSetRef.acceptPercent
  acceptedDims : SmallDims3 obj.moveSetRef.accepted
  triesDims : SmallDims3 obj.moveSetRef.tries
  tempAcceptedDims : SmallDims3 obj.moveSetRef.tempAccepted
  tempTriesDims : SmallDims3 obj.moveSetRef.tempTries
  mpTriesDims : SmallDims2 obj.moveSetRef.mp_tries
  mpAcceptedDims : SmallDims2 obj.moveSetRef.mp_accepted
  mpTMaxCount : obj.moveSetRef.mp_t_max.length < 2 ^ 31
  mpRMaxCount : obj.moveSetRef.mp_r_max.length < 2 ^ 31

/-- Layout of the six sections of a checkpoint. -/
def checkpointBytes (cfg : Build) (self : CheckpointOutput) (step : Nat) : List OutByte :=
  uintField cfg.order (step + 1)
  ++ ((uintField cfg.order cfg.BOX_TOTAL
        ++ (List.range cfg.BOX_TOTAL).flatMap (boxFields cfg.order self.boxDimRef))
  ++ ((self.prngRef.state.flatMap (uintField cfg.order)
        ++ (uintField cfg.order self.prngRef.pNext ++ (uintField cfg.order self.prngRef.left
        ++ uintField cfg.order self.prngRef.seedValue)))
  ++ ((uintField cfg.order self.coordCurrRef.length
        ++ self.coordCurrRef.flatMap (xyzFields cfg.order))
  ++ ((uintField cfg.order self.molLookupRef.molLookupCount
        ++ ((self.molLookupRef.molLookup.take self.molLookupRef.molLookupCount).flatMap
              (uintField cfg.order)
        ++ (uintField cfg.order self.molLookupRef.boxAndKindStartCount
        ++ ((self.molLookupRef.boxAndKindStart.take
              self.molLookupRef.boxAndKindStartCount).flatMap (uintField cfg.order)
        ++ (uintField cfg.order self.molLookupRef.numKinds
        ++ (uintField cfg.order self.molLookupRef.fixedAtom.length
        ++ self.molLookupRef.fixedAtom.flatMap (uintField cfg.order)))))))
  ++ moveSettingsBytes cfg.order self.moveSetRef))))

/-- Layout of a generator block: the state words, then the cursor offset, the
remaining count and the seed, each an unsigned field. -/
def generatorBlock (o : ByteOrder) (g : MTRand) : List OutByte :=
  g.state.flatMap (uintField o)
    ++ (uintField o g.pNext ++ (uintField o g.left ++ uintField o g.seedValue))

/-- Layout of what the part of `DoOutput` under `GOMC_LIB_MPI` writes: the flag
byte, followed by the block of the auxiliary generator when parallel tempering
is enabled; nothing in a build without `GOMC_LIB_MPI`. -/
def parallelTemperingTail (cfg : Build) (self : CheckpointOutput) : List OutByte :=
  if cfg.GOMC_LIB_MPI then
    int8_input_union (if self.enableParallelTempering then 1 else 0)
      ++ (if self.enableParallelTempering then generatorBlock cfg.order self.prngPTRef
          else [])
  else []

/-- The declaration of `MTRand`: `state[624]` and `uint32` members. -/
structure IsGenerator (g : MTRand) : Prop where
  stateCount : g.state.length = 624
  stateUint : ∀ v, v ∈ g.state → IsUint v
  pNextUint : IsUint g.pNext
  leftUint : IsUint g.left
  seedUint : IsUint g.seedValue

/-- The auxiliary generator is an `MTRand` where the writer looks at it: in a
`GOMC_LIB_MPI` build with parallel tempering enabled. -/
def AuxTyped (cfg : Build) (obj : CheckpointOutput) : Prop :=
  cfg.GOMC_LIB_MPI = true → obj.enableParallelTempering = true → IsGenerator obj.prngPTRef

/-- Reader of the flag byte. -/
def readFlag : Reader Nat := fun bs =>
  match bs with
  | .val v :: rest => some (v, rest)
  | _ => none

/-- Reader of the part written under `GOMC_LIB_MPI`: the flag, and the
auxiliary generator when the flag is 1. -/
def readParallelTempering (o : ByteOrder) : Reader (Bool × Option MTRand) :=
  readFlag.bind fun flag =>
    if flag = 1 then (readGenerator o).bind fun g => Reader.pure (true, some g)
    else Reader.pure (false, none)

/-- What `readParallelTempering` is to find: whether parallel tempering is
enabled, and the auxiliary generator if it is. -/
def auxiliaryOf (self : CheckpointOutput) : Bool × Option MTRand :=
  if self.enableParallelTempering then (true, some self.prngPTRef) else (false, none)

/-- The world `DoOutput` leaves on return: the file holds `bytes` and the
confirmation line is on the standard output. -/
def World.saved (w : World) (filename : String) (bytes : List OutByte) : World :=
  { w with outputFile := true, file := bytes,
           stdout := w.stdout ++ ["Checkpoint saved to " ++ filename] }

instance (d : Double) : Decidable (IsDouble d) := by
  unfold IsDouble
  infer_instance

instance (v : Nat) : Decidable (IsUint v) := by
  unfold IsUint
  infer_instance

instance (p : XYZ) : Decidable (IsXYZ p) := by
  unfold IsXYZ
  infer_instance

instance {α : Type} (P : α → Prop) [DecidablePred P] (data : List (List (List α))) :
    Decidable (All3 P data) := by
  unfold All3
  infer_instance

instance {α : Type} (P : α → Prop) [DecidablePred P] (data : List (List α)) :
    Decidable (All2 P data) := by
  unfold All2
  infer_instance

instance {α : Type} (data : List (List (List α))) : Decidable (SmallDims3 data) := by
  unfold SmallDims3
  infer_instance

instance {α : Type} (data : List (List α)) : Decidable (SmallDims2 data) := by
  unfold SmallDims2
  infer_instance

/-! ## Concrete files -/

/-- The file as it is on disk when every indeterminate byte happens to hold
`pad`. -/
def fill (pad : Nat) (emitted : List OutByte) : List Nat :=
  emitted.map fun b =>
    match b with
    | .val v => v
    | .indet => pad

/-- Whether a file on disk is a possible outcome of the emitted sequence:
same length, every definite byte as emitted, any byte value where the
emitted byte is indeterminate. -/
def realizes : List Nat → List OutByte → Bool
  | [], [] => true
  | c :: cs, .val v :: es => c == v && realizes cs es
  | c :: cs, .indet :: es => decide (c < 256) && realizes cs es
  | _, _ => false

/-! ## Construction and `Init` -/

/-- Modelled from the spec: the members of `System` (its header is not part of
the sources) that the constructor binds references to, with
`parallelTemperingEnabled` standing for `sys.ms->parallelTemperingEnabled`. -/
structure System where
  moveSettings : MoveSettings
  molLookupRef : MoleculeLookup
  boxDimRef : BoxDimensions
  prng : MTRand
  prngParallelTemp : MTRand
  parallelTemperingEnabled : Bool
  coordinates : XYZArray
deriving DecidableEq, Repr

/-- Modelled from the spec: `config_setup::Output::checkpoint` (its header is
not part of the sources), the switch and the step interval. -/
structure CheckpointSettings where
  enable : Bool
  frequency : Nat
deriving DecidableEq, Repr

/-- The constructor `CheckpointOutput::CheckpointOutput`. It gives no value to
`enableOutCheckpoint` and `stepsPerCheckpoint`; what these members hold
until `Init` runs is passed in. `filename` starts empty, and
`enableParallelTempering` is `false` in a build without `GOMC_LIB_MPI`. The
reference `molRef` is not read by any writer and is left out. -/
def CheckpointOutput.construct (cfg : Build) (sys : System)
    (unsetEnable : Bool) (unsetSteps : Nat) : CheckpointOutput :=
  { moveSetRef := sys.moveSettings
    molLookupRef := sys.molLookupRef
    boxDimRef := sys.boxDimRef
    prngRef := sys.prng
    prngPTRef := sys.prngParallelTemp
    enableParallelTempering := if cfg.GOMC_LIB_MPI then sys.parallelTemperingEnabled else false
    coordCurrRef := sys.coordinates
    enableOutCheckpoint := unsetEnable
    stepsPerCheckpoint := unsetSteps
    filename := "" }

/-- The body of the constructor: `outputFile = NULL`. -/
def CheckpointOutput.constructBody : Run := fun w =>
  .ok { w with outputFile := false }

/-- The member function `Init`; `pathToReplicaOutputDirectory` is read only
under `GOMC_LIB_MPI`. -/
def CheckpointOutput.Init (cfg : Build) (self : CheckpointOutput)
    (pathToReplicaOutputDirectory : String) (output : CheckpointSettings) : CheckpointOutput :=
  { self with
    enableOutCheckpoint := output.enable
    stepsPerCheckpoint := output.frequency
    filename :=
      if cfg.GOMC_LIB_MPI then pathToReplicaOutputDirectory ++ "checkpoint.dat"
      else "checkpoint.dat" }

/-- The simulation the demo snapshot is taken from. -/
def demoSystem : System :=
  { moveSettings := demo.moveSetRef
    molLookupRef := demo.molLookupRef
    boxDimRef := demo.boxDimRef
    prng := demo.prngRef
    prngParallelTemp := demo.prngPTRef
    parallelTemperingEnabled := true
    coordinates := demo.coordCurrRef }

/-! ## Outcomes other than return -/

/-- Whether the call ended in `exit(EXIT_FAILURE)`. -/
def Res.isExit : Res → Bool
  | .exit _ => true
  | _ => false

/-- Whether the call evaluated an index outside its array. -/
def Res.isUndef : Res → Bool
  | .undef _ => true
  | _ => false

/-- The demo destination when it cannot be opened. -/
def demoLocked : World :=
  { canOpen := false, outputFile := false, file := [.val 7, .indet], stdout := [], stderr := [] }

/-! ## Ragged arrays -/

/-- The scalars of a 3D array inside the extents `Y` and `Z`, in row-major
order: of every row the first `Y` cells, of each of them the first `Z`
scalars. -/
def clip3 {α : Type} (data : List (List (List α))) (Y Z : Nat) : List α :=
  data.flatMap fun row => (row.take Y).flatMap fun cell => cell.take Z

/-- The scalars of a 2D array inside the extent `Y`, in row-major order. -/
def clip2 {α : Type} (data : List (List α)) (Y : Nat) : List α :=
  data.flatMap fun row => row.take Y

/-- On an open destination `r` either evaluates an index outside its array or
returns having appended the fields of exactly `n` scalars. -/
def Scalars {α : Type} (enc : α → List OutByte) (r : Run) (n : Nat) : Prop :=
  ∀ w : World, w.outputFile = true →
    (r w).isUndef = true ∨
      ∃ scalars : List α, scalars.length = n ∧ r w = .ok (w.emit (scalars.flatMap enc))

/-- Every row reaches the second extent of the first row, and every cell
inside that extent reaches the third extent of the first cell: the indices
the 3D encoders evaluate in their loops are in range. -/
def Covers3 {α : Type} (data : List (List (List α))) : Prop :=
  ∀ row, row ∈ data → dimY data ≤ row.length ∧
    ∀ cell, cell ∈ row.take (dimY data) → dimZ data ≤ cell.length

/-- Every row reaches the second extent of the first row. -/
def Covers2 {α : Type} (data : List (List α)) : Prop :=
  ∀ row, row ∈ data → dimY data ≤ row.length

instance {α : Type} (data : List (List (List α))) : Decidable (Covers3 data) := by
  unfold Covers3
  infer_instance

instance {α : Type} (data : List (List α)) : Decidable (Covers2 data) := by
  unfold Covers2
  infer_instance

/-- A ragged 3D array: extents 2, 2, 2 by its first elements, with a longer
cell, a longer row and twelve scalars in all. -/
def raggedCounts : List (List (List Nat)) :=
  [[[1, 2], [3, 4, 5]], [[6, 7, 8], [9, 10], [11, 12]]]

/-! ## Sections, their lengths and offsets -/

/-- The step-counter field. -/
def stepBytes (cfg : Build) (step : Nat) : List OutByte :=
  uintField cfg.order (step + 1)

/-- Layout of the box section. -/
def boxBytes (cfg : Build) (self : CheckpointOutput) : List OutByte :=
  uintField cfg.order cfg.BOX_TOTAL
    ++ (List.range cfg.BOX_TOTAL).flatMap (boxFields cfg.order self.boxDimRef)

/-- Layout of the section of the primary generator. -/
def generatorBytes (cfg : Build) (self : CheckpointOutput) : List OutByte :=
  self.prngRef.state.flatMap (uintField cfg.order)
    ++ (uintField cfg.order self.prngRef.pNext ++ (uintField cfg.order self.prngRef.left
    ++ uintField cfg.order self.prngRef.seedValue))

/-- Layout of the coordinate section. -/
def coordinateBytes (cfg : Build) (self : CheckpointOutput) : List OutByte :=
  uintField cfg.order self.coordCurrRef.length
    ++ self.coordCurrRef.flatMap (xyzFields cfg.order)

/-- Layout of the lookup section. -/
def lookupBytes (cfg : Build) (self : CheckpointOutput) : List OutByte :=
  uintField cfg.order self.molLookupRef.molLookupCount
    ++ ((self.molLookupRef.molLookup.take self.molLookupRef.molLookupCount).flatMap
          (uintField cfg.order)
    ++ (uintField cfg.order self.molLookupRef.boxAndKindStartCount
    ++ ((self.molLookupRef.boxAndKindStart.take
          self.molLookupRef.boxAndKindStartCount).flatMap (uintField cfg.order)
    ++ (uintField cfg.order self.molLookupRef.numKinds
    ++ (uintField cfg.order self.molLookupRef.fixedAtom.length
    ++ self.molLookupRef.fixedAtom.flatMap (uintField cfg.order))))))

/-- Length of the box section: the count field and six doubles per box. -/
def boxLength (cfg : Build) : Nat := 8 + 48 * cfg.BOX_TOTAL

/-- Length of a generator section: 627 fields. -/
def generatorLength : Nat := 627 * 8

/-- Length of the coordinate section: the count field and three doubles per
atom. -/
def coordinateLength (self : CheckpointOutput) : Nat := 8 + 24 * self.coordCurrRef.length

/-- Length of the lookup section as its own count fields give it: four count
fields and one field per announced entry. -/
def lookupLength (m : MoleculeLookup) : Nat :=
  8 + 8 * m.molLookupCount + (8 + 8 * m.boxAndKindStartCount) + 8 + (8 + 8 * m.fixedAtom.length)

/-- Length of a 3D array section as its size fields give it. -/
def array3Length {α : Type} (data : List (List (List α))) : Nat :=
  24 + 8 * (data.length * dimY data * dimZ data)

/-- Length of a 2D array section as its size fields give it. -/
def array2Length {α : Type} (data : List (List α)) : Nat :=
  16 + 8 * (data.length * dimY data)

/-- Length of a 1D array section as its size field gives it. -/
def array1Length {α : Type} (data : List α) : Nat := 8 + 8 * data.length

/-- Length of the move-statistics section as its size fields give it. -/
def moveSettingsLength (ms : MoveSettings) : Nat :=
  array3Length ms.scale + array3Length ms.acceptPercent + array3Length ms.accepted
    + array3Length ms.tries + array3Length ms.tempAccepted + array3Length ms.tempTries
    + array2Length ms.mp_tries + array2Length ms.mp_accepted
    + array1Length ms.mp_t_max + array1Length ms.mp_r_max

/-- The `len` bytes of a file from byte offset `off` on. -/
def slice (file : List OutByte) (off len : Nat) : List OutByte :=
  (file.drop off).take len

/-- The demo build with `GOMC_LIB_MPI` defined. -/
def demoBuildMPI : Build := { GOMC_LIB_MPI := true, BOX_TOTAL := 1, order := .little }

/-- State words of the auxiliary generator of the demo replica. -/
def demoAuxState : List Nat := (List.range 624).map fun v => 2 * v + 1

/-- The demo snapshot as a replica: parallel tempering enabled, with an
auxiliary generator of its own. -/
def demoReplica : CheckpointOutput :=
  { demo with
    enableParallelTempering := true
    prngPTRef := { state := demoAuxState, pNext := 3, left := 621, seedValue := 7 } }

/-! ## The run calculus -/

@[simp] theorem emit_outputFile (w : World) (bs : List OutByte) :
    (w.emit bs).outputFile = w.outputFile := rfl

@[simp] theorem emit_file (w : World) (bs : List OutByte) :
    (w.emit bs).file = w.file ++ bs := rfl

@[simp] theorem emit_emit (w : World) (a b : List OutByte) :
    (w.emit a).emit b = w.emit (a ++ b) := by
  simp [World.emit, List.append_assoc]

@[simp] theorem emit_nil (w : World) : w.emit [] = w := by
  simp [World.emit]

theorem emits_skip : Emits skip [] := by
  intro w _
  simp [skip]

theorem emits_seq {f g : Run} {a b : List OutByte} (hf : Emits f a) (hg : Emits g b) :
    Emits (seq f g) (a ++ b) := by
  intro w hw
  simp [GOMC.seq, hf w hw, hg (w.emit a) (by simpa using hw)]

theorem emits_uint (cfg : Build) (fn : String) (v : Nat) :
    Emits (outputUintIn8Chars cfg fn v) (uintField cfg.order v) := by
  intro w hw
  simp [outputUintIn8Chars, hw, uintField]

theorem emits_double (cfg : Build) (fn : String) (d : Double) :
    Emits (outputDoubleIn8Chars cfg fn d) (dblField cfg.order d) := by
  intro w hw
  simp [outputDoubleIn8Chars, hw, dblField]

theorem emits_int1 (fn : String) (v : Nat) :
    Emits (outputIntIn1Char fn v) (int8_input_union v) := by
  intro w hw
  simp [outputIntIn1Char, hw]

theorem emits_index {α : Type} {xs : List α} {i : Nat} {k : α → Run} {v : α}
    {bs : List OutByte} (hv : xs[i]? = some v) (hk : Emits (k v) bs) :
    Emits (index xs i k) bs := by
  intro w hw
  simp [GOMC.index, hv, hk w hw]

theorem index_eq {α : Type} {xs : List α} {i : Nat} {k : α → Run} {v : α}
    (hv : xs[i]? = some v) : index xs i k = k v := by
  funext w
  simp [GOMC.index, hv]

theorem emits_forLoop {body : Nat → Run} {f : Nat → List OutByte} :
    ∀ n : Nat, (∀ i, i < n → Emits (body i) (f i)) →
      Emits (forLoop n body) ((List.range n).flatMap f)
  | 0, _ => by simpa [GOMC.forLoop] using emits_skip
  | n + 1, h => by
    have ih := emits_forLoop n (fun i hi => h i (Nat.lt_succ_of_lt hi))
    have hn := h n (Nat.lt_succ_self n)
    simpa [GOMC.forLoop, List.range_succ, List.flatMap_append] using emits_seq ih hn

/-- A loop that reads `xs[i]` for `i < n ≤ xs.length` emits the fields of the
first `n` elements in index order. -/
theorem emits_forIndex {α : Type} (xs : List α) (k : α → Run) (f : α → List OutByte)
    (hk : ∀ x, x ∈ xs → Emits (k x) (f x)) :
    ∀ n : Nat, n ≤ xs.length →
      Emits (forLoop n fun i => index xs i k) ((xs.take n).flatMap f)
  | 0, _ => by simpa [GOMC.forLoop] using emits_skip
  | n + 1, h => by
    have ih := emits_forIndex xs k f hk n (Nat.le_of_succ_le h)
    have hlt : n < xs.length := h
    have hx : xs[n]? = some xs[n] := List.getElem?_eq_getElem hlt
    have hn : Emits (index xs n k) (f xs[n]) :=
      emits_index hx (hk _ (List.getElem_mem hlt))
    have ht : (xs.take (n + 1)).flatMap f = (xs.take n).flatMap f ++ f xs[n] := by
      rw [List.take_succ, hx, List.flatMap_append]
      simp
    rw [ht]
    exact emits_seq ih hn

/-! ## Object representations -/

theorem demoState_length : demoState.length = 624 := List.length_range 624

theorem demo_state_length : demo.prngRef.state.length = 624 := by
  simp only [demo]
  exact demoState_length

theorem leBytes_length : ∀ (n v : Nat), (leBytes n v).length = n
  | 0, _ => rfl
  | n + 1, v => by simp [leBytes, leBytes_length n]

theorem leValue_leBytes : ∀ (n v : Nat), leValue (leBytes n v) = v % 256 ^ n
  | 0, v => by simp [leBytes, leValue, Nat.mod_one]
  | n + 1, v => by
    rw [leBytes, leValue, leValue_leBytes n, pow_succ, Nat.mul_comm (256 ^ n) 256, Nat.mod_mul]

theorem objectBytes_length (o : ByteOrder) (n v : Nat) : (objectBytes o n v).length = n := by
  cases o <;> simp [objectBytes, leBytes_length]

theorem objectValue_objectBytes (o : ByteOrder) (n v : Nat) :
    objectValue o (objectBytes o n v) = v % 256 ^ n := by
  cases o <;> simp [objectBytes, objectValue, leValue_leBytes]

theorem definite_map_val : ∀ ds : List Nat, definite (ds.map OutByte.val) = some ds
  | [] => rfl
  | d :: ds => by simp [definite, definite_map_val ds]

theorem uintField_eq (o : ByteOrder) (v : Nat) :
    uintField o v = (objectBytes o 4 (v % 2 ^ 32)).map OutByte.val
      ++ [OutByte.indet, OutByte.indet, OutByte.indet, OutByte.indet] := by
  simp [uintField, uint32_output_union_assign, uint32_output_union_fresh, toUint32]

theorem uintField_length (o : ByteOrder) (v : Nat) : (uintField o v).length = 8 := by
  simp [uintField_eq, objectBytes_length]

theorem dblField_length (o : ByteOrder) (d : Double) : (dblField o d).length = 8 := by
  simp [dblField, dbl_output_union, objectBytes_length]

theorem uintField_mod (o : ByteOrder) (v : Nat) : uintField o (v % 2 ^ 32) = uintField o v := by
  simp [uintField_eq]

theorem readUint_uintField (o : ByteOrder) (v : Nat) (rest : List OutByte) :
    readUint o (uintField o v ++ rest) = some (v % 2 ^ 32, rest) := by
  have h8 : (uintField o v).length = 8 := uintField_length o v
  have h4 : ((objectBytes o 4 (v % 2 ^ 32)).map OutByte.val).length = 4 := by
    simp [objectBytes_length]
  have hdrop : (uintField o v ++ rest).drop 8 = rest := by
    exact List.drop_left' h8
  have htake : (uintField o v ++ rest).take 4 = (objectBytes o 4 (v % 2 ^ 32)).map OutByte.val := by
    rw [uintField_eq, List.append_assoc]
    exact List.take_left' h4
  have hv : v % 2 ^ 32 % 256 ^ 4 = v % 2 ^ 32 := by
    have : (256 : Nat) ^ 4 = 2 ^ 32 := by norm_num
    rw [this, Nat.mod_mod]
  simp [readUint, h8, hdrop, htake, definite_map_val, objectValue_objectBytes, hv]

theorem readDouble_dblField (o : ByteOrder) (d : Double) (rest : List OutByte)
    (hd : d.bits < 2 ^ 64) :
    readDouble o (dblField o d ++ rest) = some (d, rest) := by
  have h8 : (dblField o d).length = 8 := dblField_length o d
  have hdrop : (dblField o d ++ rest).drop 8 = rest := by
    exact List.drop_left' h8
  have htake : (dblField o d ++ rest).take 8 = (objectBytes o 8 d.bits).map OutByte.val :=
    List.take_left' h8
  have hv : d.bits % 256 ^ 8 = d.bits := by
    have : (256 : Nat) ^ 8 = 2 ^ 64 := by norm_num
    rw [this, Nat.mod_eq_of_lt hd]
  have hlen : ¬ (dblField o d ++ rest).length < 8 := by
    rw [List.length_append, h8]
    omega
  unfold readDouble
  rw [if_neg hlen, hdrop, htake, definite_map_val, Option.map_some', objectValue_objectBytes, hv]

theorem fieldValue_uintField (o : ByteOrder) (v : Nat) :
    fieldValue o (uintField o v) = some (v % 2 ^ 32) := by
  have h := readUint_uintField o v []
  rw [List.append_nil] at h
  simp [fieldValue, h]

/-! ## List facts used by the layouts -/

theorem getElem?_getD {α : Type} {xs : List α} {i : Nat} (h : i < xs.length) (d : α) :
    xs[i]? = some (xs.getD i d) := by
  simp [List.getD, List.getElem?_eq_getElem h]

theorem mem_of_getElem? {α : Type} {xs : List α} {i : Nat} {x : α} (h : xs[i]? = some x) :
    x ∈ xs := by
  rw [List.getElem?_eq_some_iff] at h
  obtain ⟨hi, hx⟩ := h
  exact hx ▸ List.getElem_mem hi

theorem length_flatMap_const {α β : Type} (f : α → List β) (c : Nat) :
    ∀ xs : List α, (∀ x, x ∈ xs → (f x).length = c) → (xs.flatMap f).length = c * xs.length
  | [], _ => by simp
  | x :: xs, h => by
    have hx := h x (List.mem_cons_self x xs)
    have ih := length_flatMap_const f c xs (fun y hy => h y (List.mem_cons_of_mem x hy))
    rw [List.flatMap_cons, List.length_append, hx, ih, List.length_cons, Nat.mul_succ,
      Nat.add_comm]

theorem map_range_getD {α : Type} (xs : List α) (d : α) :
    (List.range xs.length).map (fun i => xs.getD i d) = xs := by
  apply List.ext_getElem
  · simp
  · intro i h1 h2
    simp [List.getD, List.getElem?_eq_getElem h2]

theorem flatMap_range_getD {α β : Type} (xs : List α) (d : α) (g : α → List β) :
    (List.range xs.length).flatMap (fun i => g (xs.getD i d)) = xs.flatMap g := by
  have h := congrArg (fun l => List.flatMap l g) (map_range_getD xs d)
  simpa [List.flatMap_map] using h

theorem xyzFields_length (o : ByteOrder) (p : XYZ) : (xyzFields o p).length = 24 := by
  simp [xyzFields, dblField_length]

theorem boxFields_length (o : ByteOrder) (box : BoxDimensions) (b : Nat) :
    (boxFields o box b).length = 48 := by
  simp [boxFields, dblField_length]

/-! ## Step counter, boxes, generator, coordinates, lookup tables -/

theorem toUint32_of_lt {v : Nat} (h : v < 2 ^ 32) : toUint32 v = v :=
  Nat.mod_eq_of_lt h

theorem emits_printStepNumber (cfg : Build) (self : CheckpointOutput) (step : Nat) :
    Emits (CheckpointOutput.printStepNumber cfg self step) (uintField cfg.order (step + 1)) := by
  have hfield : uintField cfg.order (toUint32 (toUint32 step + 1))
      = uintField cfg.order (step + 1) := by
    unfold toUint32
    rw [uintField_mod, ← uintField_mod cfg.order (step % 2 ^ 32 + 1),
      ← uintField_mod cfg.order (step + 1)]
    congr 1
    omega
  have h := emits_uint cfg self.filename (toUint32 (toUint32 step + 1))
  rw [hfield] at h
  exact h

theorem emits_printBoxDimensionsData (cfg : Build) (self : CheckpointOutput)
    (hB : cfg.BOX_TOTAL < 2 ^ 31)
    (haxis : self.boxDimRef.axis.length = cfg.BOX_TOTAL)
    (hcos : self.boxDimRef.cosAngle.length = cfg.BOX_TOTAL)
    (hrow : ∀ row, row ∈ self.boxDimRef.cosAngle → row.length = 3) :
    Emits (CheckpointOutput.printBoxDimensionsData cfg self)
      (uintField cfg.order cfg.BOX_TOTAL
        ++ (List.range cfg.BOX_TOTAL).flatMap (boxFields cfg.order self.boxDimRef)) := by
  unfold CheckpointOutput.printBoxDimensionsData
  rw [toUint32_of_lt (show cfg.BOX_TOTAL < 2 ^ 32 by omega)]
  refine emits_seq (emits_uint _ _ _) (emits_forLoop _ ?_)
  intro b hb
  have hax : self.boxDimRef.axis[b]? = some (self.boxDimRef.axisOf b) :=
    getElem?_getD (by omega) _
  have hr : self.boxDimRef.cosAngle[b]? = some (self.boxDimRef.cosAngle.getD b []) :=
    getElem?_getD (by omega) _
  have hmem : self.boxDimRef.cosAngle.getD b [] ∈ self.boxDimRef.cosAngle :=
    mem_of_getElem? hr
  have h3 := hrow _ hmem
  have hc : ∀ j, j < 3 →
      (self.boxDimRef.cosAngle.getD b [])[j]? = some (self.boxDimRef.cosOf b j) :=
    fun j hj => getElem?_getD (by omega) _
  rw [index_eq hax]
  simp only [index_eq hr, index_eq (hc 0 (by decide)), index_eq (hc 1 (by decide)),
    index_eq (hc 2 (by decide)), boxFields, List.append_assoc]
  exact emits_seq (emits_double _ _ _) (emits_seq (emits_double _ _ _)
    (emits_seq (emits_double _ _ _) (emits_seq (emits_double _ _ _)
      (emits_seq (emits_double _ _ _) (emits_double _ _ _)))))

theorem emits_printRandomNumbers (cfg : Build) (self : CheckpointOutput)
    (hstate : self.prngRef.state.length = 624) :
    Emits (CheckpointOutput.printRandomNumbers cfg self)
      (self.prngRef.state.flatMap (uintField cfg.order)
        ++ (uintField cfg.order self.prngRef.pNext ++ (uintField cfg.order self.prngRef.left
        ++ uintField cfg.order self.prngRef.seedValue))) := by
  have hsave : self.prngRef.save (N + 1)
      = self.prngRef.state ++ [self.prngRef.left] := by
    unfold MTRand.save
    rw [List.take_of_length_le (show self.prngRef.state.length ≤ N from Nat.le_of_eq hstate)]
    exact List.take_of_length_le (by simp [hstate, N])
  have hloop := emits_forIndex (self.prngRef.state ++ [self.prngRef.left])
    (fun v => outputUintIn8Chars cfg self.filename v) (uintField cfg.order)
    (fun x _ => emits_uint cfg self.filename x) N (by simp [hstate, N])
  have htake : (self.prngRef.state ++ [self.prngRef.left]).take N = self.prngRef.state :=
    List.take_left' hstate
  rw [htake] at hloop
  unfold CheckpointOutput.printRandomNumbers
  simp only [hsave]
  exact emits_seq hloop (emits_seq (emits_uint cfg self.filename self.prngRef.pNext)
    (emits_seq (emits_uint cfg self.filename self.prngRef.left)
      (emits_uint cfg self.filename self.prngRef.seedValue)))

/-- The array of `N` words holds exactly the state words after `save`, and the
writer emits the block of the auxiliary generator. -/
theorem emits_printRandomNumbersParallelTempering (cfg : Build) (self : CheckpointOutput)
    (hstate : self.prngPTRef.state.length = 624) :
    Emits (CheckpointOutput.printRandomNumbersParallelTempering cfg self)
      (generatorBlock cfg.order self.prngPTRef) := by
  have hsave : self.prngPTRef.save N = self.prngPTRef.state := by
    unfold MTRand.save
    rw [List.take_of_length_le (show self.prngPTRef.state.length ≤ N from Nat.le_of_eq hstate)]
    exact List.take_left' hstate
  have hloop := emits_forIndex self.prngPTRef.state
    (fun v => outputUintIn8Chars cfg self.filename v) (uintField cfg.order)
    (fun x _ => emits_uint cfg self.filename x) N (by simp [hstate, N])
  have htake : self.prngPTRef.state.take N = self.prngPTRef.state :=
    List.take_of_length_le (Nat.le_of_eq hstate)
  rw [htake] at hloop
  unfold CheckpointOutput.printRandomNumbersParallelTempering generatorBlock
  simp only [hsave]
  exact emits_seq hloop (emits_seq (emits_uint cfg self.filename self.prngPTRef.pNext)
    (emits_seq (emits_uint cfg self.filename self.prngPTRef.left)
      (emits_uint cfg self.filename self.prngPTRef.seedValue)))

theorem emits_printCoordinates (cfg : Build) (self : CheckpointOutput)
    (hn : self.coordCurrRef.length < 2 ^ 32) :
    Emits (CheckpointOutput.printCoordinates cfg self)
      (uintField cfg.order self.coordCurrRef.length
        ++ self.coordCurrRef.flatMap (xyzFields cfg.order)) := by
  unfold CheckpointOutput.printCoordinates
  rw [toUint32_of_lt hn,
    ← flatMap_range_getD self.coordCurrRef ⟨⟨0⟩, ⟨0⟩, ⟨0⟩⟩ (xyzFields cfg.order)]
  refine emits_seq (emits_uint _ _ _) (emits_forLoop _ ?_)
  intro i hi
  have hp := getElem?_getD hi (⟨⟨0⟩, ⟨0⟩, ⟨0⟩⟩ : XYZ)
  simp only [index_eq hp, xyzFields, List.append_assoc]
  exact emits_seq (emits_double _ _ _) (emits_seq (emits_double _ _ _) (emits_double _ _ _))

theorem emits_printMoleculeLookupData (cfg : Build) (self : CheckpointOutput)
    (h1 : self.molLookupRef.molLookupCount ≤ self.molLookupRef.molLookup.length)
    (h2 : self.molLookupRef.boxAndKindStartCount ≤ self.molLookupRef.boxAndKindStart.length)
    (hc3 : self.molLookupRef.fixedAtom.length < 2 ^ 32) :
    Emits (CheckpointOutput.printMoleculeLookupData cfg self)
      (uintField cfg.order self.molLookupRef.molLookupCount
        ++ ((self.molLookupRef.molLookup.take self.molLookupRef.molLookupCount).flatMap
              (uintField cfg.order)
        ++ (uintField cfg.order self.molLookupRef.boxAndKindStartCount
        ++ ((self.molLookupRef.boxAndKindStart.take
              self.molLookupRef.boxAndKindStartCount).flatMap (uintField cfg.order)
        ++ (uintField cfg.order self.molLookupRef.numKinds
        ++ (uintField cfg.order self.molLookupRef.fixedAtom.length
        ++ self.molLookupRef.fixedAtom.flatMap (uintField cfg.order))))))) := by
  have hl1 := emits_forIndex self.molLookupRef.molLookup
    (fun v => outputUintIn8Chars cfg self.filename v) (uintField cfg.order)
    (fun x _ => emits_uint cfg self.filename x) _ h1
  have hl2 := emits_forIndex self.molLookupRef.boxAndKindStart
    (fun v => outputUintIn8Chars cfg self.filename v) (uintField cfg.order)
    (fun x _ => emits_uint cfg self.filename x) _ h2
  have hl3 := emits_forIndex self.molLookupRef.fixedAtom
    (fun v => outputUintIn8Chars cfg self.filename v) (uintField cfg.order)
    (fun x _ => emits_uint cfg self.filename x) _ (Nat.le_refl _)
  rw [List.take_length] at hl3
  unfold CheckpointOutput.printMoleculeLookupData
  dsimp only
  rw [toUint32_of_lt hc3]
  exact emits_seq (emits_uint _ _ _) (emits_seq hl1 (emits_seq (emits_uint _ _ _)
    (emits_seq hl2 (emits_seq (emits_uint _ _ _) (emits_seq (emits_uint _ _ _) hl3)))))

theorem fieldValue_of_lt (o : ByteOrder) {v : Nat} (h : v < 2 ^ 32) :
    fieldValue o (uintField o v) = some v := by
  rw [fieldValue_uintField, Nat.mod_eq_of_lt h]

/-- C2: on an open destination `printStepNumber(step)` appends one padded
unsigned field of 8 bytes whose 32-bit logical value is `(step + 1) mod 2^32`,
which is `step + 1` itself whenever `step + 1 < 2^32`. -/
theorem printStepNumber_field (cfg : Build) (self : CheckpointOutput) (step : Nat)
    (w : World) (hopen : w.outputFile = true) :
    CheckpointOutput.printStepNumber cfg self step w
        = .ok (w.emit (uintField cfg.order (step + 1)))
      ∧ (uintField cfg.order (step + 1)).length = 8
      ∧ fieldValue cfg.order (uintField cfg.order (step + 1)) = some ((step + 1) % 2 ^ 32)
      ∧ (step + 1 < 2 ^ 32 →
          fieldValue cfg.order (uintField cfg.order (step + 1)) = some (step + 1)) :=
  ⟨emits_printStepNumber cfg self step w hopen, uintField_length _ _,
    fieldValue_uintField _ _, fun hlt => fieldValue_of_lt _ hlt⟩

/-- Instance of C2 at step 41 on the little-endian demo build. -/
theorem printStepNumber_field_witness :
    blank.outputFile = true ∧ 41 + 1 < 2 ^ 32 ∧
      CheckpointOutput.printStepNumber demoBuild demo 41 blank
        = .ok (blank.emit (uintField ByteOrder.little 42)) ∧
      fieldValue ByteOrder.little (uintField ByteOrder.little 42) = some 42 :=
  have h := printStepNumber_field demoBuild demo 41 blank rfl
  ⟨rfl, by decide, h.1, h.2.2.2 (by decide)⟩

/-- C4: for a generator whose state array has its 624 words, on an open
destination `printRandomNumbers` appends exactly 627 padded unsigned fields
(5016 bytes): the state words in index order, then the cursor offset, then
`left`, then the seed value. -/
theorem printRandomNumbers_layout (cfg : Build) (self : CheckpointOutput) (w : World)
    (hopen : w.outputFile = true) (hstate : self.prngRef.state.length = 624) :
    CheckpointOutput.printRandomNumbers cfg self w
        = .ok (w.emit ((self.prngRef.state
            ++ [self.prngRef.pNext, self.prngRef.left, self.prngRef.seedValue]).flatMap
              (uintField cfg.order)))
      ∧ (self.prngRef.state
            ++ [self.prngRef.pNext, self.prngRef.left, self.prngRef.seedValue]).length = 627
      ∧ ((self.prngRef.state
            ++ [self.prngRef.pNext, self.prngRef.left, self.prngRef.seedValue]).flatMap
              (uintField cfg.order)).length = 5016 := by
  have hlen : (self.prngRef.state
      ++ [self.prngRef.pNext, self.prngRef.left, self.prngRef.seedValue]).length = 627 := by
    simp [hstate]
  refine ⟨?_, hlen, ?_⟩
  · have h := emits_printRandomNumbers cfg self hstate w hopen
    simpa [List.flatMap_append, List.flatMap_cons] using h
  · rw [length_flatMap_const _ 8 _ (fun x _ => uintField_length _ x), hlen]

/-- Instance of C4: the primary generator of the demo snapshot. -/
theorem printRandomNumbers_layout_witness :
    blank.outputFile = true ∧ demo.prngRef.state.length = 624 ∧
      CheckpointOutput.printRandomNumbers demoBuild demo blank
        = .ok (blank.emit ((demo.prngRef.state
            ++ [demo.prngRef.pNext, demo.prngRef.left, demo.prngRef.seedValue]).flatMap
              (uintField demoBuild.order))) :=
  ⟨rfl, demo_state_length,
    (printRandomNumbers_layout demoBuild demo blank rfl demo_state_length).1⟩

/-- C5: for a coordinate set of `n < 2^31` atoms, on an open destination
`printCoordinates` appends the padded unsigned field `n` and then the triples
`x`, `y`, `z` as doubles in atom-index order, `8 + 24 * n` bytes in all; for
`n = 0` the section is the single count field, whose value is zero. -/
theorem printCoordinates_layout (cfg : Build) (self : CheckpointOutput) (w : World)
    (hopen : w.outputFile = true) (hn : self.coordCurrRef.length < 2 ^ 31) :
    CheckpointOutput.printCoordinates cfg self w
        = .ok (w.emit (uintField cfg.order self.coordCurrRef.length
            ++ self.coordCurrRef.flatMap (xyzFields cfg.order)))
      ∧ (uintField cfg.order self.coordCurrRef.length
            ++ self.coordCurrRef.flatMap (xyzFields cfg.order)).length
          = 8 + 24 * self.coordCurrRef.length
      ∧ fieldValue cfg.order (uintField cfg.order self.coordCurrRef.length)
          = some self.coordCurrRef.length
      ∧ (self.coordCurrRef.length = 0 →
          CheckpointOutput.printCoordinates cfg self w = .ok (w.emit (uintField cfg.order 0))
            ∧ fieldValue cfg.order (uintField cfg.order 0) = some 0) := by
  have hrun := emits_printCoordinates cfg self (show _ < 2 ^ 32 by omega) w hopen
  refine ⟨hrun, ?_, fieldValue_of_lt _ (by omega), ?_⟩
  · rw [List.length_append, uintField_length,
      length_flatMap_const _ 24 _ (fun p _ => xyzFields_length _ p)]
  · intro h0
    have hnil : self.coordCurrRef = [] := List.length_eq_zero.mp h0
    refine ⟨?_, fieldValue_of_lt _ (by decide)⟩
    rw [hrun, hnil]
    simp

/-- Instance of C5: the two atoms of the demo snapshot, and the same
snapshot without atoms. -/
theorem printCoordinates_layout_witness :
    blank.outputFile = true ∧ demo.coordCurrRef.length < 2 ^ 31 ∧
      CheckpointOutput.printCoordinates demoBuild demo blank
        = .ok (blank.emit (uintField demoBuild.order demo.coordCurrRef.length
            ++ demo.coordCurrRef.flatMap (xyzFields demoBuild.order))) ∧
      CheckpointOutput.printCoordinates demoBuild { demo with coordCurrRef := [] } blank
        = .ok (blank.emit (uintField demoBuild.order 0)) :=
  ⟨rfl, by decide, (printCoordinates_layout demoBuild demo blank rfl (by decide)).1,
    ((printCoordinates_layout demoBuild { demo with coordCurrRef := [] } blank rfl
      (by decide)).2.2.2 rfl).1⟩

/-- C6: for a lookup state whose raw arrays hold at least as many entries as
their counts say (counts and sizes being `uint` values), on an open
destination `printMoleculeLookupData` appends, all as padded unsigned fields,
`molLookupCount` and that many entries of `molLookup` in index order, then
`boxAndKindStartCount` and that many entries of `boxAndKindStart`, then
`numKinds`, then the length of `fixedAtom` and its entries; each length field
reads the number of entries that follow it. -/
theorem printMoleculeLookupData_layout (cfg : Build) (self : CheckpointOutput) (w : World)
    (hopen : w.outputFile = true)
    (h1 : self.molLookupRef.molLookupCount ≤ self.molLookupRef.molLookup.length)
    (h2 : self.molLookupRef.boxAndKindStartCount ≤ self.molLookupRef.boxAndKindStart.length)
    (hc1 : self.molLookupRef.molLookupCount < 2 ^ 32)
    (hc2 : self.molLookupRef.boxAndKindStartCount < 2 ^ 32)
    (hc3 : self.molLookupRef.fixedAtom.length < 2 ^ 32) :
    CheckpointOutput.printMoleculeLookupData cfg self w
        = .ok (w.emit (
            uintField cfg.order self.molLookupRef.molLookupCount
            ++ ((self.molLookupRef.molLookup.take self.molLookupRef.molLookupCount).flatMap
                  (uintField cfg.order)
            ++ (uintField cfg.order self.molLookupRef.boxAndKindStartCount
            ++ ((self.molLookupRef.boxAndKindStart.take
                  self.molLookupRef.boxAndKindStartCount).flatMap (uintField cfg.order)
            ++ (uintField cfg.order self.molLookupRef.numKinds
            ++ (uintField cfg.order self.molLookupRef.fixedAtom.length
            ++ self.molLookupRef.fixedAtom.flatMap (uintField cfg.order))))))))
      ∧ fieldValue cfg.order (uintField cfg.order self.molLookupRef.molLookupCount)
          = some (self.molLookupRef.molLookup.take self.molLookupRef.molLookupCount).length
      ∧ fieldValue cfg.order (uintField cfg.order self.molLookupRef.boxAndKindStartCount)
          = some (self.molLookupRef.boxAndKindStart.take
              self.molLookupRef.boxAndKindStartCount).length
      ∧ fieldValue cfg.order (uintField cfg.order self.molLookupRef.fixedAtom.length)
          = some self.molLookupRef.fixedAtom.length := by
  refine ⟨emits_printMoleculeLookupData cfg self h1 h2 hc3 w hopen, ?_, ?_,
    fieldValue_of_lt _ hc3⟩
  · rw [List.length_take, Nat.min_eq_left h1]
    exact fieldValue_of_lt _ hc1
  · rw [List.length_take, Nat.min_eq_left h2]
    exact fieldValue_of_lt _ hc2

/-- Instance of C6: the lookup tables of the demo snapshot. -/
theorem printMoleculeLookupData_layout_witness :
    blank.outputFile = true ∧
      demo.molLookupRef.molLookupCount ≤ demo.molLookupRef.molLookup.length ∧
      demo.molLookupRef.boxAndKindStartCount ≤ demo.molLookupRef.boxAndKindStart.length ∧
      demo.molLookupRef.molLookupCount < 2 ^ 32 ∧
      demo.molLookupRef.boxAndKindStartCount < 2 ^ 32 ∧
      demo.molLookupRef.fixedAtom.length < 2 ^ 32 ∧
      fieldValue demoBuild.order (uintField demoBuild.order demo.molLookupRef.molLookupCount)
          = some (demo.molLookupRef.molLookup.take demo.molLookupRef.molLookupCount).length :=
  ⟨rfl, by decide, by decide, by decide, by decide, by decide,
    (printMoleculeLookupData_layout demoBuild demo blank rfl (by decide) (by decide)
      (by decide) (by decide) (by decide)).2.1⟩

/-! ## Array encoders -/

/-- A loop whose `i`-th pass emits the fields of `xs[i]`, run for
`n ≤ xs.length` passes, emits the fields of the first `n` elements in index
order. -/
theorem emits_forTake {α : Type} {xs : List α} {body : Nat → Run} {f : α → List OutByte} :
    ∀ n : Nat, n ≤ xs.length →
      (∀ i x, i < n → xs[i]? = some x → Emits (body i) (f x)) →
      Emits (forLoop n body) ((xs.take n).flatMap f)
  | 0, _, _ => by simpa [GOMC.forLoop] using emits_skip
  | n + 1, h, hb => by
    have ih := emits_forTake (f := f) n (Nat.le_of_succ_le h)
      (fun i x hi hx => hb i x (Nat.lt_succ_of_lt hi) hx)
    have hlt : n < xs.length := h
    have hx : xs[n]? = some xs[n] := List.getElem?_eq_getElem hlt
    have hn : Emits (body n) (f xs[n]) := hb n _ (Nat.lt_succ_self n) hx
    have ht : (xs.take (n + 1)).flatMap f = (xs.take n).flatMap f ++ f xs[n] := by
      rw [List.take_succ, hx, List.flatMap_append]
      simp
    rw [ht]
    exact emits_seq ih hn

theorem emits_forAll {α : Type} {xs : List α} {body : Nat → Run} {f : α → List OutByte}
    (hb : ∀ i x, xs[i]? = some x → Emits (body i) (f x)) :
    Emits (forLoop xs.length body) (xs.flatMap f) := by
  have h := emits_forTake (f := f) xs.length (Nat.le_refl _) (fun i x _ hx => hb i x hx)
  rwa [List.take_length] at h

theorem flatMap_flatten {α β : Type} (f : α → List β) :
    ∀ xss : List (List α), xss.flatten.flatMap f = xss.flatMap (fun xs => xs.flatMap f)
  | [] => rfl
  | xs :: xss => by
    rw [List.flatten_cons, List.flatMap_append, List.flatMap_cons, flatMap_flatten f xss]

theorem flatMap_congr_mem {α β : Type} {f g : α → List β} :
    ∀ xs : List α, (∀ x, x ∈ xs → f x = g x) → xs.flatMap f = xs.flatMap g
  | [], _ => rfl
  | x :: xs, h => by
    rw [List.flatMap_cons, List.flatMap_cons, h x (List.mem_cons_self x xs),
      flatMap_congr_mem xs (fun y hy => h y (List.mem_cons_of_mem x hy))]

/-- The three nested loops of the 3D encoders, over rows and cells that reach
at least the extents `Y` and `Z`: the elements inside the extents are emitted
in row-major order. -/
theorem emits_loops3 {α : Type} (data : List (List (List α))) (Y Z : Nat) (k : α → Run)
    (enc : α → List OutByte) (hk : ∀ v, Emits (k v) (enc v))
    (hY : ∀ row, row ∈ data → Y ≤ row.length)
    (hZ : ∀ row, row ∈ data → ∀ cell, cell ∈ row → Z ≤ cell.length) :
    Emits (forLoop data.length fun i => forLoop Y fun j => forLoop Z fun l =>
        index data i fun di => index di j fun dij => index dij l k)
      (data.flatMap fun row => (row.take Y).flatMap fun cell => (cell.take Z).flatMap enc) := by
  refine emits_forAll ?_
  intro i row hrow
  refine emits_forTake Y (hY row (mem_of_getElem? hrow)) ?_
  intro j cell _ hcell
  refine emits_forTake Z (hZ row (mem_of_getElem? hrow) cell (mem_of_getElem? hcell)) ?_
  intro l v _ hv
  rw [index_eq hrow, index_eq hcell, index_eq hv]
  exact hk v

/-- The two nested loops of the 2D encoder. -/
theorem emits_loops2 {α : Type} (data : List (List α)) (Y : Nat) (k : α → Run)
    (enc : α → List OutByte) (hk : ∀ v, Emits (k v) (enc v))
    (hY : ∀ row, row ∈ data → Y ≤ row.length) :
    Emits (forLoop data.length fun i => forLoop Y fun j =>
        index data i fun di => index di j k)
      (data.flatMap fun row => (row.take Y).flatMap enc) := by
  refine emits_forAll ?_
  intro i row hrow
  refine emits_forTake Y (hY row (mem_of_getElem? hrow)) ?_
  intro j v _ hv
  rw [index_eq hrow, index_eq hv]
  exact hk v

theorem length_flatten_uniform {α : Type} (Y : Nat) :
    ∀ xss : List (List α), (∀ row, row ∈ xss → row.length = Y) →
      xss.flatten.length = xss.length * Y
  | [], _ => by simp
  | xs :: xss, h => by
    rw [List.flatten_cons, List.length_append, h xs (List.mem_cons_self xs xss),
      length_flatten_uniform Y xss (fun r hr => h r (List.mem_cons_of_mem xs hr)),
      List.length_cons, Nat.succ_mul, Nat.add_comm]

/-- Position of `data[i][j]` in the row-major order of rows of equal length. -/
theorem flatten_getElem?_uniform {α : Type} (Y : Nat) :
    ∀ (xss : List (List α)) (i j : Nat), (∀ row, row ∈ xss → row.length = Y) → j < Y →
      xss.flatten[i * Y + j]? = at2 xss i j
  | [], i, j, _, _ => by simp [at2]
  | xs :: xss, 0, j, h, hj => by
    have hlen := h xs (List.mem_cons_self xs xss)
    simp [at2, List.getElem?_append_left (show j < xs.length by omega)]
  | xs :: xss, i + 1, j, h, hj => by
    have hlen := h xs (List.mem_cons_self xs xss)
    have ih := flatten_getElem?_uniform Y xss i j
      (fun r hr => h r (List.mem_cons_of_mem xs hr)) hj
    have hidx : (i + 1) * Y + j = i * Y + j + xs.length := by
      rw [hlen, Nat.succ_mul]
      omega
    rw [List.flatten_cons, hidx,
      List.getElem?_append_right (show xs.length ≤ i * Y + j + xs.length by omega),
      Nat.add_sub_cancel, ih]
    simp [at2]

theorem mem_flatten_uniform {α : Type} {data : List (List (List α))} {X Y Z : Nat}
    (h : Uniform3 data X Y Z) : ∀ cell, cell ∈ data.flatten → cell.length = Z := by
  intro cell hc
  obtain ⟨row, hrow, hmem⟩ := List.mem_flatten.mp hc
  exact (h.2 row hrow).2 cell hmem

theorem rowMajor3_length {α : Type} {data : List (List (List α))} {X Y Z : Nat}
    (h : Uniform3 data X Y Z) : (rowMajor3 data).length = X * Y * Z := by
  unfold rowMajor3
  rw [length_flatten_uniform Z _ (mem_flatten_uniform h),
    length_flatten_uniform Y _ (fun row hr => (h.2 row hr).1), h.1]

theorem rowMajor3_getElem? {α : Type} {data : List (List (List α))} {X Y Z : Nat}
    (h : Uniform3 data X Y Z) (i j l : Nat) (hj : j < Y) (hl : l < Z) :
    (rowMajor3 data)[(i * Y + j) * Z + l]? = at3 data i j l := by
  unfold rowMajor3
  rw [flatten_getElem?_uniform Z _ _ _ (mem_flatten_uniform h) hl]
  unfold at2
  rw [flatten_getElem?_uniform Y _ _ _ (fun row hr => (h.2 row hr).1) hj]
  rfl

theorem at2_isSome {α : Type} {data : List (List α)} {X Y : Nat} (h : Uniform2 data X Y)
    (i j : Nat) (hi : i < X) (hj : j < Y) : (at2 data i j).isSome = true := by
  have hi2 : i < data.length := by rw [h.1]; exact hi
  have hrow := h.2 data[i] (List.getElem_mem hi2)
  have hj2 : j < data[i].length := by rw [hrow]; exact hj
  simp [at2, List.getElem?_eq_getElem hi2, List.getElem?_eq_getElem hj2]

theorem at3_isSome {α : Type} {data : List (List (List α))} {X Y Z : Nat}
    (h : Uniform3 data X Y Z) (i j l : Nat) (hi : i < X) (hj : j < Y) (hl : l < Z) :
    (at3 data i j l).isSome = true := by
  have hi2 : i < data.length := by rw [h.1]; exact hi
  have hrow := h.2 data[i] (List.getElem_mem hi2)
  have hj2 : j < data[i].length := by rw [hrow.1]; exact hj
  have hcell := hrow.2 data[i][j] (List.getElem_mem hj2)
  have hl2 : l < data[i][j].length := by rw [hcell]; exact hl
  simp [at3, at2, List.getElem?_eq_getElem hi2, List.getElem?_eq_getElem hj2,
    List.getElem?_eq_getElem hl2]

theorem emits_encode3 {α : Type} (cfg : Build) (fn : String) (k : α → Run)
    (enc : α → List OutByte) (hk : ∀ v, Emits (k v) (enc v))
    (data : List (List (List α))) (X Y Z : Nat) (h : Uniform3 data X Y Z)
    (hX : 1 ≤ X) (hY : 1 ≤ Y) :
    Emits (index data 0 fun d0 => index d0 0 fun d00 =>
        seq (outputUintIn8Chars cfg fn data.length) <|
        seq (outputUintIn8Chars cfg fn d0.length) <|
        seq (outputUintIn8Chars cfg fn d00.length) <|
        forLoop data.length fun i => forLoop d0.length fun j => forLoop d00.length fun l =>
          index data i fun di => index di j fun dij => index dij l k)
      (uintField cfg.order X ++ (uintField cfg.order Y ++ (uintField cfg.order Z
        ++ (rowMajor3 data).flatMap enc))) := by
  have h0 : 0 < data.length := by rw [h.1]; exact hX
  have hrow0 := h.2 data[0] (List.getElem_mem h0)
  have h00 : 0 < data[0].length := by rw [hrow0.1]; exact hY
  have hcell0 := hrow0.2 data[0][0] (List.getElem_mem h00)
  rw [index_eq (List.getElem?_eq_getElem h0), index_eq (List.getElem?_eq_getElem h00),
    hrow0.1, hcell0]
  have hloops := emits_loops3 data Y Z k enc hk
    (fun row hr => Nat.le_of_eq (h.2 row hr).1.symm)
    (fun row hr cell hc => Nat.le_of_eq ((h.2 row hr).2 cell hc).symm)
  have hbytes : (data.flatMap fun row => (row.take Y).flatMap fun cell =>
      (cell.take Z).flatMap enc) = (rowMajor3 data).flatMap enc := by
    unfold rowMajor3
    rw [flatMap_flatten, flatMap_flatten]
    refine flatMap_congr_mem _ fun row hr => ?_
    rw [List.take_of_length_le (Nat.le_of_eq (h.2 row hr).1)]
    refine flatMap_congr_mem _ fun cell hc => ?_
    rw [List.take_of_length_le (Nat.le_of_eq ((h.2 row hr).2 cell hc))]
  rw [hbytes] at hloops
  have hsizes := emits_seq (emits_uint cfg fn data.length)
    (emits_seq (emits_uint cfg fn Y) (emits_seq (emits_uint cfg fn Z) hloops))
  rw [h.1] at hsizes
  rw [h.1]
  exact hsizes

theorem emits_encode2 {α : Type} (cfg : Build) (fn : String) (k : α → Run)
    (enc : α → List OutByte) (hk : ∀ v, Emits (k v) (enc v))
    (data : List (List α)) (X Y : Nat) (h : Uniform2 data X Y) (hX : 1 ≤ X) :
    Emits (index data 0 fun d0 =>
        seq (outputUintIn8Chars cfg fn data.length) <|
        seq (outputUintIn8Chars cfg fn d0.length) <|
        forLoop data.length fun i => forLoop d0.length fun j =>
          index data i fun di => index di j k)
      (uintField cfg.order X ++ (uintField cfg.order Y ++ (rowMajor2 data).flatMap enc)) := by
  have h0 : 0 < data.length := by rw [h.1]; exact hX
  have hrow0 := h.2 data[0] (List.getElem_mem h0)
  rw [index_eq (List.getElem?_eq_getElem h0), hrow0]
  have hloops := emits_loops2 data Y k enc hk (fun row hr => Nat.le_of_eq (h.2 row hr).symm)
  have hbytes : (data.flatMap fun row => (row.take Y).flatMap enc)
      = (rowMajor2 data).flatMap enc := by
    unfold rowMajor2
    rw [flatMap_flatten]
    refine flatMap_congr_mem _ fun row hr => ?_
    rw [List.take_of_length_le (Nat.le_of_eq (h.2 row hr))]
  rw [hbytes] at hloops
  have hsizes := emits_seq (emits_uint cfg fn data.length) (emits_seq (emits_uint cfg fn Y) hloops)
  rw [h.1] at hsizes
  rw [h.1]
  exact hsizes

theorem emits_printVector3DDouble (cfg : Build) (fn : String)
    (data : List (List (List Double))) (X Y Z : Nat) (h : Uniform3 data X Y Z)
    (hX : 1 ≤ X) (hY : 1 ≤ Y) :
    Emits (printVector3DDouble cfg fn data)
      (uintField cfg.order X ++ (uintField cfg.order Y ++ (uintField cfg.order Z
        ++ (rowMajor3 data).flatMap (dblField cfg.order)))) :=
  emits_encode3 cfg fn _ _ (emits_double cfg fn) data X Y Z h hX hY

theorem emits_printVector3DUint (cfg : Build) (fn : String)
    (data : List (List (List Nat))) (X Y Z : Nat) (h : Uniform3 data X Y Z)
    (hX : 1 ≤ X) (hY : 1 ≤ Y) :
    Emits (printVector3DUint cfg fn data)
      (uintField cfg.order X ++ (uintField cfg.order Y ++ (uintField cfg.order Z
        ++ (rowMajor3 data).flatMap (uintField cfg.order)))) :=
  emits_encode3 cfg fn _ _ (emits_uint cfg fn) data X Y Z h hX hY

theorem emits_printVector2DUint (cfg : Build) (fn : String)
    (data : List (List Nat)) (X Y : Nat) (h : Uniform2 data X Y) (hX : 1 ≤ X) :
    Emits (printVector2DUint cfg fn data)
      (uintField cfg.order X ++ (uintField cfg.order Y
        ++ (rowMajor2 data).flatMap (uintField cfg.order))) :=
  emits_encode2 cfg fn _ _ (emits_uint cfg fn) data X Y h hX

theorem emits_printVector1DDouble (cfg : Build) (fn : String) (data : List Double) :
    Emits (printVector1DDouble cfg fn data)
      (uintField cfg.order data.length ++ data.flatMap (dblField cfg.order)) := by
  refine emits_seq (emits_uint cfg fn data.length) (emits_forAll ?_)
  intro i v hv
  rw [index_eq hv]
  exact emits_double cfg fn v

/-- C8: on an open destination, for a uniform `X × Y × Z` array with `X ≥ 1` and
`Y ≥ 1`, `printVector3DDouble` and `printVector3DUint` append the size fields
`X`, `Y`, `Z` and then the `X * Y * Z` scalars in row-major order, element
`data[i][j][k]` being the scalar at position `(i * Y + j) * Z + k`;
`printVector2DUint` (uniform `X × Y`, `X ≥ 1`) and `printVector1DDouble` do the
same with two and one size fields. The size fields come first, and a size
below `2^31` is the value its field reads. -/
theorem arrayEncoders_layout (cfg : Build) (fn : String) (w : World)
    (hopen : w.outputFile = true) :
    (∀ (data : List (List (List Double))) (X Y Z : Nat),
        Uniform3 data X Y Z → 1 ≤ X → 1 ≤ Y →
        printVector3DDouble cfg fn data w
          = .ok (w.emit (uintField cfg.order X ++ (uintField cfg.order Y
              ++ (uintField cfg.order Z ++ (rowMajor3 data).flatMap (dblField cfg.order))))))
    ∧ (∀ (data : List (List (List Nat))) (X Y Z : Nat),
        Uniform3 data X Y Z → 1 ≤ X → 1 ≤ Y →
        printVector3DUint cfg fn data w
          = .ok (w.emit (uintField cfg.order X ++ (uintField cfg.order Y
              ++ (uintField cfg.order Z ++ (rowMajor3 data).flatMap (uintField cfg.order))))))
    ∧ (∀ (data : List (List Nat)) (X Y : Nat),
        Uniform2 data X Y → 1 ≤ X →
        printVector2DUint cfg fn data w
          = .ok (w.emit (uintField cfg.order X ++ (uintField cfg.order Y
              ++ (rowMajor2 data).flatMap (uintField cfg.order)))))
    ∧ (∀ (data : List Double),
        printVector1DDouble cfg fn data w
          = .ok (w.emit (uintField cfg.order data.length
              ++ data.flatMap (dblField cfg.order))))
    ∧ (∀ d : Nat, d < 2 ^ 31 → fieldValue cfg.order (uintField cfg.order d) = some d)
    ∧ (∀ (α : Type) (data : List (List (List α))) (X Y Z : Nat), Uniform3 data X Y Z →
        (rowMajor3 data).length = X * Y * Z
        ∧ ∀ i j l : Nat, i < X → j < Y → l < Z →
            (at3 data i j l).isSome = true
            ∧ (rowMajor3 data)[(i * Y + j) * Z + l]? = at3 data i j l)
    ∧ (∀ (α : Type) (data : List (List α)) (X Y : Nat), Uniform2 data X Y →
        (rowMajor2 data).length = X * Y
        ∧ ∀ i j : Nat, i < X → j < Y →
            (at2 data i j).isSome = true
            ∧ (rowMajor2 data)[i * Y + j]? = at2 data i j) := by
  refine ⟨?_, ?_, ?_, ?_, ?_, ?_, ?_⟩
  · intro data X Y Z h hX hY
    exact emits_printVector3DDouble cfg fn data X Y Z h hX hY w hopen
  · intro data X Y Z h hX hY
    exact emits_printVector3DUint cfg fn data X Y Z h hX hY w hopen
  · intro data X Y h hX
    exact emits_printVector2DUint cfg fn data X Y h hX w hopen
  · intro data
    exact emits_printVector1DDouble cfg fn data w hopen
  · intro d hd
    rw [fieldValue_uintField]
    exact congrArg some (Nat.mod_eq_of_lt (by omega))
  · intro α data X Y Z h
    refine ⟨rowMajor3_length h, ?_⟩
    intro i j l hi hj hl
    exact ⟨at3_isSome h i j l hi hj hl, rowMajor3_getElem? h i j l hj hl⟩
  · intro α data X Y h
    refine ⟨?_, ?_⟩
    · unfold rowMajor2
      rw [length_flatten_uniform Y data h.2, h.1]
    · intro i j hi hj
      exact ⟨at2_isSome h i j hi hj, flatten_getElem?_uniform Y data i j h.2 hj⟩

/-- Instance of C8: the `1 × 2 × 1` array `scale` of the demo snapshot; its element
`[0][1][0]` is the scalar at position 1. -/
theorem arrayEncoders_layout_witness :
    blank.outputFile = true ∧ Uniform3 demo.moveSetRef.scale 1 2 1 ∧
      printVector3DDouble demoBuild demo.filename demo.moveSetRef.scale blank
        = .ok (blank.emit (uintField demoBuild.order 1 ++ (uintField demoBuild.order 2
            ++ (uintField demoBuild.order 1
              ++ (rowMajor3 demo.moveSetRef.scale).flatMap (dblField demoBuild.order))))) ∧
      (rowMajor3 demo.moveSetRef.scale)[(0 * 2 + 1) * 1 + 0]? = at3 demo.moveSetRef.scale 0 1 0 :=
  have h := arrayEncoders_layout demoBuild demo.filename blank rfl
  ⟨rfl, by decide,
    h.1 demo.moveSetRef.scale 1 2 1 (by decide) (by decide) (by decide),
    ((h.2.2.2.2.2.1 Double demo.moveSetRef.scale 1 2 1 (by decide)).2 0 1 0
      (by decide) (by decide) (by decide)).2⟩

/-! ## Locality of the writers -/

theorem written_of_emits {r : Run} {bs : List OutByte} (h : Emits r bs) :
    written r = some bs := by
  unfold written
  rw [h blank rfl]
  simp [World.emit, blank]

theorem written_of_fails {r : Run} (h : Fails r) : written r = none := by
  have hb := h blank rfl
  unfold written
  cases hr : r blank with
  | ok w => rw [hr] at hb; simp [Res.isOk] at hb
  | exit w => rfl
  | undef w => rfl

theorem fails_seq_left {f : Run} (g : Run) (hf : Fails f) : Fails (seq f g) := by
  intro w hw
  have h := hf w hw
  unfold GOMC.seq
  cases hr : f w with
  | ok w1 => rw [hr] at h; simp [Res.isOk] at h
  | exit w1 => rfl
  | undef w1 => rfl

theorem fails_seq_right {f g : Run} {a : List OutByte} (hf : Emits f a) (hg : Fails g) :
    Fails (seq f g) := by
  intro w hw
  have h := hg (w.emit a) (by simpa using hw)
  simpa [GOMC.seq, hf w hw] using h

theorem local_of_emits {r : Run} {bs : List OutByte} (h : Emits r bs) : Local r :=
  Or.inl ⟨bs, h⟩

theorem local_seq {f g : Run} (hf : Local f) (hg : Local g) : Local (seq f g) := by
  rcases hf with ⟨a, ha⟩ | hf
  · rcases hg with ⟨b, hb⟩ | hg
    · exact Or.inl ⟨a ++ b, emits_seq ha hb⟩
    · exact Or.inr (fails_seq_right ha hg)
  · exact Or.inr (fails_seq_left g hf)

theorem written_seq {f g : Run} (hf : Local f) (hg : Local g) :
    written (seq f g) = concatSections [written f, written g] := by
  rcases hf with ⟨a, ha⟩ | hf
  · rcases hg with ⟨b, hb⟩ | hg
    · rw [written_of_emits (emits_seq ha hb), written_of_emits ha, written_of_emits hb]
      simp [concatSections]
    · rw [written_of_fails (fails_seq_right ha hg), written_of_emits ha, written_of_fails hg]
      simp [concatSections]
  · rw [written_of_fails (fails_seq_left g hf), written_of_fails hf]
    simp [concatSections]

theorem concatSections_cons_written {f g : Run} (hf : Local f) (hg : Local g)
    (rest : List (Option (List OutByte))) (h : written g = concatSections rest) :
    written (seq f g) = concatSections (written f :: rest) := by
  rw [written_seq hf hg]
  simp only [concatSections, ← h]
  cases written f <;> cases written g <;> simp

theorem local_skip : Local skip := local_of_emits emits_skip

theorem local_uint (cfg : Build) (fn : String) (v : Nat) : Local (outputUintIn8Chars cfg fn v) :=
  local_of_emits (emits_uint cfg fn v)

theorem local_double (cfg : Build) (fn : String) (d : Double) :
    Local (outputDoubleIn8Chars cfg fn d) :=
  local_of_emits (emits_double cfg fn d)

theorem local_index {α : Type} (xs : List α) (i : Nat) {k : α → Run}
    (hk : ∀ v, Local (k v)) : Local (index xs i k) := by
  cases hv : xs[i]? with
  | some v => rw [index_eq hv]; exact hk v
  | none =>
    refine Or.inr ?_
    intro w _
    simp [GOMC.index, hv, Res.isOk]

theorem local_forLoop {body : Nat → Run} (hb : ∀ i, Local (body i)) :
    ∀ n : Nat, Local (forLoop n body)
  | 0 => local_skip
  | n + 1 => local_seq (local_forLoop hb n) (hb n)

/-- On an open destination a local writer appends what it writes into an
empty one, or does not return. -/
theorem file?_of_local {r : Run} (hr : Local r) (w : World) (hw : w.outputFile = true) :
    (r w).file? = (written r).map fun bs => w.file ++ bs := by
  rcases hr with ⟨bs, hbs⟩ | hf
  · rw [hbs w hw, written_of_emits hbs]
    rfl
  · rw [written_of_fails hf]
    have h := hf w hw
    cases hrw : r w with
    | ok w1 => rw [hrw] at h; simp [Res.isOk] at h
    | exit w1 => rfl
    | undef w1 => rfl

theorem local_printVector3DDouble (cfg : Build) (fn : String)
    (data : List (List (List Double))) : Local (printVector3DDouble cfg fn data) :=
  local_index _ _ fun _ => local_index _ _ fun _ =>
    local_seq (local_uint _ _ _) <| local_seq (local_uint _ _ _) <|
    local_seq (local_uint _ _ _) <|
    local_forLoop (fun _ => local_forLoop (fun _ => local_forLoop (fun _ =>
      local_index _ _ fun _ => local_index _ _ fun _ => local_index _ _ fun _ =>
        local_double _ _ _) _) _) _

theorem local_printVector3DUint (cfg : Build) (fn : String)
    (data : List (List (List Nat))) : Local (printVector3DUint cfg fn data) :=
  local_index _ _ fun _ => local_index _ _ fun _ =>
    local_seq (local_uint _ _ _) <| local_seq (local_uint _ _ _) <|
    local_seq (local_uint _ _ _) <|
    local_forLoop (fun _ => local_forLoop (fun _ => local_forLoop (fun _ =>
      local_index _ _ fun _ => local_index _ _ fun _ => local_index _ _ fun _ =>
        local_uint _ _ _) _) _) _

theorem local_printVector2DUint (cfg : Build) (fn : String)
    (data : List (List Nat)) : Local (printVector2DUint cfg fn data) :=
  local_index _ _ fun _ =>
    local_seq (local_uint _ _ _) <| local_seq (local_uint _ _ _) <|
    local_forLoop (fun _ => local_forLoop (fun _ =>
      local_index _ _ fun _ => local_index _ _ fun _ => local_uint _ _ _) _) _

theorem local_printVector1DDouble (cfg : Build) (fn : String)
    (data : List Double) : Local (printVector1DDouble cfg fn data) :=
  local_seq (local_uint _ _ _) <|
    local_forLoop (fun _ => local_index _ _ fun _ => local_double _ _ _) _

theorem local_printStepNumber (cfg : Build) (self : CheckpointOutput) (step : Nat) :
    Local (CheckpointOutput.printStepNumber cfg self step) :=
  local_uint _ _ _

theorem local_printBoxDimensionsData (cfg : Build) (self : CheckpointOutput) :
    Local (CheckpointOutput.printBoxDimensionsData cfg self) :=
  local_seq (local_uint _ _ _) <| local_forLoop (fun _ =>
    local_index _ _ fun _ =>
      local_seq (local_double _ _ _) <| local_seq (local_double _ _ _) <|
      local_seq (local_double _ _ _) <|
      local_seq (local_index _ _ fun _ => local_index _ _ fun _ => local_double _ _ _) <|
      local_seq (local_index _ _ fun _ => local_index _ _ fun _ => local_double _ _ _) <|
      local_index _ _ fun _ => local_index _ _ fun _ => local_double _ _ _) _

theorem local_printRandomNumbers (cfg : Build) (self : CheckpointOutput) :
    Local (CheckpointOutput.printRandomNumbers cfg self) := by
  unfold CheckpointOutput.printRandomNumbers
  exact local_seq (local_forLoop (fun _ => local_index _ _ fun _ => local_uint _ _ _) _) <|
    local_seq (local_uint _ _ _) <| local_seq (local_uint _ _ _) (local_uint _ _ _)

theorem local_printRandomNumbersParallelTempering (cfg : Build) (self : CheckpointOutput) :
    Local (CheckpointOutput.printRandomNumbersParallelTempering cfg self) := by
  unfold CheckpointOutput.printRandomNumbersParallelTempering
  exact local_seq (local_forLoop (fun _ => local_index _ _ fun _ => local_uint _ _ _) _) <|
    local_seq (local_uint _ _ _) <| local_seq (local_uint _ _ _) (local_uint _ _ _)

theorem seq_open (fn : String) (g : Run) (w : World) (hcan : w.canOpen = true) :
    seq (openOutputFile fn) g w = g { w with outputFile := true, file := [] } := by
  simp [GOMC.seq, openOutputFile, hcan]

theorem local_printCoordinates (cfg : Build) (self : CheckpointOutput) :
    Local (CheckpointOutput.printCoordinates cfg self) :=
  local_seq (local_uint _ _ _) <| local_forLoop (fun _ =>
    local_seq (local_index _ _ fun _ => local_double _ _ _) <|
    local_seq (local_index _ _ fun _ => local_double _ _ _) <|
    local_index _ _ fun _ => local_double _ _ _) _

theorem local_printMoleculeLookupData (cfg : Build) (self : CheckpointOutput) :
    Local (CheckpointOutput.printMoleculeLookupData cfg self) :=
  local_seq (local_uint _ _ _) <|
  local_seq (local_forLoop (fun _ => local_index _ _ fun _ => local_uint _ _ _) _) <|
  local_seq (local_uint _ _ _) <|
  local_seq (local_forLoop (fun _ => local_index _ _ fun _ => local_uint _ _ _) _) <|
  local_seq (local_uint _ _ _) <|
  local_seq (local_uint _ _ _) <|
  local_forLoop (fun _ => local_index _ _ fun _ => local_uint _ _ _) _

theorem local_printMoveSettingsData (cfg : Build) (self : CheckpointOutput) :
    Local (CheckpointOutput.printMoveSettingsData cfg self) :=
  local_seq (local_printVector3DDouble _ _ _) <|
  local_seq (local_printVector3DDouble _ _ _) <|
  local_seq (local_printVector3DUint _ _ _) <|
  local_seq (local_printVector3DUint _ _ _) <|
  local_seq (local_printVector3DUint _ _ _) <|
  local_seq (local_printVector3DUint _ _ _) <|
  local_seq (local_printVector2DUint _ _ _) <|
  local_seq (local_printVector2DUint _ _ _) <|
  local_seq (local_printVector1DDouble _ _ _) (local_printVector1DDouble _ _ _)

theorem local_printParallelTemperingBoolean (self : CheckpointOutput) :
    Local (CheckpointOutput.printParallelTemperingBoolean self) :=
  local_of_emits (emits_int1 _ _)

theorem local_printParallelTemperingPart (cfg : Build) (self : CheckpointOutput) :
    Local (CheckpointOutput.printParallelTemperingPart cfg self) := by
  unfold CheckpointOutput.printParallelTemperingPart
  by_cases hm : cfg.GOMC_LIB_MPI = true
  · rw [if_pos hm]
    refine local_seq (local_printParallelTemperingBoolean self) ?_
    by_cases hp : self.enableParallelTempering = true
    · rw [if_pos hp]
      exact local_printRandomNumbersParallelTempering _ _
    · rw [if_neg hp]
      exact local_skip
  · rw [if_neg hm]
    exact local_skip

theorem written_printParallelTemperingPart (cfg : Build) (self : CheckpointOutput) :
    written (CheckpointOutput.printParallelTemperingPart cfg self)
      = if cfg.GOMC_LIB_MPI then
          concatSections [written (CheckpointOutput.printParallelTemperingBoolean self),
            if self.enableParallelTempering then
              written (CheckpointOutput.printRandomNumbersParallelTempering cfg self)
            else some []]
        else some [] := by
  unfold CheckpointOutput.printParallelTemperingPart
  by_cases hm : cfg.GOMC_LIB_MPI = true
  · rw [if_pos hm, if_pos hm]
    by_cases hp : self.enableParallelTempering = true
    · rw [if_pos hp, if_pos hp]
      exact written_seq (local_printParallelTemperingBoolean self)
        (local_printRandomNumbersParallelTempering _ _)
    · rw [if_neg hp, if_neg hp, written_seq (local_printParallelTemperingBoolean self) local_skip,
        written_of_emits emits_skip]
  · rw [if_neg hm, if_neg hm]
    exact written_of_emits emits_skip

/-- Running `f; g` on an open destination: `g` starts after what `f` wrote. -/
theorem file?_seq {f : Run} (hf : Local f) (g : Run) (w : World) (hw : w.outputFile = true) :
    (seq f g w).file? = (written f).bind fun a => (g (w.emit a)).file? := by
  rcases hf with ⟨a, ha⟩ | hf
  · rw [written_of_emits ha]
    simp [GOMC.seq, ha w hw]
  · rw [written_of_fails hf]
    have h := hf w hw
    unfold GOMC.seq
    cases hr : f w with
    | ok w1 => rw [hr] at h; simp [Res.isOk] at h
    | exit w1 => rfl
    | undef w1 => rfl

theorem seq_assoc (f g h : Run) : seq (seq f g) h = seq f (seq g h) := by
  funext w
  unfold GOMC.seq
  cases f w <;> rfl

theorem chain_last {f : Run} (hf : Local f) :
    Local f ∧ written f = concatSections [written f] := by
  refine ⟨hf, ?_⟩
  cases written f <;> simp [concatSections]

theorem chain_step {f g : Run} {rest : List (Option (List OutByte))} (hf : Local f)
    (hg : Local g ∧ written g = concatSections rest) :
    Local (seq f g) ∧ written (seq f g) = concatSections (written f :: rest) :=
  ⟨local_seq hf hg.1, concatSections_cons_written hf hg.1 rest hg.2⟩

theorem emits_array3Double (cfg : Build) (fn : String) (data : List (List (List Double)))
    (h : Regular3 data) :
    Emits (printVector3DDouble cfg fn data) (array3Bytes cfg.order (dblField cfg.order) data) :=
  emits_printVector3DDouble cfg fn data _ _ _ h.2.2 h.1 h.2.1

theorem emits_array3Uint (cfg : Build) (fn : String) (data : List (List (List Nat)))
    (h : Regular3 data) :
    Emits (printVector3DUint cfg fn data) (array3Bytes cfg.order (uintField cfg.order) data) :=
  emits_printVector3DUint cfg fn data _ _ _ h.2.2 h.1 h.2.1

theorem emits_array2Uint (cfg : Build) (fn : String) (data : List (List Nat))
    (h : Regular2 data) :
    Emits (printVector2DUint cfg fn data) (array2Bytes cfg.order (uintField cfg.order) data) :=
  emits_printVector2DUint cfg fn data _ _ h.2 h.1

theorem emits_printMoveSettingsData (cfg : Build) (self : CheckpointOutput)
    (h : RegularMoves self.moveSetRef) :
    Emits (CheckpointOutput.printMoveSettingsData cfg self)
      (moveSettingsBytes cfg.order self.moveSetRef) := by
  obtain ⟨h1, h2, h3, h4, h5, h6, h7, h8⟩ := h
  exact emits_seq (emits_array3Double _ _ _ h1) <| emits_seq (emits_array3Double _ _ _ h2) <|
    emits_seq (emits_array3Uint _ _ _ h3) <| emits_seq (emits_array3Uint _ _ _ h4) <|
    emits_seq (emits_array3Uint _ _ _ h5) <| emits_seq (emits_array3Uint _ _ _ h6) <|
    emits_seq (emits_array2Uint _ _ _ h7) <| emits_seq (emits_array2Uint _ _ _ h8) <|
    emits_seq (emits_printVector1DDouble _ _ _) (emits_printVector1DDouble _ _ _)

/-! ## Order of the sections -/

/-- C7: for every move-settings state the bytes of `printMoveSettingsData` are the
ten array sections in the order `scale`, `acceptPercent` (3D double encoder),
`accepted`, `tries`, `tempAccepted`, `tempTries` (3D unsigned encoder),
`mp_tries`, `mp_accepted` (2D unsigned encoder), `mp_t_max`, `mp_r_max` (1D double
encoder), appended to an open destination with nothing in between; for arrays
of regular shape the section is returned and has the layout
`moveSettingsBytes`, doubles for the two real 3D arrays and the two vectors and
padded unsigned fields for every count array. -/
theorem printMoveSettingsData_sections (cfg : Build) (self : CheckpointOutput) :
    written (CheckpointOutput.printMoveSettingsData cfg self)
        = concatSections
          [written (printVector3DDouble cfg self.filename self.moveSetRef.scale),
           written (printVector3DDouble cfg self.filename self.moveSetRef.acceptPercent),
           written (printVector3DUint cfg self.filename self.moveSetRef.accepted),
           written (printVector3DUint cfg self.filename self.moveSetRef.tries),
           written (printVector3DUint cfg self.filename self.moveSetRef.tempAccepted),
           written (printVector3DUint cfg self.filename self.moveSetRef.tempTries),
           written (printVector2DUint cfg self.filename self.moveSetRef.mp_tries),
           written (printVector2DUint cfg self.filename self.moveSetRef.mp_accepted),
           written (printVector1DDouble cfg self.filename self.moveSetRef.mp_t_max),
           written (printVector1DDouble cfg self.filename self.moveSetRef.mp_r_max)]
      ∧ (∀ w : World, w.outputFile = true →
          (CheckpointOutput.printMoveSettingsData cfg self w).file?
            = (written (CheckpointOutput.printMoveSettingsData cfg self)).map
                fun bs => w.file ++ bs)
      ∧ (RegularMoves self.moveSetRef → ∀ w : World, w.outputFile = true →
          CheckpointOutput.printMoveSettingsData cfg self w
            = .ok (w.emit (moveSettingsBytes cfg.order self.moveSetRef))) := by
  refine ⟨?_, ?_, ?_⟩
  · exact (chain_step (local_printVector3DDouble _ _ _) <|
      chain_step (local_printVector3DDouble _ _ _) <|
      chain_step (local_printVector3DUint _ _ _) <|
      chain_step (local_printVector3DUint _ _ _) <|
      chain_step (local_printVector3DUint _ _ _) <|
      chain_step (local_printVector3DUint _ _ _) <|
      chain_step (local_printVector2DUint _ _ _) <|
      chain_step (local_printVector2DUint _ _ _) <|
      chain_step (local_printVector1DDouble _ _ _) <|
      chain_last (local_printVector1DDouble _ _ _)).2
  · intro w hw
    exact file?_of_local (local_printMoveSettingsData cfg self) w hw
  · intro h w hw
    exact emits_printMoveSettingsData cfg self h w hw

/-- Instance of C7: the move statistics of the demo snapshot have regular shape. -/
theorem printMoveSettingsData_sections_witness :
    RegularMoves demo.moveSetRef ∧ blank.outputFile = true ∧
      CheckpointOutput.printMoveSettingsData demoBuild demo blank
        = .ok (blank.emit (moveSettingsBytes demoBuild.order demo.moveSetRef)) :=
  ⟨by decide, rfl,
    (printMoveSettingsData_sections demoBuild demo).2.2 (by decide) blank rfl⟩

/-! ## Reading back what was written -/

theorem decodes_pure {α : Type} (a : α) : Decodes (Reader.pure a) [] a :=
  fun _ => rfl

theorem bind_apply {α β : Type} {p : Reader α} {b1 : List OutByte} {x : α}
    (hp : Decodes p b1 x) (f : α → Reader β) (rest : List OutByte) :
    (p.bind f) (b1 ++ rest) = f x rest := by
  simp [Reader.bind, hp rest]

theorem pure_apply {α : Type} (a : α) (rest : List OutByte) :
    Reader.pure a rest = some (a, rest) := rfl

theorem decodes_congr {α : Type} {p : Reader α} {b1 b2 : List OutByte} {x y : α}
    (h : Decodes p b1 x) (hb : b1 = b2) (hx : x = y) : Decodes p b2 y := by
  subst hb
  subst hx
  exact h

theorem decodes_uint (o : ByteOrder) {v : Nat} (h : IsUint v) :
    Decodes (readUint o) (uintField o v) v := by
  intro rest
  rw [readUint_uintField, Nat.mod_eq_of_lt h]

theorem decodes_double (o : ByteOrder) {d : Double} (h : IsDouble d) :
    Decodes (readDouble o) (dblField o d) d :=
  fun rest => readDouble_dblField o d rest h

theorem decodes_many {α β : Type} {p : Reader β} {enc : α → List OutByte} {g : α → β} :
    ∀ xs : List α, (∀ x, x ∈ xs → Decodes p (enc x) (g x)) →
      Decodes (readMany p xs.length) (xs.flatMap enc) (xs.map g)
  | [], _ => decodes_pure []
  | x :: xs, h => by
    have hx := h x (List.mem_cons_self x xs)
    have ih := decodes_many xs (fun y hy => h y (List.mem_cons_of_mem x hy))
    intro rest
    rw [List.flatMap_cons, List.append_assoc, List.length_cons, readMany, bind_apply hx,
      bind_apply ih]
    rfl

theorem decodes_list {α : Type} {p : Reader α} {enc : α → List OutByte} (xs : List α)
    (n : Nat) (hn : xs.length = n) (h : ∀ x, x ∈ xs → Decodes p (enc x) x) :
    Decodes (readMany p n) (xs.flatMap enc) xs := by
  subst hn
  exact decodes_congr (decodes_many xs h) rfl (List.map_id xs)

theorem decodes_counted {α : Type} (o : ByteOrder) {p : Reader α} {enc : α → List OutByte}
    (xs : List α) (hn : xs.length < 2 ^ 32) (h : ∀ x, x ∈ xs → Decodes p (enc x) x) :
    Decodes ((readUint o).bind fun n => readMany p n)
      (uintField o xs.length ++ xs.flatMap enc) xs := by
  intro rest
  rw [List.append_assoc, bind_apply (decodes_uint o hn)]
  exact decodes_list xs _ rfl h rest

theorem decodes_xyz (o : ByteOrder) {p : XYZ} (h : IsXYZ p) :
    Decodes (readXYZ o) (xyzFields o p) p := by
  intro rest
  unfold readXYZ xyzFields
  rw [List.append_assoc, List.append_assoc, bind_apply (decodes_double o h.1),
    bind_apply (decodes_double o h.2.1), bind_apply (decodes_double o h.2.2)]
  rfl

theorem list3_eq {α : Type} (d : α) :
    ∀ row : List α, row.length = 3 → [row.getD 0 d, row.getD 1 d, row.getD 2 d] = row
  | [_, _, _], _ => rfl
  | [], h => by simp at h
  | [_], h => by simp at h
  | [_, _], h => by simp at h
  | _ :: _ :: _ :: _ :: _, h => by simp at h

theorem getD_mem {α : Type} {xs : List α} {i : Nat} (h : i < xs.length) (d : α) :
    xs.getD i d ∈ xs :=
  mem_of_getElem? (getElem?_getD h d)

theorem decodes_box (o : ByteOrder) (box : BoxDimensions) (b : Nat)
    (hax : IsXYZ (box.axisOf b)) (hc : ∀ j, j < 3 → IsDouble (box.cosOf b j)) :
    Decodes (readBox o) (boxFields o box b)
      (box.axisOf b, [box.cosOf b 0, box.cosOf b 1, box.cosOf b 2]) := by
  have hcos : Decodes (readMany (readDouble o) 3)
      ([box.cosOf b 0, box.cosOf b 1, box.cosOf b 2].flatMap (dblField o))
      [box.cosOf b 0, box.cosOf b 1, box.cosOf b 2] := by
    refine decodes_list _ 3 rfl ?_
    intro c hmem
    simp only [List.mem_cons, List.mem_singleton, List.not_mem_nil, or_false] at hmem
    rcases hmem with rfl | rfl | rfl
    · exact decodes_double o (hc 0 (by decide))
    · exact decodes_double o (hc 1 (by decide))
    · exact decodes_double o (hc 2 (by decide))
  have hbytes : boxFields o box b = xyzFields o (box.axisOf b)
      ++ [box.cosOf b 0, box.cosOf b 1, box.cosOf b 2].flatMap (dblField o) := by
    simp [boxFields, xyzFields]
  intro rest
  unfold readBox
  rw [hbytes, List.append_assoc, bind_apply (decodes_xyz o hax), bind_apply hcos]
  rfl

theorem decodes_boxDimensions (cfg : Build) (self : CheckpointOutput)
    (hty : WellTyped cfg self) :
    Decodes (readBoxDimensions cfg.order)
      (uintField cfg.order cfg.BOX_TOTAL
        ++ (List.range cfg.BOX_TOTAL).flatMap (boxFields cfg.order self.boxDimRef))
      self.boxDimRef := by
  have hB : IsUint cfg.BOX_TOTAL := by
    have := hty.boxTotal
    unfold IsUint
    omega
  have hboxes := decodes_many (p := readBox cfg.order) (List.range cfg.BOX_TOTAL)
    (fun b hb => by
      have hlt : b < cfg.BOX_TOTAL := List.mem_range.mp hb
      have hrow : self.boxDimRef.cosAngle.getD b [] ∈ self.boxDimRef.cosAngle :=
        getD_mem (by rw [hty.cosCount]; exact hlt) _
      refine decodes_box cfg.order self.boxDimRef b
        (hty.axisDouble _ (getD_mem (by rw [hty.axisCount]; exact hlt) _)) ?_
      intro j hj
      exact hty.cosDouble _ hrow _ (getD_mem (by rw [hty.cosRow _ hrow]; exact hj) _))
  rw [List.length_range] at hboxes
  have haxis : (List.range cfg.BOX_TOTAL).map self.boxDimRef.axisOf = self.boxDimRef.axis := by
    have h := map_range_getD self.boxDimRef.axis ⟨⟨0⟩, ⟨0⟩, ⟨0⟩⟩
    rw [hty.axisCount] at h
    exact h
  have hcos : (List.range cfg.BOX_TOTAL).map
      (fun b => [self.boxDimRef.cosOf b 0, self.boxDimRef.cosOf b 1, self.boxDimRef.cosOf b 2])
      = self.boxDimRef.cosAngle := by
    have h := map_range_getD self.boxDimRef.cosAngle []
    rw [hty.cosCount] at h
    refine Eq.trans (List.map_congr_left ?_) h
    intro b hb
    have hlt : b < cfg.BOX_TOTAL := List.mem_range.mp hb
    exact list3_eq _ _ (hty.cosRow _ (getD_mem (by rw [hty.cosCount]; exact hlt) _))
  intro rest
  unfold readBoxDimensions
  rw [List.append_assoc, bind_apply (decodes_uint cfg.order hB), bind_apply hboxes, pure_apply,
    List.map_map, List.map_map]
  have hfst : (Prod.fst ∘ fun b => (self.boxDimRef.axisOf b,
      [self.boxDimRef.cosOf b 0, self.boxDimRef.cosOf b 1, self.boxDimRef.cosOf b 2]))
      = self.boxDimRef.axisOf := rfl
  have hsnd : (Prod.snd ∘ fun b => (self.boxDimRef.axisOf b,
      [self.boxDimRef.cosOf b 0, self.boxDimRef.cosOf b 1, self.boxDimRef.cosOf b 2]))
      = fun b => [self.boxDimRef.cosOf b 0, self.boxDimRef.cosOf b 1,
          self.boxDimRef.cosOf b 2] := rfl
  rw [hfst, hsnd, haxis, hcos]

theorem decodes_generatorBlock (o : ByteOrder) (g : MTRand) (hg : IsGenerator g) :
    Decodes (readGenerator o) (generatorBlock o g) g := by
  have hstate : Decodes (readMany (readUint o) N) (g.state.flatMap (uintField o)) g.state :=
    decodes_list _ N hg.stateCount (fun v hv => decodes_uint o (hg.stateUint v hv))
  intro rest
  unfold readGenerator generatorBlock
  rw [List.append_assoc, List.append_assoc, List.append_assoc, bind_apply hstate,
    bind_apply (decodes_uint o hg.pNextUint), bind_apply (decodes_uint o hg.leftUint),
    bind_apply (decodes_uint o hg.seedUint)]
  rfl

/-- The part written under `GOMC_LIB_MPI` is read back: the flag and, when it
is 1, the auxiliary generator, with nothing left over. -/
theorem readParallelTempering_tail (cfg : Build) (self : CheckpointOutput)
    (hm : cfg.GOMC_LIB_MPI = true) (hpt : AuxTyped cfg self) :
    readParallelTempering cfg.order (parallelTemperingTail cfg self)
      = some (auxiliaryOf self, []) := by
  unfold parallelTemperingTail auxiliaryOf
  rw [if_pos hm]
  by_cases hp : self.enableParallelTempering = true
  · have hdec := decodes_generatorBlock cfg.order self.prngPTRef (hpt hm hp) []
    rw [List.append_nil] at hdec
    simp [hp, readParallelTempering, readFlag, Reader.bind, Reader.pure, int8_input_union,
      hdec]
  · simp [hp, readParallelTempering, readFlag, Reader.bind, Reader.pure, int8_input_union]

theorem decodes_generator (cfg : Build) (self : CheckpointOutput) (hty : WellTyped cfg self) :
    Decodes (readGenerator cfg.order)
      (self.prngRef.state.flatMap (uintField cfg.order)
        ++ (uintField cfg.order self.prngRef.pNext ++ (uintField cfg.order self.prngRef.left
        ++ uintField cfg.order self.prngRef.seedValue)))
      self.prngRef := by
  have hstate : Decodes (readMany (readUint cfg.order) N)
      (self.prngRef.state.flatMap (uintField cfg.order)) self.prngRef.state :=
    decodes_list _ N hty.stateCount (fun v hv => decodes_uint cfg.order (hty.stateUint v hv))
  intro rest
  unfold readGenerator
  rw [List.append_assoc, List.append_assoc, List.append_assoc, bind_apply hstate,
    bind_apply (decodes_uint cfg.order hty.pNextUint),
    bind_apply (decodes_uint cfg.order hty.leftUint),
    bind_apply (decodes_uint cfg.order hty.seedUint)]
  rfl

theorem decodes_coordinates (cfg : Build) (self : CheckpointOutput) (step : Nat)
    (hty : WellTyped cfg self) (hv : Valid self step) :
    Decodes (readCoordinates cfg.order)
      (uintField cfg.order self.coordCurrRef.length
        ++ self.coordCurrRef.flatMap (xyzFields cfg.order))
      self.coordCurrRef :=
  decodes_counted cfg.order _ (Nat.lt_trans hv.atoms (by decide))
    (fun p hp => decodes_xyz cfg.order (hty.coordDouble p hp))

theorem decodes_moleculeLookup (cfg : Build) (self : CheckpointOutput) (step : Nat)
    (hty : WellTyped cfg self) (hv : Valid self step) :
    Decodes (readMoleculeLookup cfg.order)
      (uintField cfg.order self.molLookupRef.molLookupCount
        ++ ((self.molLookupRef.molLookup.take self.molLookupRef.molLookupCount).flatMap
              (uintField cfg.order)
        ++ (uintField cfg.order self.molLookupRef.boxAndKindStartCount
        ++ ((self.molLookupRef.boxAndKindStart.take
              self.molLookupRef.boxAndKindStartCount).flatMap (uintField cfg.order)
        ++ (uintField cfg.order self.molLookupRef.numKinds
        ++ (uintField cfg.order self.molLookupRef.fixedAtom.length
        ++ self.molLookupRef.fixedAtom.flatMap (uintField cfg.order)))))))
      self.molLookupRef := by
  have h1 : Decodes (readMany (readUint cfg.order) self.molLookupRef.molLookupCount)
      ((self.molLookupRef.molLookup.take self.molLookupRef.molLookupCount).flatMap
        (uintField cfg.order)) self.molLookupRef.molLookup := by
    rw [List.take_of_length_le (Nat.le_of_eq hty.molLookupLength)]
    exact decodes_list _ _ hty.molLookupLength
      (fun v hm => decodes_uint cfg.order (hty.molLookupUint v hm))
  have h2 : Decodes (readMany (readUint cfg.order) self.molLookupRef.boxAndKindStartCount)
      ((self.molLookupRef.boxAndKindStart.take
        self.molLookupRef.boxAndKindStartCount).flatMap (uintField cfg.order))
      self.molLookupRef.boxAndKindStart := by
    rw [List.take_of_length_le (Nat.le_of_eq hty.startLength)]
    exact decodes_list _ _ hty.startLength
      (fun v hm => decodes_uint cfg.order (hty.startUint v hm))
  have h3 : Decodes (readMany (readUint cfg.order) self.molLookupRef.fixedAtom.length)
      (self.molLookupRef.fixedAtom.flatMap (uintField cfg.order))
      self.molLookupRef.fixedAtom :=
    decodes_list _ _ rfl (fun v hm => decodes_uint cfg.order (hty.fixedUint v hm))
  have hc1 : IsUint self.molLookupRef.molLookupCount :=
    Nat.lt_trans hv.molLookupCount (by decide)
  have hc2 : IsUint self.molLookupRef.boxAndKindStartCount :=
    Nat.lt_trans hv.startCount (by decide)
  have hc3 : IsUint self.molLookupRef.fixedAtom.length :=
    Nat.lt_trans hv.fixedCount (by decide)
  intro rest
  unfold readMoleculeLookup
  simp only [List.append_assoc]
  rw [bind_apply (decodes_uint cfg.order hc1), bind_apply h1,
    bind_apply (decodes_uint cfg.order hc2), bind_apply h2,
    bind_apply (decodes_uint cfg.order hty.numKindsUint),
    bind_apply (decodes_uint cfg.order hc3), bind_apply h3]
  rfl

theorem decodes_array3 {α : Type} (o : ByteOrder) {p : Reader α} {enc : α → List OutByte}
    (data : List (List (List α))) (hreg : Regular3 data) (hdim : SmallDims3 data)
    (hall : All3 (fun v => Decodes p (enc v) v) data) :
    Decodes (readArray3 o p) (array3Bytes o enc data) data := by
  have hbytes : (rowMajor3 data).flatMap enc
      = data.flatMap fun row => row.flatMap fun cell => cell.flatMap enc := by
    unfold rowMajor3
    rw [flatMap_flatten, flatMap_flatten]
  have hrows : Decodes (readMany (readMany (readMany p (dimZ data)) (dimY data)) data.length)
      (data.flatMap fun row => row.flatMap fun cell => cell.flatMap enc) data := by
    refine decodes_list data _ rfl ?_
    intro row hrow
    refine decodes_list row _ (hreg.2.2.2 row hrow).1 ?_
    intro cell hcell
    exact decodes_list cell _ ((hreg.2.2.2 row hrow).2 cell hcell)
      (fun v hv => hall row hrow cell hcell v hv)
  intro rest
  unfold readArray3 array3Bytes
  rw [hbytes]
  simp only [List.append_assoc]
  rw [bind_apply (decodes_uint o (Nat.lt_trans hdim.1 (by decide))),
    bind_apply (decodes_uint o (Nat.lt_trans hdim.2.1 (by decide))),
    bind_apply (decodes_uint o (Nat.lt_trans hdim.2.2 (by decide)))]
  exact hrows rest

theorem decodes_array2 {α : Type} (o : ByteOrder) {p : Reader α} {enc : α → List OutByte}
    (data : List (List α)) (hreg : Regular2 data) (hdim : SmallDims2 data)
    (hall : All2 (fun v => Decodes p (enc v) v) data) :
    Decodes (readArray2 o p) (array2Bytes o enc data) data := by
  have hbytes : (rowMajor2 data).flatMap enc = data.flatMap fun row => row.flatMap enc := by
    unfold rowMajor2
    rw [flatMap_flatten]
  have hrows : Decodes (readMany (readMany p (dimY data)) data.length)
      (data.flatMap fun row => row.flatMap enc) data := by
    refine decodes_list data _ rfl ?_
    intro row hrow
    exact decodes_list row _ (hreg.2.2 row hrow) (fun v hv => hall row hrow v hv)
  intro rest
  unfold readArray2 array2Bytes
  rw [hbytes]
  simp only [List.append_assoc]
  rw [bind_apply (decodes_uint o (Nat.lt_trans hdim.1 (by decide))),
    bind_apply (decodes_uint o (Nat.lt_trans hdim.2 (by decide)))]
  exact hrows rest

theorem decodes_array1 {α : Type} (o : ByteOrder) {p : Reader α} {enc : α → List OutByte}
    (data : List α) (hdim : data.length < 2 ^ 31)
    (hall : ∀ v, v ∈ data → Decodes p (enc v) v) :
    Decodes (readArray1 o p) (array1Bytes o enc data) data :=
  decodes_counted o data (Nat.lt_trans hdim (by decide)) hall

theorem decodes_moveSettings (cfg : Build) (self : CheckpointOutput) (step : Nat)
    (hty : WellTyped cfg self) (hv : Valid self step) :
    Decodes (readMoveSettings cfg.order) (moveSettingsBytes cfg.order self.moveSetRef)
      self.moveSetRef := by
  obtain ⟨r1, r2, r3, r4, r5, r6, r7, r8⟩ := hv.regular
  have d1 := decodes_array3 cfg.order self.moveSetRef.scale r1 hv.scaleDims
    (fun row hr cell hc v hm => decodes_double cfg.order (hty.scaleDouble row hr cell hc v hm))
  have d2 := decodes_array3 cfg.order self.moveSetRef.acceptPercent r2 hv.acceptPercentDims
    (fun row hr cell hc v hm =>
      decodes_double cfg.order (hty.acceptPercentDouble row hr cell hc v hm))
  have d3 := decodes_array3 cfg.order self.moveSetRef.accepted r3 hv.acceptedDims
    (fun row hr cell hc v hm => decodes_uint cfg.order (hty.acceptedUint row hr cell hc v hm))
  have d4 := decodes_array3 cfg.order self.moveSetRef.tries r4 hv.triesDims
    (fun row hr cell hc v hm => decodes_uint cfg.order (hty.triesUint row hr cell hc v hm))
  have d5 := decodes_array3 cfg.order self.moveSetRef.tempAccepted r5 hv.tempAcceptedDims
    (fun row hr cell hc v hm =>
      decodes_uint cfg.order (hty.tempAcceptedUint row hr cell hc v hm))
  have d6 := decodes_array3 cfg.order self.moveSetRef.tempTries r6 hv.tempTriesDims
    (fun row hr cell hc v hm => decodes_uint cfg.order (hty.tempTriesUint row hr cell hc v hm))
  have d7 := decodes_array2 cfg.order self.moveSetRef.mp_tries r7 hv.mpTriesDims
    (fun row hr v hm => decodes_uint cfg.order (hty.mpTriesUint row hr v hm))
  have d8 := decodes_array2 cfg.order self.moveSetRef.mp_accepted r8 hv.mpAcceptedDims
    (fun row hr v hm => decodes_uint cfg.order (hty.mpAcceptedUint row hr v hm))
  have d9 := decodes_array1 cfg.order self.moveSetRef.mp_t_max hv.mpTMaxCount
    (fun v hm => decodes_double cfg.order (hty.mpTMaxDouble v hm))
  have d10 := decodes_array1 cfg.order self.moveSetRef.mp_r_max hv.mpRMaxCount
    (fun v hm => decodes_double cfg.order (hty.mpRMaxDouble v hm))
  intro rest
  unfold readMoveSettings moveSettingsBytes
  simp only [List.append_assoc]
  rw [bind_apply d1, bind_apply d2, bind_apply d3, bind_apply d4, bind_apply d5, bind_apply d6,
    bind_apply d7, bind_apply d8, bind_apply d9, bind_apply d10]
  rfl

theorem decodes_checkpoint (cfg : Build) (self : CheckpointOutput) (step : Nat)
    (hty : WellTyped cfg self) (hv : Valid self step) :
    Decodes (readCheckpoint cfg.order) (checkpointBytes cfg self step)
      (snapshotOf self step) := by
  intro rest
  unfold readCheckpoint checkpointBytes
  simp only [List.append_assoc]
  rw [bind_apply (decodes_uint cfg.order hv.stepSmall)]
  have hbox := decodes_boxDimensions cfg self hty
  have hgen := decodes_generator cfg self hty
  have hcoord := decodes_coordinates cfg self step hty hv
  have hmol := decodes_moleculeLookup cfg self step hty hv
  have hmove := decodes_moveSettings cfg self step hty hv
  simp only [Decodes, List.append_assoc] at hbox hgen hcoord hmol hmove
  simp only [Reader.bind, hbox, hgen, hcoord, hmol, hmove, Option.some_bind]
  rfl

/-! ## The whole file -/

theorem seq_apply_of_emits {f : Run} {a : List OutByte} (hf : Emits f a) (g : Run) (w : World)
    (hw : w.outputFile = true) : seq f g w = g (w.emit a) := by
  simp [GOMC.seq, hf w hw]

theorem emits_sixSections (cfg : Build) (self : CheckpointOutput) (step : Nat)
    (hty : WellTyped cfg self) (hv : Valid self step) :
    Emits (seq (CheckpointOutput.printStepNumber cfg self step) <|
        seq (CheckpointOutput.printBoxDimensionsData cfg self) <|
        seq (CheckpointOutput.printRandomNumbers cfg self) <|
        seq (CheckpointOutput.printCoordinates cfg self) <|
        seq (CheckpointOutput.printMoleculeLookupData cfg self)
          (CheckpointOutput.printMoveSettingsData cfg self))
      (checkpointBytes cfg self step) :=
  emits_seq (emits_printStepNumber cfg self step) <|
  emits_seq (emits_printBoxDimensionsData cfg self hty.boxTotal hty.axisCount hty.cosCount
    hty.cosRow) <|
  emits_seq (emits_printRandomNumbers cfg self hty.stateCount) <|
  emits_seq (emits_printCoordinates cfg self (Nat.lt_trans hv.atoms (by decide))) <|
  emits_seq (emits_printMoleculeLookupData cfg self (Nat.le_of_eq hty.molLookupLength.symm)
    (Nat.le_of_eq hty.startLength.symm) (Nat.lt_trans hv.fixedCount (by decide)))
    (emits_printMoveSettingsData cfg self hv.regular)

/-- The part of `DoOutput` under `GOMC_LIB_MPI`: the flag byte and, when
parallel tempering is enabled, the block of the auxiliary generator. -/
theorem emits_printParallelTemperingPart (cfg : Build) (self : CheckpointOutput)
    (hpt : AuxTyped cfg self) :
    Emits (CheckpointOutput.printParallelTemperingPart cfg self)
      (parallelTemperingTail cfg self) := by
  unfold CheckpointOutput.printParallelTemperingPart parallelTemperingTail
  by_cases hm : cfg.GOMC_LIB_MPI = true
  · rw [if_pos hm, if_pos hm]
    refine emits_seq (emits_int1 _ _) ?_
    by_cases hp : self.enableParallelTempering = true
    · rw [if_pos hp, if_pos hp]
      exact emits_printRandomNumbersParallelTempering cfg self (hpt hm hp).stateCount
    · rw [if_neg hp, if_neg hp]
      exact emits_skip
  · rw [if_neg hm, if_neg hm]
    exact emits_skip

/-- For a well-typed, valid snapshot `DoOutput` returns, the file holds the six
sections followed by the parallel-tempering part, and the confirmation is
printed. -/
theorem DoOutput_ok (cfg : Build) (self : CheckpointOutput) (step : Nat) (w : World)
    (hty : WellTyped cfg self) (hv : Valid self step) (hpt : AuxTyped cfg self)
    (hen : self.enableOutCheckpoint = true) (hcan : w.canOpen = true) :
    CheckpointOutput.DoOutput cfg self step w
      = .ok (w.saved self.filename
          (checkpointBytes cfg self step ++ parallelTemperingTail cfg self)) := by
  have hcore := seq_apply_of_emits (emits_sixSections cfg self step hty hv)
    (seq (CheckpointOutput.printParallelTemperingPart cfg self)
      (CheckpointOutput.printSaved self))
    { w with outputFile := true, file := [] } rfl
  simp only [seq_assoc] at hcore
  have htail := seq_apply_of_emits (emits_printParallelTemperingPart cfg self hpt)
    (CheckpointOutput.printSaved self)
    (World.emit { w with outputFile := true, file := [] } (checkpointBytes cfg self step)) rfl
  unfold CheckpointOutput.DoOutput
  rw [if_pos hen, seq_open _ _ _ hcan, hcore, htail]
  simp [CheckpointOutput.printSaved, World.emit, World.saved]

/-- The file and the outcome of `DoOutput_ok`. -/
theorem DoOutput_world (cfg : Build) (self : CheckpointOutput) (step : Nat) (w : World)
    (hty : WellTyped cfg self) (hv : Valid self step) (hpt : AuxTyped cfg self)
    (hen : self.enableOutCheckpoint = true) (hcan : w.canOpen = true) :
    (CheckpointOutput.DoOutput cfg self step w).world.file
      = checkpointBytes cfg self step ++ parallelTemperingTail cfg self
    ∧ (CheckpointOutput.DoOutput cfg self step w).isOk = true := by
  rw [DoOutput_ok cfg self step w hty hv hpt hen hcan]
  exact ⟨rfl, rfl⟩

/-- Without `GOMC_LIB_MPI`, or with parallel tempering disabled, the auxiliary
generator is never looked at. -/
theorem auxTyped_of_unused (cfg : Build) (self : CheckpointOutput)
    (h : cfg.GOMC_LIB_MPI = false ∨ self.enableParallelTempering = false) :
    AuxTyped cfg self := by
  intro hm hp
  rcases h with h | h
  · rw [h] at hm
    exact absurd hm (by decide)
  · rw [h] at hp
    exact absurd hp (by decide)

theorem demo_auxTyped : AuxTyped demoBuild demo :=
  auxTyped_of_unused _ _ (Or.inl rfl)

theorem readCheckpoint_DoOutput (cfg : Build) (self : CheckpointOutput) (step : Nat)
    (w : World) (hty : WellTyped cfg self) (hv : Valid self step) (hpt : AuxTyped cfg self)
    (hen : self.enableOutCheckpoint = true) (hcan : w.canOpen = true) :
    readCheckpoint cfg.order (CheckpointOutput.DoOutput cfg self step w).world.file
      = some (snapshotOf self step, parallelTemperingTail cfg self) := by
  rw [(DoOutput_world cfg self step w hty hv hpt hen hcan).1]
  exact decodes_checkpoint cfg self step hty hv _

theorem demo_wellTyped : WellTyped demoBuild demo where
  boxTotal := by decide
  axisCount := rfl
  axisDouble := by decide
  cosCount := rfl
  cosRow := by decide
  cosDouble := by decide
  stateCount := demo_state_length
  stateUint := by
    intro v hv
    simp only [demo] at hv
    unfold demoState at hv
    rw [List.mem_range] at hv
    unfold IsUint
    omega
  pNextUint := by decide
  leftUint := by decide
  seedUint := by decide
  coordDouble := by decide
  molLookupLength := rfl
  molLookupUint := by decide
  startLength := rfl
  startUint := by decide
  numKindsUint := by decide
  fixedUint := by decide
  scaleDouble := by decide
  acceptPercentDouble := by decide
  acceptedUint := by decide
  triesUint := by decide
  tempAcceptedUint := by decide
  tempTriesUint := by decide
  mpTriesUint := by decide
  mpAcceptedUint := by decide
  mpTMaxDouble := by decide
  mpRMaxDouble := by decide

theorem demo_valid : Valid demo 41 where
  stepSmall := by decide
  atoms := by decide
  molLookupCount := by decide
  startCount := by decide
  fixedCount := by decide
  regular := by decide
  scaleDims := by decide
  acceptPercentDims := by decide
  acceptedDims := by decide
  triesDims := by decide
  tempAcceptedDims := by decide
  tempTriesDims := by decide
  mpTriesDims := by decide
  mpAcceptedDims := by decide
  mpTMaxCount := by decide
  mpRMaxCount := by decide

/-- The typing and validity of a snapshot do not involve the parallel-tempering
members. -/
theorem wellTyped_replica {cfg : Build} {self : CheckpointOutput} (h : WellTyped cfg self)
    (flag : Bool) (g : MTRand) :
    WellTyped cfg { self with enableParallelTempering := flag, prngPTRef := g } where
  boxTotal := h.boxTotal
  axisCount := h.axisCount
  axisDouble := h.axisDouble
  cosCount := h.cosCount
  cosRow := h.cosRow
  cosDouble := h.cosDouble
  stateCount := h.stateCount
  stateUint := h.stateUint
  pNextUint := h.pNextUint
  leftUint := h.leftUint
  seedUint := h.seedUint
  coordDouble := h.coordDouble
  molLookupLength := h.molLookupLength
  molLookupUint := h.molLookupUint
  startLength := h.startLength
  startUint := h.startUint
  numKindsUint := h.numKindsUint
  fixedUint := h.fixedUint
  scaleDouble := h.scaleDouble
  acceptPercentDouble := h.acceptPercentDouble
  acceptedUint := h.acceptedUint
  triesUint := h.triesUint
  tempAcceptedUint := h.tempAcceptedUint
  tempTriesUint := h.tempTriesUint
  mpTriesUint := h.mpTriesUint
  mpAcceptedUint := h.mpAcceptedUint
  mpTMaxDouble := h.mpTMaxDouble
  mpRMaxDouble := h.mpRMaxDouble

theorem valid_replica {self : CheckpointOutput} {step : Nat} (h : Valid self step)
    (flag : Bool) (g : MTRand) :
    Valid { self with enableParallelTempering := flag, prngPTRef := g } step where
  stepSmall := h.stepSmall
  atoms := h.atoms
  molLookupCount := h.molLookupCount
  startCount := h.startCount
  fixedCount := h.fixedCount
  regular := h.regular
  scaleDims := h.scaleDims
  acceptPercentDims := h.acceptPercentDims
  acceptedDims := h.acceptedDims
  triesDims := h.triesDims
  tempAcceptedDims := h.tempAcceptedDims
  tempTriesDims := h.tempTriesDims
  mpTriesDims := h.mpTriesDims
  mpAcceptedDims := h.mpAcceptedDims
  mpTMaxCount := h.mpTMaxCount
  mpRMaxCount := h.mpRMaxCount

theorem demoReplica_wellTyped : WellTyped demoBuildMPI demoReplica :=
  wellTyped_replica
    { demo_wellTyped with
      boxTotal := by decide
      axisCount := rfl
      cosCount := rfl } _ _

theorem demoReplica_valid : Valid demoReplica 41 :=
  valid_replica demo_valid _ _

theorem demoAuxState_length : demoAuxState.length = 624 := by
  unfold demoAuxState
  rw [List.length_map, List.length_range]

theorem demoAuxState_uint (v : Nat) (hv : v ∈ demoAuxState) : IsUint v := by
  unfold demoAuxState at hv
  rw [List.mem_map] at hv
  obtain ⟨a, ha, rfl⟩ := hv
  rw [List.mem_range] at ha
  unfold IsUint
  omega

theorem demoReplica_generator : IsGenerator demoReplica.prngPTRef where
  stateCount := by
    simp only [demoReplica]
    exact demoAuxState_length
  stateUint := by
    intro v hv
    simp only [demoReplica] at hv
    exact demoAuxState_uint v hv
  pNextUint := by decide
  leftUint := by decide
  seedUint := by decide

theorem demoReplica_auxTyped : AuxTyped demoBuildMPI demoReplica :=
  fun _ _ => demoReplica_generator

/-- C1: when checkpoint output is enabled and the destination opens, the file
`DoOutput(step)` leaves on return is exactly the concatenation, in this order
and with nothing before, between or after, of what the writers of the
step-counter field, the box section, the primary generator section, the
coordinate section, the lookup section and the move-statistics section append,
followed in the `GOMC_LIB_MPI` build only by the flag byte and, when parallel
tempering is enabled, the second generator block, and `DoOutput` returns
exactly when every one of these writers does. For every well-typed, valid
snapshot each writer returns with the layout of its section, the second
generator block included, and `DoOutput` returns with exactly these layouts
in this order in the file and the confirmation on the standard output. -/
theorem DoOutput_sections (cfg : Build) (self : CheckpointOutput) (step : Nat) (w : World)
    (hen : self.enableOutCheckpoint = true) (hcan : w.canOpen = true) :
    (CheckpointOutput.DoOutput cfg self step w).file?
      = concatSections
          [written (CheckpointOutput.printStepNumber cfg self step),
           written (CheckpointOutput.printBoxDimensionsData cfg self),
           written (CheckpointOutput.printRandomNumbers cfg self),
           written (CheckpointOutput.printCoordinates cfg self),
           written (CheckpointOutput.printMoleculeLookupData cfg self),
           written (CheckpointOutput.printMoveSettingsData cfg self),
           if cfg.GOMC_LIB_MPI then
             concatSections [written (CheckpointOutput.printParallelTemperingBoolean self),
               if self.enableParallelTempering then
                 written (CheckpointOutput.printRandomNumbersParallelTempering cfg self)
               else some []]
           else some []]
    ∧ (WellTyped cfg self → Valid self step → AuxTyped cfg self →
        written (CheckpointOutput.printStepNumber cfg self step) = some (stepBytes cfg step)
        ∧ written (CheckpointOutput.printBoxDimensionsData cfg self) = some (boxBytes cfg self)
        ∧ written (CheckpointOutput.printRandomNumbers cfg self)
            = some (generatorBytes cfg self)
        ∧ written (CheckpointOutput.printCoordinates cfg self)
            = some (coordinateBytes cfg self)
        ∧ written (CheckpointOutput.printMoleculeLookupData cfg self)
            = some (lookupBytes cfg self)
        ∧ written (CheckpointOutput.printMoveSettingsData cfg self)
            = some (moveSettingsBytes cfg.order self.moveSetRef)
        ∧ written (CheckpointOutput.printParallelTemperingBoolean self)
            = some [OutByte.val (if self.enableParallelTempering then 1 else 0)]
        ∧ (cfg.GOMC_LIB_MPI = true → self.enableParallelTempering = true →
            written (CheckpointOutput.printRandomNumbersParallelTempering cfg self)
              = some (generatorBlock cfg.order self.prngPTRef))
        ∧ CheckpointOutput.DoOutput cfg self step w
            = .ok (w.saved self.filename
                (stepBytes cfg step ++ (boxBytes cfg self ++ (generatorBytes cfg self
                  ++ (coordinateBytes cfg self ++ (lookupBytes cfg self
                  ++ (moveSettingsBytes cfg.order self.moveSetRef
                  ++ (if cfg.GOMC_LIB_MPI then
                        [OutByte.val (if self.enableParallelTempering then 1 else 0)]
                          ++ (if self.enableParallelTempering then
                                generatorBlock cfg.order self.prngPTRef
                              else [])
                      else []))))))))) := by
  refine ⟨?_, ?_⟩
  · have hchain := chain_step (local_printStepNumber cfg self step) <|
      chain_step (local_printBoxDimensionsData cfg self) <|
      chain_step (local_printRandomNumbers cfg self) <|
      chain_step (local_printCoordinates cfg self) <|
      chain_step (local_printMoleculeLookupData cfg self) <|
      chain_step (local_printMoveSettingsData cfg self) <|
      chain_last (local_printParallelTemperingPart cfg self)
    rw [← written_printParallelTemperingPart]
    have hrun := file?_seq hchain.1 (CheckpointOutput.printSaved self)
      { w with outputFile := true, file := [] } rfl
    simp only [seq_assoc] at hrun
    unfold CheckpointOutput.DoOutput
    rw [if_pos hen, seq_open _ _ _ hcan, hrun, ← hchain.2]
    cases written _ <;> simp [CheckpointOutput.printSaved, Res.file?, World.emit]
  · intro hty hv hpt
    have hflag : written (CheckpointOutput.printParallelTemperingBoolean self)
        = some [OutByte.val (if self.enableParallelTempering then 1 else 0)] := by
      have h := written_of_emits
        (emits_int1 self.filename (if self.enableParallelTempering then 1 else 0))
      unfold CheckpointOutput.printParallelTemperingBoolean
      rw [h]
      cases self.enableParallelTempering <;> rfl
    have htail : parallelTemperingTail cfg self
        = (if cfg.GOMC_LIB_MPI then
            [OutByte.val (if self.enableParallelTempering then 1 else 0)]
              ++ (if self.enableParallelTempering then
                    generatorBlock cfg.order self.prngPTRef
                  else [])
          else []) := by
      unfold parallelTemperingTail int8_input_union
      cases cfg.GOMC_LIB_MPI <;> cases self.enableParallelTempering <;> rfl
    refine ⟨written_of_emits (emits_printStepNumber cfg self step),
      written_of_emits (emits_printBoxDimensionsData cfg self hty.boxTotal hty.axisCount
        hty.cosCount hty.cosRow),
      written_of_emits (emits_printRandomNumbers cfg self hty.stateCount),
      written_of_emits (emits_printCoordinates cfg self (Nat.lt_trans hv.atoms (by decide))),
      written_of_emits (emits_printMoleculeLookupData cfg self
        (Nat.le_of_eq hty.molLookupLength.symm) (Nat.le_of_eq hty.startLength.symm)
        (Nat.lt_trans hv.fixedCount (by decide))),
      written_of_emits (emits_printMoveSettingsData cfg self hv.regular), hflag,
      fun hm hp => written_of_emits
        (emits_printRandomNumbersParallelTempering cfg self (hpt hm hp).stateCount), ?_⟩
    rw [DoOutput_ok cfg self step w hty hv hpt hen hcan, ← htail]
    have hbytes : checkpointBytes cfg self step
        = stepBytes cfg step ++ (boxBytes cfg self ++ (generatorBytes cfg self
          ++ (coordinateBytes cfg self ++ (lookupBytes cfg self
          ++ moveSettingsBytes cfg.order self.moveSetRef)))) := rfl
    rw [hbytes]
    simp only [List.append_assoc]

/-- Instance of C1: the demo replica at step 41, in a `GOMC_LIB_MPI` build with
parallel tempering enabled, written over older contents: `DoOutput` returns
and the file ends with the flag byte 1 and the block of the auxiliary
generator. -/
theorem DoOutput_sections_witness :
    demoReplica.enableOutCheckpoint = true ∧ demoWorld.canOpen = true ∧
      CheckpointOutput.DoOutput demoBuildMPI demoReplica 41 demoWorld
        = .ok (demoWorld.saved "checkpoint.dat"
            (stepBytes demoBuildMPI 41 ++ (boxBytes demoBuildMPI demoReplica
              ++ (generatorBytes demoBuildMPI demoReplica
              ++ (coordinateBytes demoBuildMPI demoReplica
              ++ (lookupBytes demoBuildMPI demoReplica
              ++ (moveSettingsBytes .little demoReplica.moveSetRef
              ++ ([OutByte.val 1]
              ++ generatorBlock .little demoReplica.prngPTRef)))))))) :=
  ⟨rfl, rfl,
    ((DoOutput_sections demoBuildMPI demoReplica 41 demoWorld rfl rfl).2
      demoReplica_wellTyped demoReplica_valid demoReplica_auxTyped).2.2.2.2.2.2.2.2⟩

/-- C9: for every well-typed, valid snapshot (the step counter does not wrap,
counts and sizes are below `2^31`, every multi-dimensional array is uniform
with non-empty outer dimensions) `DoOutput` returns, and the reader
`readCheckpoint`, which takes the fields in the writer's order, recovers from
the bytes in the file exactly the step, the box geometry, the generator (624
words, cursor, `left`, seed), the coordinates, the lookup tables and the ten
move-statistics arrays. What it leaves unread is the parallel-tempering part:
nothing without `GOMC_LIB_MPI`, and with it the flag byte and, when parallel
tempering is enabled, the second generator block, from which
`readParallelTempering` recovers the flag and the auxiliary generator with
nothing left over. Two such snapshots whose files agree are equal. -/
theorem DoOutput_roundTrip (cfg : Build) (self : CheckpointOutput) (step : Nat) (w : World)
    (hty : WellTyped cfg self) (hv : Valid self step) (hpt : AuxTyped cfg self)
    (hen : self.enableOutCheckpoint = true) (hcan : w.canOpen = true) :
    (CheckpointOutput.DoOutput cfg self step w).isOk = true
      ∧ (readCheckpoint cfg.order).bind (fun snapshot =>
            if cfg.GOMC_LIB_MPI then
              (readParallelTempering cfg.order).bind fun aux =>
                Reader.pure (snapshot, some aux)
            else Reader.pure (snapshot, none))
          (CheckpointOutput.DoOutput cfg self step w).world.file
          = some ((snapshotOf self step,
              if cfg.GOMC_LIB_MPI then some (auxiliaryOf self) else none), [])
      ∧ (∀ (other : CheckpointOutput) (step2 : Nat) (w2 : World),
          WellTyped cfg other → Valid other step2 → AuxTyped cfg other →
          other.enableOutCheckpoint = true → w2.canOpen = true →
          (CheckpointOutput.DoOutput cfg other step2 w2).world.file
            = (CheckpointOutput.DoOutput cfg self step w).world.file →
          snapshotOf other step2 = snapshotOf self step) := by
  have hread := readCheckpoint_DoOutput cfg self step w hty hv hpt hen hcan
  refine ⟨(DoOutput_world cfg self step w hty hv hpt hen hcan).2, ?_, ?_⟩
  · unfold Reader.bind
    simp only [hread]
    by_cases hm : cfg.GOMC_LIB_MPI = true
    · have htail := readParallelTempering_tail cfg self hm hpt
      simp [hm, Reader.bind, Reader.pure, htail]
    · have htail : parallelTemperingTail cfg self = [] := by
        unfold parallelTemperingTail
        rw [if_neg hm]
      simp [hm, Reader.pure, htail]
  · intro other step2 w2 hty2 hv2 hpt2 hen2 hcan2 hfile
    have hread2 := readCheckpoint_DoOutput cfg other step2 w2 hty2 hv2 hpt2 hen2 hcan2
    rw [hfile, hread] at hread2
    exact (congrArg Prod.fst (Option.some.inj hread2)).symm

/-- Instance of C9: the demo replica at step 41, in a `GOMC_LIB_MPI` build with
parallel tempering enabled, is read back whole, the auxiliary generator
included, and `DoOutput` returns. -/
theorem DoOutput_roundTrip_witness :
    WellTyped demoBuildMPI demoReplica ∧ Valid demoReplica 41 ∧
      AuxTyped demoBuildMPI demoReplica ∧ demoReplica.enableOutCheckpoint = true ∧
      demoWorld.canOpen = true ∧
      (CheckpointOutput.DoOutput demoBuildMPI demoReplica 41 demoWorld).isOk = true ∧
      (readCheckpoint .little).bind (fun snapshot =>
            (readParallelTempering .little).bind fun aux => Reader.pure (snapshot, some aux))
          (CheckpointOutput.DoOutput demoBuildMPI demoReplica 41 demoWorld).world.file
        = some ((snapshotOf demoReplica 41, some (true, some demoReplica.prngPTRef)), []) :=
  have h := DoOutput_roundTrip demoBuildMPI demoReplica 41 demoWorld demoReplica_wellTyped
    demoReplica_valid demoReplica_auxTyped rfl rfl
  ⟨demoReplica_wellTyped, demoReplica_valid, demoReplica_auxTyped, rfl, rfl, h.1, h.2.1⟩

/-! ## The padding of the unsigned fields -/

theorem realizes_fill (pad : Nat) (hpad : pad < 256) :
    ∀ emitted : List OutByte, realizes (fill pad emitted) emitted = true
  | [] => rfl
  | .val v :: es => by
    have ih := realizes_fill pad hpad es
    simp only [fill, List.map_cons] at ih ⊢
    simp [realizes, ih]
  | .indet :: es => by
    have ih := realizes_fill pad hpad es
    simp only [fill, List.map_cons] at ih ⊢
    simp [realizes, ih, hpad]

theorem demo_file_eq :
    (CheckpointOutput.DoOutput demoBuild demo 41 demoWorld).world.file
      = uintField ByteOrder.little 42
        ++ ((CheckpointOutput.DoOutput demoBuild demo 41 demoWorld).world.file).drop 8 := by
  have h := (DoOutput_world demoBuild demo 41 demoWorld demo_wellTyped demo_valid
    demo_auxTyped rfl rfl).1
  have h8 : (uintField ByteOrder.little 42).length = 8 := uintField_length _ _
  rw [h]
  unfold checkpointBytes
  rw [List.append_assoc]
  have hd : demoBuild.order = ByteOrder.little := rfl
  rw [hd, List.drop_left' h8]

/-- C10 (violated by the code): the file `DoOutput` emits for the demo snapshot
at step 41 starts with the step field `42, 0, 0, 0` followed by four
indeterminate bytes, the part of the 8-byte union that `temp.uint_value = data`
does not write; so the file with these bytes all `0` and the file with these
bytes all `255` are both possible outcomes of serializing this one snapshot,
and they differ. -/
theorem DoOutput_padding_indeterminate :
    ((CheckpointOutput.DoOutput demoBuild demo 41 demoWorld).world.file).take 8
        = [.val 42, .val 0, .val 0, .val 0, .indet, .indet, .indet, .indet]
      ∧ realizes (fill 0 (CheckpointOutput.DoOutput demoBuild demo 41 demoWorld).world.file)
          (CheckpointOutput.DoOutput demoBuild demo 41 demoWorld).world.file = true
      ∧ realizes (fill 255 (CheckpointOutput.DoOutput demoBuild demo 41 demoWorld).world.file)
          (CheckpointOutput.DoOutput demoBuild demo 41 demoWorld).world.file = true
      ∧ fill 0 (CheckpointOutput.DoOutput demoBuild demo 41 demoWorld).world.file
          ≠ fill 255 (CheckpointOutput.DoOutput demoBuild demo 41 demoWorld).world.file := by
  have h8 : (uintField ByteOrder.little 42).length = 8 := uintField_length _ _
  have hfield : uintField ByteOrder.little 42
      = [.val 42, .val 0, .val 0, .val 0, .indet, .indet, .indet, .indet] := by decide
  have htake : ((CheckpointOutput.DoOutput demoBuild demo 41 demoWorld).world.file).take 8
      = uintField ByteOrder.little 42 := by
    rw [demo_file_eq]
    exact List.take_left' h8
  refine ⟨htake.trans hfield, realizes_fill 0 (by decide) _, realizes_fill 255 (by decide) _, ?_⟩
  intro heq
  have h1 := congrArg (List.take 8) heq
  simp only [fill, ← List.map_take, htake, hfield] at h1
  exact absurd h1 (by decide)

/-! ## The primitive codec -/

/-- C12: each of the three codec operations, for every value: with
`outputFile == NULL` it ends in `exit(EXIT_FAILURE)` after the message on
`stderr`, the file exactly as it was; with an open handle it returns. The
check comes first: nothing is appended on the failing path. -/
theorem codec_liveness (cfg : Build) (fn : String) (w : World) :
    (w.outputFile = false →
        (∀ d : Double, outputDoubleIn8Chars cfg fn d w
            = .exit { w with stderr := w.stderr ++ ["Error opening checkpoint output file " ++ fn] })
        ∧ (∀ v : Nat, outputUintIn8Chars cfg fn v w
            = .exit { w with stderr := w.stderr ++ ["Error opening checkpoint output file " ++ fn] })
        ∧ (∀ b : Nat, outputIntIn1Char fn b w
            = .exit { w with stderr := w.stderr ++ ["Error opening checkpoint output file " ++ fn] })
        ∧ (∀ d : Double, (outputDoubleIn8Chars cfg fn d w).world.file = w.file)
        ∧ (∀ v : Nat, (outputUintIn8Chars cfg fn v w).world.file = w.file)
        ∧ (∀ b : Nat, (outputIntIn1Char fn b w).world.file = w.file))
    ∧ (w.outputFile = true →
        (∀ d : Double, (outputDoubleIn8Chars cfg fn d w).isOk = true)
        ∧ (∀ v : Nat, (outputUintIn8Chars cfg fn v w).isOk = true)
        ∧ (∀ b : Nat, (outputIntIn1Char fn b w).isOk = true)) := by
  refine ⟨?_, ?_⟩
  · intro hclosed
    refine ⟨?_, ?_, ?_, ?_, ?_, ?_⟩ <;> intro x <;>
      simp [outputDoubleIn8Chars, outputUintIn8Chars, outputIntIn1Char, fatalNotOpen, hclosed,
        Res.world]
  · intro hopen
    refine ⟨?_, ?_, ?_⟩ <;> intro x <;>
      simp [outputDoubleIn8Chars, outputUintIn8Chars, outputIntIn1Char, hopen, Res.isOk]

/-- Instance of C12: a closed handle, then an open one. -/
theorem codec_liveness_witness :
    demoLocked.outputFile = false ∧ blank.outputFile = true ∧
      (outputUintIn8Chars demoBuild demo.filename 42 demoLocked).world.file = demoLocked.file ∧
      (outputUintIn8Chars demoBuild demo.filename 42 demoLocked).isExit = true ∧
      (outputUintIn8Chars demoBuild demo.filename 42 blank).isOk = true :=
  ⟨rfl, rfl, ((codec_liveness demoBuild demo.filename demoLocked).1 rfl).2.2.2.2.1 42,
    by rw [((codec_liveness demoBuild demo.filename demoLocked).1 rfl).2.1 42]; rfl,
    ((codec_liveness demoBuild demo.filename blank).2 rfl).2.1 42⟩

/-! ## A destination that cannot be opened; output switched off -/

/-- C13: with checkpoint output enabled and a destination that cannot be
opened, `DoOutput` ends in `exit(EXIT_FAILURE)` inside `openOutputFile`, for
every step and snapshot: the handle is `NULL`, `stderr` has the message with
the path, the file holds no byte of any section (it is as it was) and `stdout`
has no confirmation. -/
theorem DoOutput_cannot_open (cfg : Build) (self : CheckpointOutput) (step : Nat) (w : World)
    (hen : self.enableOutCheckpoint = true) (hcan : w.canOpen = false) :
    CheckpointOutput.DoOutput cfg self step w
        = .exit { w with outputFile := false,
                         stderr := w.stderr
                           ++ ["Error opening checkpoint output file " ++ self.filename] }
      ∧ (CheckpointOutput.DoOutput cfg self step w).world.file = w.file
      ∧ (CheckpointOutput.DoOutput cfg self step w).world.stdout = w.stdout
      ∧ (CheckpointOutput.DoOutput cfg self step w).isOk = false := by
  have hrun : ∀ g : Run, seq (openOutputFile self.filename) g w
      = .exit { w with outputFile := false,
                       stderr := w.stderr
                         ++ ["Error opening checkpoint output file " ++ self.filename] } := by
    intro g
    simp [GOMC.seq, openOutputFile, hcan]
  unfold CheckpointOutput.DoOutput
  rw [if_pos hen, hrun]
  exact ⟨rfl, rfl, rfl, rfl⟩

/-- Instance of C13: the demo snapshot and a destination that cannot be opened. -/
theorem DoOutput_cannot_open_witness :
    demo.enableOutCheckpoint = true ∧ demoLocked.canOpen = false ∧
      (CheckpointOutput.DoOutput demoBuild demo 41 demoLocked).world.file = demoLocked.file ∧
      (CheckpointOutput.DoOutput demoBuild demo 41 demoLocked).world.stdout = [] ∧
      (CheckpointOutput.DoOutput demoBuild demo 41 demoLocked).isOk = false :=
  have h := DoOutput_cannot_open demoBuild demo 41 demoLocked rfl rfl
  ⟨rfl, rfl, h.2.1, h.2.2.1, h.2.2.2⟩

/-- C16: with checkpoint output disabled `DoOutput` does nothing, for every
step, snapshot and world: it returns and the world is as before, so the
destination is neither opened nor truncated, no byte is appended and the
handle is unchanged, also when the destination could not be opened. The
same holds after `Init` with `checkpoint.enable` false. -/
theorem DoOutput_disabled (cfg : Build) (self : CheckpointOutput) (step : Nat) (w : World) :
    (self.enableOutCheckpoint = false → CheckpointOutput.DoOutput cfg self step w = .ok w)
    ∧ (∀ (path : String) (frequency : Nat),
        CheckpointOutput.DoOutput cfg
          (CheckpointOutput.Init cfg self path ⟨false, frequency⟩) step w = .ok w) := by
  refine ⟨?_, ?_⟩
  · intro hoff
    simp [CheckpointOutput.DoOutput, hoff, skip]
  · intro path frequency
    simp [CheckpointOutput.DoOutput, CheckpointOutput.Init, skip]

/-- Instance of C16: the demo snapshot with output switched off, on a
destination that could not even be opened. -/
theorem DoOutput_disabled_witness :
    ({ demo with enableOutCheckpoint := false } : CheckpointOutput).enableOutCheckpoint = false ∧
      CheckpointOutput.DoOutput demoBuild { demo with enableOutCheckpoint := false } 41
        demoLocked = .ok demoLocked :=
  ⟨rfl, (DoOutput_disabled demoBuild { demo with enableOutCheckpoint := false } 41
    demoLocked).1 rfl⟩

/-! ## No interval logic -/

/-- The member `stepsPerCheckpoint` is never read by `DoOutput`: the sequence it
emits, indeterminate bytes included, is the same for any two values, set
directly or through `Init`. -/
theorem DoOutput_ignores_stepsPerCheckpoint (cfg : Build) (self : CheckpointOutput)
    (step : Nat) (w : World) (f1 f2 : Nat) :
    CheckpointOutput.DoOutput cfg { self with stepsPerCheckpoint := f1 } step w
        = CheckpointOutput.DoOutput cfg { self with stepsPerCheckpoint := f2 } step w
      ∧ (∀ (path : String) (enable : Bool),
          CheckpointOutput.DoOutput cfg
              (CheckpointOutput.Init cfg self path ⟨enable, f1⟩) step w
            = CheckpointOutput.DoOutput cfg
              (CheckpointOutput.Init cfg self path ⟨enable, f2⟩) step w) :=
  ⟨rfl, fun _ _ => rfl⟩

theorem seq_exit_of_closed (cfg : Build) (fn : String) (v : Nat) (g : Run) (w : World)
    (hclosed : w.outputFile = false) :
    (seq (outputUintIn8Chars cfg fn v) g w).isUndef = false := by
  simp [GOMC.seq, outputUintIn8Chars, fatalNotOpen, hclosed, Res.isUndef]

theorem isUndef_of_emits {r : Run} {bs : List OutByte} (h : Emits r bs) (w : World)
    (hw : w.outputFile = true) : (r w).isUndef = false := by
  rw [h w hw]
  rfl

theorem encode3_inBounds {α : Type} (cfg : Build) (fn : String) (k : α → Run)
    (enc : α → List OutByte) (hk : ∀ v, Emits (k v) (enc v))
    (data : List (List (List α))) (X Y Z : Nat) (h : Uniform3 data X Y Z)
    (hX : 1 ≤ X) (hY : 1 ≤ Y) (w : World) :
    ((index data 0 fun d0 => index d0 0 fun d00 =>
        seq (outputUintIn8Chars cfg fn data.length) <|
        seq (outputUintIn8Chars cfg fn d0.length) <|
        seq (outputUintIn8Chars cfg fn d00.length) <|
        forLoop data.length fun i => forLoop d0.length fun j => forLoop d00.length fun l =>
          index data i fun di => index di j fun dij => index dij l k) w).isUndef = false := by
  cases hw : w.outputFile with
  | true => exact isUndef_of_emits (emits_encode3 cfg fn k enc hk data X Y Z h hX hY) w hw
  | false =>
    have h0 : 0 < data.length := by rw [h.1]; exact hX
    have hrow0 := h.2 data[0] (List.getElem_mem h0)
    have h00 : 0 < data[0].length := by rw [hrow0.1]; exact hY
    rw [index_eq (List.getElem?_eq_getElem h0), index_eq (List.getElem?_eq_getElem h00)]
    exact seq_exit_of_closed cfg fn _ _ w hw

theorem encode2_inBounds {α : Type} (cfg : Build) (fn : String) (k : α → Run)
    (enc : α → List OutByte) (hk : ∀ v, Emits (k v) (enc v))
    (data : List (List α)) (X Y : Nat) (h : Uniform2 data X Y) (hX : 1 ≤ X) (w : World) :
    ((index data 0 fun d0 =>
        seq (outputUintIn8Chars cfg fn data.length) <|
        seq (outputUintIn8Chars cfg fn d0.length) <|
        forLoop data.length fun i => forLoop d0.length fun j =>
          index data i fun di => index di j k) w).isUndef = false := by
  cases hw : w.outputFile with
  | true => exact isUndef_of_emits (emits_encode2 cfg fn k enc hk data X Y h hX) w hw
  | false =>
    have h0 : 0 < data.length := by rw [h.1]; exact hX
    rw [index_eq (List.getElem?_eq_getElem h0)]
    exact seq_exit_of_closed cfg fn _ _ w hw

/-- C18: the 3D and 2D encoders evaluate `data[0]` on an array of outer size 0,
and the 3D encoders `data[0][0]` on an array whose first row is empty: an
index outside the array, with the world still as it was, so before any byte
of the section. For a uniform array with outer size at least 1 (for 3D also
a non-empty first row) no index they evaluate is outside its array, and the
1D encoder never evaluates one, the empty vector included. -/
theorem arrayEncoders_bounds (cfg : Build) (fn : String) (w : World) :
    printVector3DDouble cfg fn [] w = .undef w
    ∧ (∀ rest, printVector3DDouble cfg fn ([] :: rest) w = .undef w)
    ∧ printVector3DUint cfg fn [] w = .undef w
    ∧ (∀ rest, printVector3DUint cfg fn ([] :: rest) w = .undef w)
    ∧ printVector2DUint cfg fn [] w = .undef w
    ∧ (∀ (data : List (List (List Double))) (X Y Z : Nat),
        Uniform3 data X Y Z → 1 ≤ X → 1 ≤ Y →
        (printVector3DDouble cfg fn data w).isUndef = false)
    ∧ (∀ (data : List (List (List Nat))) (X Y Z : Nat),
        Uniform3 data X Y Z → 1 ≤ X → 1 ≤ Y →
        (printVector3DUint cfg fn data w).isUndef = false)
    ∧ (∀ (data : List (List Nat)) (X Y : Nat),
        Uniform2 data X Y → 1 ≤ X →
        (printVector2DUint cfg fn data w).isUndef = false)
    ∧ (∀ data : List Double, (printVector1DDouble cfg fn data w).isUndef = false)
    ∧ (w.outputFile = true →
        printVector1DDouble cfg fn [] w = .ok (w.emit (uintField cfg.order 0))) := by
  refine ⟨rfl, ?_, rfl, ?_, rfl, ?_, ?_, ?_, ?_, ?_⟩
  · intro rest
    simp [printVector3DDouble, GOMC.index]
  · intro rest
    simp [printVector3DUint, GOMC.index]
  · intro data X Y Z h hX hY
    exact encode3_inBounds cfg fn _ _ (emits_double cfg fn) data X Y Z h hX hY w
  · intro data X Y Z h hX hY
    exact encode3_inBounds cfg fn _ _ (emits_uint cfg fn) data X Y Z h hX hY w
  · intro data X Y h hX
    exact encode2_inBounds cfg fn _ _ (emits_uint cfg fn) data X Y h hX w
  · intro data
    cases hw : w.outputFile with
    | true => exact isUndef_of_emits (emits_printVector1DDouble cfg fn data) w hw
    | false => exact seq_exit_of_closed cfg fn _ _ w hw
  · intro hw
    have h := emits_printVector1DDouble cfg fn [] w hw
    simpa using h

/-- Instance of C18: a uniform array of the demo snapshot on a closed handle,
the empty 2D array, and the empty vector. -/
theorem arrayEncoders_bounds_witness :
    Uniform3 demo.moveSetRef.accepted 1 2 1 ∧
      (printVector3DUint demoBuild demo.filename demo.moveSetRef.accepted demoLocked).isUndef
        = false ∧
      printVector2DUint demoBuild demo.filename [] blank = .undef blank ∧
      blank.outputFile = true ∧
      printVector1DDouble demoBuild demo.filename [] blank
        = .ok (blank.emit (uintField demoBuild.order 0)) :=
  ⟨by decide,
    (arrayEncoders_bounds demoBuild demo.filename demoLocked).2.2.2.2.2.2.1
      demo.moveSetRef.accepted 1 2 1 (by decide) (by decide) (by decide),
    (arrayEncoders_bounds demoBuild demo.filename blank).2.2.2.2.1, rfl,
    (arrayEncoders_bounds demoBuild demo.filename blank).2.2.2.2.2.2.2.2.2 rfl⟩

/-! ## Ragged input -/

theorem scalars_skip {α : Type} (enc : α → List OutByte) : Scalars enc skip 0 := by
  intro w _
  exact Or.inr ⟨[], rfl, by simp [skip]⟩

theorem scalars_one {α : Type} {enc : α → List OutByte} {r : Run} {v : α}
    (h : Emits r (enc v)) : Scalars enc r 1 := by
  intro w hw
  exact Or.inr ⟨[v], rfl, by simpa using h w hw⟩

theorem scalars_index {α β : Type} {enc : α → List OutByte} (xs : List β) (i : Nat)
    {k : β → Run} {n : Nat} (hk : ∀ v, Scalars enc (k v) n) :
    Scalars enc (index xs i k) n := by
  cases hv : xs[i]? with
  | some v => rw [index_eq hv]; exact hk v
  | none =>
    intro w _
    left
    simp [GOMC.index, hv, Res.isUndef]

theorem scalars_seq {α : Type} {enc : α → List OutByte} {f g : Run} {n m : Nat}
    (hf : Scalars enc f n) (hg : Scalars enc g m) : Scalars enc (seq f g) (n + m) := by
  intro w hw
  rcases hf w hw with hu | ⟨xs, hxs, hrun⟩
  · left
    unfold GOMC.seq
    cases hfw : f w with
    | ok w1 => rw [hfw] at hu; simp [Res.isUndef] at hu
    | exit w1 => rw [hfw] at hu; simp [Res.isUndef] at hu
    | undef w1 => rfl
  · have hstep : seq f g w = g (w.emit (xs.flatMap enc)) := by
      simp [GOMC.seq, hrun]
    rw [hstep]
    rcases hg (w.emit (xs.flatMap enc)) (by simpa using hw) with hu | ⟨ys, hys, hrun2⟩
    · exact Or.inl hu
    · refine Or.inr ⟨xs ++ ys, by simp [hxs, hys], ?_⟩
      rw [hrun2, emit_emit, List.flatMap_append]

theorem scalars_forLoop {α : Type} {enc : α → List OutByte} {body : Nat → Run} {c : Nat}
    (hb : ∀ i, Scalars enc (body i) c) : ∀ n : Nat, Scalars enc (forLoop n body) (n * c)
  | 0 => by simpa [GOMC.forLoop] using scalars_skip enc
  | n + 1 => by
    have h := scalars_seq (scalars_forLoop hb n) (hb n)
    rw [Nat.succ_mul]
    exact h

theorem dims_of_cons {α : Type} (d00 : List α) (r0 : List (List α))
    (rest : List (List (List α))) :
    dimY ((d00 :: r0) :: rest) = (d00 :: r0).length ∧
      dimZ ((d00 :: r0) :: rest) = d00.length :=
  ⟨rfl, rfl⟩

/-- The 3D encoders on any input: if no index is out of range, the scalars
after the size fields are as many as the product of the size fields. -/
theorem encode3_count {α : Type} (cfg : Build) (fn : String) (k : α → Run)
    (enc : α → List OutByte) (hk : ∀ v, Emits (k v) (enc v))
    (data : List (List (List α))) (w : World) (hw : w.outputFile = true)
    (hin : ((index data 0 fun d0 => index d0 0 fun d00 =>
        seq (outputUintIn8Chars cfg fn data.length) <|
        seq (outputUintIn8Chars cfg fn d0.length) <|
        seq (outputUintIn8Chars cfg fn d00.length) <|
        forLoop data.length fun i => forLoop d0.length fun j => forLoop d00.length fun l =>
          index data i fun di => index di j fun dij => index dij l k) w).isUndef = false) :
    ∃ scalars : List α, scalars.length = data.length * dimY data * dimZ data ∧
      (index data 0 fun d0 => index d0 0 fun d00 =>
        seq (outputUintIn8Chars cfg fn data.length) <|
        seq (outputUintIn8Chars cfg fn d0.length) <|
        seq (outputUintIn8Chars cfg fn d00.length) <|
        forLoop data.length fun i => forLoop d0.length fun j => forLoop d00.length fun l =>
          index data i fun di => index di j fun dij => index dij l k) w
        = .ok (w.emit (uintField cfg.order data.length ++ (uintField cfg.order (dimY data)
            ++ (uintField cfg.order (dimZ data) ++ scalars.flatMap enc)))) := by
  match data, hin with
  | [], hin => simp [GOMC.index, Res.isUndef] at hin
  | [] :: rest, hin => simp [GOMC.index, Res.isUndef] at hin
  | (d00 :: r0) :: rest, hin =>
    have h0 : ((d00 :: r0) :: rest)[0]? = some (d00 :: r0) := by simp
    have h00 : (d00 :: r0)[0]? = some d00 := by simp
    rw [index_eq h0, index_eq h00] at hin ⊢
    have hloops : Scalars enc
        (forLoop ((d00 :: r0) :: rest).length fun i => forLoop (d00 :: r0).length fun j =>
          forLoop d00.length fun l =>
            index ((d00 :: r0) :: rest) i fun di => index di j fun dij => index dij l k)
        (((d00 :: r0) :: rest).length * ((d00 :: r0).length * (d00.length * 1))) :=
      scalars_forLoop (fun _ => scalars_forLoop (fun _ => scalars_forLoop (fun _ =>
        scalars_index _ _ fun _ => scalars_index _ _ fun _ => scalars_index _ _ fun v =>
          scalars_one (hk v)) _) _) _
    have hsizes := emits_seq (emits_uint cfg fn ((d00 :: r0) :: rest).length)
      (emits_seq (emits_uint cfg fn (d00 :: r0).length) (emits_uint cfg fn d00.length))
    have hstep : ∀ g : Run,
        (seq (outputUintIn8Chars cfg fn ((d00 :: r0) :: rest).length) <|
          seq (outputUintIn8Chars cfg fn (d00 :: r0).length) <|
          seq (outputUintIn8Chars cfg fn d00.length) g) w
        = g (w.emit (uintField cfg.order ((d00 :: r0) :: rest).length
            ++ (uintField cfg.order (d00 :: r0).length ++ uintField cfg.order d00.length))) := by
      intro g
      have h := seq_apply_of_emits hsizes g w hw
      simp only [seq_assoc] at h
      exact h
    rw [hstep] at hin ⊢
    rcases hloops (w.emit (uintField cfg.order ((d00 :: r0) :: rest).length
        ++ (uintField cfg.order (d00 :: r0).length ++ uintField cfg.order d00.length)))
        (by simpa using hw) with hu | ⟨scalars, hlen, hrun⟩
    · rw [hu] at hin
      exact absurd hin (by decide)
    · refine ⟨scalars, ?_, ?_⟩
      · rw [hlen, (dims_of_cons d00 r0 rest).1, (dims_of_cons d00 r0 rest).2, Nat.mul_one,
          Nat.mul_assoc]
      · rw [hrun, emit_emit, (dims_of_cons d00 r0 rest).1, (dims_of_cons d00 r0 rest).2]
        simp only [List.append_assoc]

/-- The 2D encoder on any input: if no index is out of range, the scalars
after the size fields are as many as the product of the size fields. -/
theorem encode2_count {α : Type} (cfg : Build) (fn : String) (k : α → Run)
    (enc : α → List OutByte) (hk : ∀ v, Emits (k v) (enc v))
    (data : List (List α)) (w : World) (hw : w.outputFile = true)
    (hin : ((index data 0 fun d0 =>
        seq (outputUintIn8Chars cfg fn data.length) <|
        seq (outputUintIn8Chars cfg fn d0.length) <|
        forLoop data.length fun i => forLoop d0.length fun j =>
          index data i fun di => index di j k) w).isUndef = false) :
    ∃ scalars : List α, scalars.length = data.length * dimY data ∧
      (index data 0 fun d0 =>
        seq (outputUintIn8Chars cfg fn data.length) <|
        seq (outputUintIn8Chars cfg fn d0.length) <|
        forLoop data.length fun i => forLoop d0.length fun j =>
          index data i fun di => index di j k) w
        = .ok (w.emit (uintField cfg.order data.length ++ (uintField cfg.order (dimY data)
            ++ scalars.flatMap enc))) := by
  match data, hin with
  | [], hin => simp [GOMC.index, Res.isUndef] at hin
  | d0 :: rest, hin =>
    have h0 : (d0 :: rest)[0]? = some d0 := by simp
    rw [index_eq h0] at hin ⊢
    have hloops : Scalars enc
        (forLoop (d0 :: rest).length fun i => forLoop d0.length fun j =>
          index (d0 :: rest) i fun di => index di j k)
        ((d0 :: rest).length * (d0.length * 1)) :=
      scalars_forLoop (fun _ => scalars_forLoop (fun _ =>
        scalars_index _ _ fun _ => scalars_index _ _ fun v => scalars_one (hk v)) _) _
    have hsizes := emits_seq (emits_uint cfg fn (d0 :: rest).length)
      (emits_uint cfg fn d0.length)
    have hstep : ∀ g : Run,
        (seq (outputUintIn8Chars cfg fn (d0 :: rest).length) <|
          seq (outputUintIn8Chars cfg fn d0.length) g) w
        = g (w.emit (uintField cfg.order (d0 :: rest).length
            ++ uintField cfg.order d0.length)) := by
      intro g
      have h := seq_apply_of_emits hsizes g w hw
      simp only [seq_assoc] at h
      exact h
    rw [hstep] at hin ⊢
    rcases hloops (w.emit (uintField cfg.order (d0 :: rest).length
        ++ uintField cfg.order d0.length)) (by simpa using hw) with
      hu | ⟨scalars, hlen, hrun⟩
    · rw [hu] at hin
      exact absurd hin (by decide)
    · refine ⟨scalars, ?_, ?_⟩
      · rw [hlen, Nat.mul_one]
        rfl
      · rw [hrun, emit_emit]
        simp only [List.append_assoc]
        rfl

theorem mem_take_of_getElem? {α : Type} {xs : List α} {j Y : Nat} {x : α} (hj : j < Y)
    (hx : xs[j]? = some x) : x ∈ xs.take Y :=
  mem_of_getElem? ((List.getElem?_take_of_lt hj).trans hx)

/-- The three nested loops on rows that reach `Y` cells whose first `Y` reach
`Z` scalars: the scalars inside the extents, in row-major order. -/
theorem emits_loops3_clip {α : Type} (data : List (List (List α))) (Y Z : Nat) (k : α → Run)
    (enc : α → List OutByte) (hk : ∀ v, Emits (k v) (enc v))
    (hY : ∀ row, row ∈ data → Y ≤ row.length)
    (hZ : ∀ row, row ∈ data → ∀ cell, cell ∈ row.take Y → Z ≤ cell.length) :
    Emits (forLoop data.length fun i => forLoop Y fun j => forLoop Z fun l =>
        index data i fun di => index di j fun dij => index dij l k)
      ((clip3 data Y Z).flatMap enc) := by
  have hbytes : (clip3 data Y Z).flatMap enc
      = data.flatMap fun row => (row.take Y).flatMap fun cell => (cell.take Z).flatMap enc := by
    unfold clip3
    rw [List.flatMap_assoc]
    refine flatMap_congr_mem _ fun row _ => ?_
    rw [List.flatMap_assoc]
  rw [hbytes]
  refine emits_forAll ?_
  intro i row hrow
  refine emits_forTake Y (hY row (mem_of_getElem? hrow)) ?_
  intro j cell hj hcell
  refine emits_forTake Z
    (hZ row (mem_of_getElem? hrow) cell (mem_take_of_getElem? hj hcell)) ?_
  intro l v _ hv
  rw [index_eq hrow, index_eq hcell, index_eq hv]
  exact hk v

theorem clip3_length {α : Type} (data : List (List (List α))) (Y Z : Nat)
    (hY : ∀ row, row ∈ data → Y ≤ row.length)
    (hZ : ∀ row, row ∈ data → ∀ cell, cell ∈ row.take Y → Z ≤ cell.length) :
    (clip3 data Y Z).length = data.length * Y * Z := by
  unfold clip3
  rw [length_flatMap_const _ (Z * Y) data, Nat.mul_comm (Z * Y), Nat.mul_comm Z Y,
    Nat.mul_assoc]
  intro row hrow
  rw [length_flatMap_const _ Z (row.take Y), List.length_take, Nat.min_eq_left (hY row hrow)]
  intro cell hcell
  rw [List.length_take, Nat.min_eq_left (hZ row hrow cell hcell)]

theorem clip2_length {α : Type} (data : List (List α)) (Y : Nat)
    (hY : ∀ row, row ∈ data → Y ≤ row.length) :
    (clip2 data Y).length = data.length * Y := by
  unfold clip2
  rw [length_flatMap_const _ Y data, Nat.mul_comm]
  intro row hrow
  rw [List.length_take, Nat.min_eq_left (hY row hrow)]

theorem headD_of_pos {α : Type} {xs : List α} (h : 1 ≤ xs.length) (d : α) :
    xs[0]? = some (xs.headD d) := by
  cases xs with
  | nil => simp at h
  | cons x rest => simp

/-- The 3D encoders on a possibly ragged array whose evaluated indices are in
range. -/
theorem emits_encode3_clip {α : Type} (cfg : Build) (fn : String) (k : α → Run)
    (enc : α → List OutByte) (hk : ∀ v, Emits (k v) (enc v))
    (data : List (List (List α))) (hX : 1 ≤ data.length) (hY : 1 ≤ dimY data)
    (hc : Covers3 data) :
    Emits (index data 0 fun d0 => index d0 0 fun d00 =>
        seq (outputUintIn8Chars cfg fn data.length) <|
        seq (outputUintIn8Chars cfg fn d0.length) <|
        seq (outputUintIn8Chars cfg fn d00.length) <|
        forLoop data.length fun i => forLoop d0.length fun j => forLoop d00.length fun l =>
          index data i fun di => index di j fun dij => index dij l k)
      (uintField cfg.order data.length ++ (uintField cfg.order (dimY data)
        ++ (uintField cfg.order (dimZ data)
        ++ (clip3 data (dimY data) (dimZ data)).flatMap enc))) := by
  rw [index_eq (headD_of_pos hX []), index_eq (headD_of_pos hY [])]
  exact emits_seq (emits_uint cfg fn data.length)
    (emits_seq (emits_uint cfg fn (dimY data)) (emits_seq (emits_uint cfg fn (dimZ data))
      (emits_loops3_clip data (dimY data) (dimZ data) k enc hk
        (fun row hr => (hc row hr).1) (fun row hr => (hc row hr).2))))

/-- The 2D encoder on a possibly ragged array whose evaluated indices are in
range. -/
theorem emits_encode2_clip {α : Type} (cfg : Build) (fn : String) (k : α → Run)
    (enc : α → List OutByte) (hk : ∀ v, Emits (k v) (enc v))
    (data : List (List α)) (hX : 1 ≤ data.length) (hc : Covers2 data) :
    Emits (index data 0 fun d0 =>
        seq (outputUintIn8Chars cfg fn data.length) <|
        seq (outputUintIn8Chars cfg fn d0.length) <|
        forLoop data.length fun i => forLoop d0.length fun j =>
          index data i fun di => index di j k)
      (uintField cfg.order data.length ++ (uintField cfg.order (dimY data)
        ++ (clip2 data (dimY data)).flatMap enc)) := by
  rw [index_eq (headD_of_pos hX [])]
  have hbytes : (clip2 data (dimY data)).flatMap enc
      = data.flatMap fun row => (row.take (dimY data)).flatMap enc := by
    unfold clip2
    rw [List.flatMap_assoc]
  rw [hbytes]
  exact emits_seq (emits_uint cfg fn data.length)
    (emits_seq (emits_uint cfg fn (dimY data)) (emits_loops2 data (dimY data) k enc hk hc))

/-- C19: the 3D and 2D encoders write as size fields `data.size()`,
`data[0].size()` and `data[0][0].size()` and check no shape. On an open
destination, for every input on which no evaluated index is out of range,
ragged or not, they return and the scalars after the size fields are as many
as the product of the size fields; and when every row reaches the extent of
the first row (for 3D, every cell inside it the extent of the first cell)
the scalars are those inside the extents, in row-major order, the others
being left out. -/
theorem arrayEncoders_ragged (cfg : Build) (fn : String) (w : World)
    (hopen : w.outputFile = true) :
    (∀ data : List (List (List Double)),
        (printVector3DDouble cfg fn data w).isUndef = false →
        ∃ scalars : List Double, scalars.length = data.length * dimY data * dimZ data ∧
          printVector3DDouble cfg fn data w
            = .ok (w.emit (uintField cfg.order data.length ++ (uintField cfg.order (dimY data)
                ++ (uintField cfg.order (dimZ data)
                ++ scalars.flatMap (dblField cfg.order))))))
    ∧ (∀ data : List (List (List Nat)),
        (printVector3DUint cfg fn data w).isUndef = false →
        ∃ scalars : List Nat, scalars.length = data.length * dimY data * dimZ data ∧
          printVector3DUint cfg fn data w
            = .ok (w.emit (uintField cfg.order data.length ++ (uintField cfg.order (dimY data)
                ++ (uintField cfg.order (dimZ data)
                ++ scalars.flatMap (uintField cfg.order))))))
    ∧ (∀ data : List (List Nat),
        (printVector2DUint cfg fn data w).isUndef = false →
        ∃ scalars : List Nat, scalars.length = data.length * dimY data ∧
          printVector2DUint cfg fn data w
            = .ok (w.emit (uintField cfg.order data.length ++ (uintField cfg.order (dimY data)
                ++ scalars.flatMap (uintField cfg.order)))))
    ∧ (∀ data : List (List (List Double)),
        1 ≤ data.length → 1 ≤ dimY data → Covers3 data →
        printVector3DDouble cfg fn data w
            = .ok (w.emit (uintField cfg.order data.length ++ (uintField cfg.order (dimY data)
                ++ (uintField cfg.order (dimZ data)
                ++ (clip3 data (dimY data) (dimZ data)).flatMap (dblField cfg.order)))))
          ∧ (clip3 data (dimY data) (dimZ data)).length
              = data.length * dimY data * dimZ data)
    ∧ (∀ data : List (List (List Nat)),
        1 ≤ data.length → 1 ≤ dimY data → Covers3 data →
        printVector3DUint cfg fn data w
            = .ok (w.emit (uintField cfg.order data.length ++ (uintField cfg.order (dimY data)
                ++ (uintField cfg.order (dimZ data)
                ++ (clip3 data (dimY data) (dimZ data)).flatMap (uintField cfg.order)))))
          ∧ (clip3 data (dimY data) (dimZ data)).length
              = data.length * dimY data * dimZ data)
    ∧ (∀ data : List (List Nat),
        1 ≤ data.length → Covers2 data →
        printVector2DUint cfg fn data w
            = .ok (w.emit (uintField cfg.order data.length ++ (uintField cfg.order (dimY data)
                ++ (clip2 data (dimY data)).flatMap (uintField cfg.order))))
          ∧ (clip2 data (dimY data)).length = data.length * dimY data) := by
  refine ⟨?_, ?_, ?_, ?_, ?_, ?_⟩
  · intro data hin
    exact encode3_count cfg fn _ _ (emits_double cfg fn) data w hopen hin
  · intro data hin
    exact encode3_count cfg fn _ _ (emits_uint cfg fn) data w hopen hin
  · intro data hin
    exact encode2_count cfg fn _ _ (emits_uint cfg fn) data w hopen hin
  · intro data hX hY hc
    exact ⟨emits_encode3_clip cfg fn _ _ (emits_double cfg fn) data hX hY hc w hopen,
      clip3_length data _ _ (fun row hr => (hc row hr).1) (fun row hr => (hc row hr).2)⟩
  · intro data hX hY hc
    exact ⟨emits_encode3_clip cfg fn _ _ (emits_uint cfg fn) data hX hY hc w hopen,
      clip3_length data _ _ (fun row hr => (hc row hr).1) (fun row hr => (hc row hr).2)⟩
  · intro data hX hc
    exact ⟨emits_encode2_clip cfg fn _ _ (emits_uint cfg fn) data hX hc w hopen,
      clip2_length data _ hc⟩

/-- Instance of C19: the ragged array `raggedCounts`, of extents 2, 2, 2 by its
first elements; eight of its twelve scalars are written, `5`, `8`, `11` and `12`
are not. -/
theorem arrayEncoders_ragged_witness :
    blank.outputFile = true ∧ 1 ≤ raggedCounts.length ∧ 1 ≤ dimY raggedCounts ∧
      Covers3 raggedCounts ∧
      printVector3DUint demoBuild demo.filename raggedCounts blank
        = .ok (blank.emit (uintField demoBuild.order raggedCounts.length
            ++ (uintField demoBuild.order (dimY raggedCounts)
            ++ (uintField demoBuild.order (dimZ raggedCounts)
            ++ (clip3 raggedCounts (dimY raggedCounts) (dimZ raggedCounts)).flatMap
                (uintField demoBuild.order))))) ∧
      clip3 raggedCounts (dimY raggedCounts) (dimZ raggedCounts) = [1, 2, 3, 4, 6, 7, 9, 10] ∧
      raggedCounts.length * dimY raggedCounts * dimZ raggedCounts = 8 ∧
      (rowMajor3 raggedCounts).length = 12 :=
  ⟨rfl, by decide, by decide, by decide,
    ((arrayEncoders_ragged demoBuild demo.filename blank rfl).2.2.2.2.1 raggedCounts
      (by decide) (by decide) (by decide)).1,
    by decide, by decide, by decide⟩

/-! ## Lengths and offsets -/

theorem slice_at (pre sec post : List OutByte) (off len : Nat) (hpre : pre.length = off)
    (hsec : sec.length = len) : slice (pre ++ (sec ++ post)) off len = sec := by
  unfold slice
  rw [List.drop_left' hpre]
  exact List.take_left' hsec

theorem checkpointBytes_eq (cfg : Build) (self : CheckpointOutput) (step : Nat) :
    checkpointBytes cfg self step
      = stepBytes cfg step ++ (boxBytes cfg self ++ (generatorBytes cfg self
        ++ (coordinateBytes cfg self ++ (lookupBytes cfg self
        ++ moveSettingsBytes cfg.order self.moveSetRef)))) := rfl

theorem stepBytes_length (cfg : Build) (step : Nat) : (stepBytes cfg step).length = 8 :=
  uintField_length _ _

theorem boxBytes_length (cfg : Build) (self : CheckpointOutput) :
    (boxBytes cfg self).length = boxLength cfg := by
  unfold boxBytes boxLength
  rw [List.length_append, uintField_length,
    length_flatMap_const _ 48 _ (fun b _ => boxFields_length _ _ b), List.length_range]

theorem generatorBytes_length (cfg : Build) (self : CheckpointOutput)
    (hstate : self.prngRef.state.length = 624) :
    (generatorBytes cfg self).length = generatorLength := by
  unfold generatorBytes generatorLength
  rw [List.length_append, List.length_append, List.length_append, uintField_length,
    uintField_length, uintField_length,
    length_flatMap_const _ 8 _ (fun x _ => uintField_length _ x), hstate]

theorem coordinateBytes_length (cfg : Build) (self : CheckpointOutput) :
    (coordinateBytes cfg self).length = coordinateLength self := by
  unfold coordinateBytes coordinateLength
  rw [List.length_append, uintField_length,
    length_flatMap_const _ 24 _ (fun p _ => xyzFields_length _ p)]

theorem lookupBytes_length (cfg : Build) (self : CheckpointOutput)
    (h1 : self.molLookupRef.molLookup.length = self.molLookupRef.molLookupCount)
    (h2 : self.molLookupRef.boxAndKindStart.length = self.molLookupRef.boxAndKindStartCount) :
    (lookupBytes cfg self).length = lookupLength self.molLookupRef := by
  unfold lookupBytes lookupLength
  simp only [List.length_append, uintField_length]
  rw [length_flatMap_const _ 8 _ (fun x _ => uintField_length _ x),
    length_flatMap_const _ 8 _ (fun x _ => uintField_length _ x),
    length_flatMap_const _ 8 _ (fun x _ => uintField_length _ x),
    List.length_take, List.length_take, h1, h2, Nat.min_self, Nat.min_self]
  omega

theorem array3Bytes_length {α : Type} (o : ByteOrder) (enc : α → List OutByte)
    (henc : ∀ v, (enc v).length = 8) (data : List (List (List α))) (h : Regular3 data) :
    (array3Bytes o enc data).length = array3Length data := by
  unfold array3Bytes array3Length
  simp only [List.length_append, uintField_length]
  rw [length_flatMap_const _ 8 _ (fun v _ => henc v), rowMajor3_length h.2.2]
  omega

theorem array2Bytes_length {α : Type} (o : ByteOrder) (enc : α → List OutByte)
    (henc : ∀ v, (enc v).length = 8) (data : List (List α)) (h : Regular2 data) :
    (array2Bytes o enc data).length = array2Length data := by
  unfold array2Bytes array2Length rowMajor2
  simp only [List.length_append, uintField_length]
  rw [length_flatMap_const _ 8 _ (fun v _ => henc v), length_flatten_uniform _ data h.2.2]
  omega

theorem array1Bytes_length {α : Type} (o : ByteOrder) (enc : α → List OutByte)
    (henc : ∀ v, (enc v).length = 8) (data : List α) :
    (array1Bytes o enc data).length = array1Length data := by
  unfold array1Bytes array1Length
  rw [List.length_append, uintField_length, length_flatMap_const _ 8 _ (fun v _ => henc v)]

theorem moveSettingsBytes_length (o : ByteOrder) (ms : MoveSettings) (h : RegularMoves ms) :
    (moveSettingsBytes o ms).length = moveSettingsLength ms := by
  obtain ⟨h1, h2, h3, h4, h5, h6, h7, h8⟩ := h
  unfold moveSettingsBytes moveSettingsLength
  simp only [List.length_append]
  rw [array3Bytes_length o _ (dblField_length o) _ h1,
    array3Bytes_length o _ (dblField_length o) _ h2,
    array3Bytes_length o _ (uintField_length o) _ h3,
    array3Bytes_length o _ (uintField_length o) _ h4,
    array3Bytes_length o _ (uintField_length o) _ h5,
    array3Bytes_length o _ (uintField_length o) _ h6,
    array2Bytes_length o _ (uintField_length o) _ h7,
    array2Bytes_length o _ (uintField_length o) _ h8,
    array1Bytes_length o _ (dblField_length o),
    array1Bytes_length o _ (dblField_length o)]
  omega

theorem slices_of_sections (s1 s2 s3 s4 s5 s6 tail : List OutByte) :
    ((s1 ++ (s2 ++ (s3 ++ (s4 ++ (s5 ++ s6))))) ++ tail).length
        = s1.length + s2.length + s3.length + s4.length + s5.length + s6.length + tail.length
      ∧ slice ((s1 ++ (s2 ++ (s3 ++ (s4 ++ (s5 ++ s6))))) ++ tail) 0 s1.length = s1
      ∧ slice ((s1 ++ (s2 ++ (s3 ++ (s4 ++ (s5 ++ s6))))) ++ tail) s1.length s2.length = s2
      ∧ slice ((s1 ++ (s2 ++ (s3 ++ (s4 ++ (s5 ++ s6))))) ++ tail)
          (s1.length + s2.length) s3.length = s3
      ∧ slice ((s1 ++ (s2 ++ (s3 ++ (s4 ++ (s5 ++ s6))))) ++ tail)
          (s1.length + s2.length + s3.length) s4.length = s4
      ∧ slice ((s1 ++ (s2 ++ (s3 ++ (s4 ++ (s5 ++ s6))))) ++ tail)
          (s1.length + s2.length + s3.length + s4.length) s5.length = s5
      ∧ slice ((s1 ++ (s2 ++ (s3 ++ (s4 ++ (s5 ++ s6))))) ++ tail)
          (s1.length + s2.length + s3.length + s4.length + s5.length) s6.length = s6
      ∧ slice ((s1 ++ (s2 ++ (s3 ++ (s4 ++ (s5 ++ s6))))) ++ tail)
          (s1.length + s2.length + s3.length + s4.length + s5.length + s6.length)
          tail.length = tail := by
  refine ⟨?_, ?_, ?_, ?_, ?_, ?_, ?_, ?_⟩
  · simp only [List.length_append]
    omega
  · have h : (s1 ++ (s2 ++ (s3 ++ (s4 ++ (s5 ++ s6))))) ++ tail
        = [] ++ (s1 ++ (s2 ++ (s3 ++ (s4 ++ (s5 ++ s6))) ++ tail)) := by
      simp only [List.append_assoc, List.nil_append]
    rw [h]
    exact slice_at _ _ _ _ _ rfl rfl
  · have h : (s1 ++ (s2 ++ (s3 ++ (s4 ++ (s5 ++ s6))))) ++ tail
        = s1 ++ (s2 ++ (s3 ++ (s4 ++ (s5 ++ s6)) ++ tail)) := by
      simp only [List.append_assoc]
    rw [h]
    exact slice_at _ _ _ _ _ rfl rfl
  · have h : (s1 ++ (s2 ++ (s3 ++ (s4 ++ (s5 ++ s6))))) ++ tail
        = (s1 ++ s2) ++ (s3 ++ (s4 ++ (s5 ++ s6) ++ tail)) := by
      simp only [List.append_assoc]
    rw [h]
    exact slice_at _ _ _ _ _ (by simp only [List.length_append]) rfl
  · have h : (s1 ++ (s2 ++ (s3 ++ (s4 ++ (s5 ++ s6))))) ++ tail
        = (s1 ++ s2 ++ s3) ++ (s4 ++ (s5 ++ s6 ++ tail)) := by
      simp only [List.append_assoc]
    rw [h]
    exact slice_at _ _ _ _ _ (by simp only [List.length_append]) rfl
  · have h : (s1 ++ (s2 ++ (s3 ++ (s4 ++ (s5 ++ s6))))) ++ tail
        = (s1 ++ s2 ++ s3 ++ s4) ++ (s5 ++ (s6 ++ tail)) := by
      simp only [List.append_assoc]
    rw [h]
    exact slice_at _ _ _ _ _ (by simp only [List.length_append]) rfl
  · have h : (s1 ++ (s2 ++ (s3 ++ (s4 ++ (s5 ++ s6))))) ++ tail
        = (s1 ++ s2 ++ s3 ++ s4 ++ s5) ++ (s6 ++ tail) := by
      simp only [List.append_assoc]
    rw [h]
    exact slice_at _ _ _ _ _ (by simp only [List.length_append]) rfl
  · have h : (s1 ++ (s2 ++ (s3 ++ (s4 ++ (s5 ++ s6))))) ++ tail
        = (s1 ++ s2 ++ s3 ++ s4 ++ s5 ++ s6) ++ (tail ++ []) := by
      simp only [List.append_assoc, List.append_nil]
    rw [h]
    exact slice_at _ _ _ _ _ (by simp only [List.length_append]) rfl

/-- For a well-typed, valid snapshot: the length of the file `DoOutput` leaves
and the offset of every section in it. -/
theorem DoOutput_offsets (cfg : Build) (self : CheckpointOutput) (step : Nat) (w : World)
    (hty : WellTyped cfg self) (hv : Valid self step) (hpt : AuxTyped cfg self)
    (hen : self.enableOutCheckpoint = true) (hcan : w.canOpen = true) :
    ((CheckpointOutput.DoOutput cfg self step w).world.file).length
        = 8 + boxLength cfg + generatorLength + coordinateLength self
          + lookupLength self.molLookupRef + moveSettingsLength self.moveSetRef
          + (parallelTemperingTail cfg self).length
      ∧ slice (CheckpointOutput.DoOutput cfg self step w).world.file 0 8 = stepBytes cfg step
      ∧ slice (CheckpointOutput.DoOutput cfg self step w).world.file 8 (boxLength cfg)
          = boxBytes cfg self
      ∧ slice (CheckpointOutput.DoOutput cfg self step w).world.file
          (8 + boxLength cfg) generatorLength = generatorBytes cfg self
      ∧ slice (CheckpointOutput.DoOutput cfg self step w).world.file
          (8 + boxLength cfg + generatorLength) (coordinateLength self)
          = coordinateBytes cfg self
      ∧ slice (CheckpointOutput.DoOutput cfg self step w).world.file
          (8 + boxLength cfg + generatorLength + coordinateLength self)
          (lookupLength self.molLookupRef) = lookupBytes cfg self
      ∧ slice (CheckpointOutput.DoOutput cfg self step w).world.file
          (8 + boxLength cfg + generatorLength + coordinateLength self
            + lookupLength self.molLookupRef)
          (moveSettingsLength self.moveSetRef) = moveSettingsBytes cfg.order self.moveSetRef
      ∧ slice (CheckpointOutput.DoOutput cfg self step w).world.file
          (8 + boxLength cfg + generatorLength + coordinateLength self
            + lookupLength self.molLookupRef + moveSettingsLength self.moveSetRef)
          (parallelTemperingTail cfg self).length = parallelTemperingTail cfg self := by
  have hfile := (DoOutput_world cfg self step w hty hv hpt hen hcan).1
  have hs := slices_of_sections (stepBytes cfg step) (boxBytes cfg self)
    (generatorBytes cfg self) (coordinateBytes cfg self) (lookupBytes cfg self)
    (moveSettingsBytes cfg.order self.moveSetRef) (parallelTemperingTail cfg self)
  rw [← checkpointBytes_eq, ← hfile, stepBytes_length, boxBytes_length,
    generatorBytes_length cfg self hty.stateCount, coordinateBytes_length,
    lookupBytes_length cfg self hty.molLookupLength hty.startLength,
    moveSettingsBytes_length cfg.order self.moveSetRef hv.regular] at hs
  exact hs

/-! ## The parallel-tempering flag and the length of the file -/

theorem wellTyped_of_boxTotal {cfg cfg2 : Build} {self : CheckpointOutput}
    (h : WellTyped cfg self) (hB : cfg2.BOX_TOTAL = cfg.BOX_TOTAL) : WellTyped cfg2 self where
  boxTotal := hB ▸ h.boxTotal
  axisCount := hB ▸ h.axisCount
  axisDouble := h.axisDouble
  cosCount := hB ▸ h.cosCount
  cosRow := h.cosRow
  cosDouble := h.cosDouble
  stateCount := h.stateCount
  stateUint := h.stateUint
  pNextUint := h.pNextUint
  leftUint := h.leftUint
  seedUint := h.seedUint
  coordDouble := h.coordDouble
  molLookupLength := h.molLookupLength
  molLookupUint := h.molLookupUint
  startLength := h.startLength
  startUint := h.startUint
  numKindsUint := h.numKindsUint
  fixedUint := h.fixedUint
  scaleDouble := h.scaleDouble
  acceptPercentDouble := h.acceptPercentDouble
  acceptedUint := h.acceptedUint
  triesUint := h.triesUint
  tempAcceptedUint := h.tempAcceptedUint
  tempTriesUint := h.tempTriesUint
  mpTriesUint := h.mpTriesUint
  mpAcceptedUint := h.mpAcceptedUint
  mpTMaxDouble := h.mpTMaxDouble
  mpRMaxDouble := h.mpRMaxDouble

theorem demo_wellTyped_mpi : WellTyped demoBuildMPI demo :=
  wellTyped_of_boxTotal demo_wellTyped rfl

theorem generatorBlock_fields (o : ByteOrder) (g : MTRand) :
    generatorBlock o g
      = (g.state ++ [g.pNext, g.left, g.seedValue]).flatMap (uintField o) := by
  unfold generatorBlock
  simp [List.flatMap_append, List.flatMap_cons]

theorem generatorBlock_length (o : ByteOrder) (g : MTRand) (hstate : g.state.length = 624) :
    (generatorBlock o g).length = generatorLength := by
  unfold generatorBlock generatorLength
  rw [List.length_append, List.length_append, List.length_append, uintField_length,
    uintField_length, uintField_length,
    length_flatMap_const _ 8 _ (fun x _ => uintField_length _ x), hstate]

/-- Without `GOMC_LIB_MPI`, or with parallel tempering disabled, the
parallel-tempering part is the flag byte in a build with `GOMC_LIB_MPI` and
nothing in a build without. -/
theorem parallelTemperingTail_disabled (cfg : Build) (self : CheckpointOutput)
    (h : cfg.GOMC_LIB_MPI = false ∨ self.enableParallelTempering = false) :
    parallelTemperingTail cfg self = if cfg.GOMC_LIB_MPI then [OutByte.val 0] else [] := by
  unfold parallelTemperingTail int8_input_union
  rcases h with h | h
  · rw [h]
    rfl
  · rw [h]
    cases cfg.GOMC_LIB_MPI <;> rfl

/-- With `GOMC_LIB_MPI` and parallel tempering enabled, the parallel-tempering
part is the flag byte 1 and the block of the auxiliary generator. -/
theorem parallelTemperingTail_enabled (cfg : Build) (self : CheckpointOutput)
    (hm : cfg.GOMC_LIB_MPI = true) (hp : self.enableParallelTempering = true) :
    parallelTemperingTail cfg self
      = [OutByte.val 1] ++ generatorBlock cfg.order self.prngPTRef := by
  unfold parallelTemperingTail int8_input_union
  rw [hm, hp]
  rfl

/-- C14 (as stated, fails in a build without `GOMC_LIB_MPI`): the demo snapshot,
parallel tempering disabled, written by the demo build. `DoOutput` returns and
the file is the six sections, ending with the move statistics: no flag byte
follows them. -/
theorem DoOutput_flag_counterexample :
    demoBuild.GOMC_LIB_MPI = false ∧ demo.enableParallelTempering = false ∧
      (CheckpointOutput.DoOutput demoBuild demo 41 demoWorld).isOk = true ∧
      (CheckpointOutput.DoOutput demoBuild demo 41 demoWorld).world.file
        = checkpointBytes demoBuild demo 41 ∧
      ∀ flag : OutByte,
        (CheckpointOutput.DoOutput demoBuild demo 41 demoWorld).world.file
          ≠ checkpointBytes demoBuild demo 41 ++ [flag] := by
  have h := DoOutput_world demoBuild demo 41 demoWorld demo_wellTyped demo_valid
    demo_auxTyped rfl rfl
  have hfile : (CheckpointOutput.DoOutput demoBuild demo 41 demoWorld).world.file
      = checkpointBytes demoBuild demo 41 := by
    rw [h.1]
    exact List.append_nil _
  refine ⟨rfl, rfl, h.2, hfile, ?_⟩
  intro flag heq
  rw [hfile] at heq
  have hlen := congrArg List.length heq
  simp at hlen

/-- C14 (amended): for a well-typed, valid snapshot written to an openable
destination `DoOutput` returns. In a build with `GOMC_LIB_MPI` the file is the
six sections followed at once by a single flag byte, `1` when parallel
tempering is enabled and `0` when it is disabled. When it is enabled the flag
is followed by a second generator block and nothing else; the block has the
layout of the primary one, applied to the auxiliary generator: its 624 state
words, the cursor offset, the remaining count and the seed, 627 padded
unsigned fields, 5016 bytes, from which `readGenerator` recovers the
auxiliary generator. When it is disabled the flag is the last byte of the
file. In a build without `GOMC_LIB_MPI` neither a flag byte nor a second block
is written: the file ends with the move-statistics section. -/
theorem parallelTempering_flag (cfg : Build) (self : CheckpointOutput) (step : Nat) (w : World)
    (hty : WellTyped cfg self) (hv : Valid self step) (hpt : AuxTyped cfg self)
    (hen : self.enableOutCheckpoint = true) (hcan : w.canOpen = true) :
    (CheckpointOutput.DoOutput cfg self step w).isOk = true
    ∧ (cfg.GOMC_LIB_MPI = true → self.enableParallelTempering = true →
        (CheckpointOutput.DoOutput cfg self step w).world.file
            = checkpointBytes cfg self step
              ++ ([OutByte.val 1] ++ generatorBlock cfg.order self.prngPTRef)
        ∧ generatorBlock cfg.order self.prngPTRef
            = (self.prngPTRef.state
                ++ [self.prngPTRef.pNext, self.prngPTRef.left, self.prngPTRef.seedValue]).flatMap
                (uintField cfg.order)
        ∧ self.prngPTRef.state.length = 624
        ∧ (generatorBlock cfg.order self.prngPTRef).length = 627 * 8
        ∧ readGenerator cfg.order (generatorBlock cfg.order self.prngPTRef)
            = some (self.prngPTRef, []))
    ∧ generatorBytes cfg self = generatorBlock cfg.order self.prngRef
    ∧ (cfg.GOMC_LIB_MPI = true → self.enableParallelTempering = false →
        (CheckpointOutput.DoOutput cfg self step w).world.file
            = checkpointBytes cfg self step ++ [OutByte.val 0])
    ∧ (cfg.GOMC_LIB_MPI = false →
        (CheckpointOutput.DoOutput cfg self step w).world.file
            = checkpointBytes cfg self step) := by
  have h := DoOutput_world cfg self step w hty hv hpt hen hcan
  refine ⟨h.2, ?_, rfl, ?_, ?_⟩
  · intro hm hp
    have hg := hpt hm hp
    have hdec := decodes_generatorBlock cfg.order self.prngPTRef hg []
    rw [List.append_nil] at hdec
    refine ⟨?_, generatorBlock_fields _ _, hg.stateCount,
      generatorBlock_length _ _ hg.stateCount, hdec⟩
    rw [h.1, parallelTemperingTail_enabled cfg self hm hp]
  · intro hm hp
    rw [h.1, parallelTemperingTail_disabled cfg self (Or.inr hp), if_pos hm]
  · intro hm
    rw [h.1, parallelTemperingTail_disabled cfg self (Or.inl hm), hm]
    exact List.append_nil _

/-- Instance of C14 (amended): the demo replica, parallel tempering enabled, and
the demo snapshot, parallel tempering disabled, in the build with
`GOMC_LIB_MPI`; the demo snapshot in the build without. -/
theorem parallelTempering_flag_witness :
    WellTyped demoBuildMPI demoReplica ∧ Valid demoReplica 41 ∧
      AuxTyped demoBuildMPI demoReplica ∧ demoReplica.enableOutCheckpoint = true ∧
      demoWorld.canOpen = true ∧ demoBuildMPI.GOMC_LIB_MPI = true ∧
      demoReplica.enableParallelTempering = true ∧
      (CheckpointOutput.DoOutput demoBuildMPI demoReplica 41 demoWorld).isOk = true ∧
      (CheckpointOutput.DoOutput demoBuildMPI demoReplica 41 demoWorld).world.file
        = checkpointBytes demoBuildMPI demoReplica 41
          ++ ([OutByte.val 1] ++ generatorBlock .little demoReplica.prngPTRef) ∧
      (CheckpointOutput.DoOutput demoBuildMPI demo 41 demoWorld).world.file
        = checkpointBytes demoBuildMPI demo 41 ++ [OutByte.val 0] ∧
      (CheckpointOutput.DoOutput demoBuild demo 41 demoWorld).world.file
        = checkpointBytes demoBuild demo 41 :=
  have hr := parallelTempering_flag demoBuildMPI demoReplica 41 demoWorld
    demoReplica_wellTyped demoReplica_valid demoReplica_auxTyped rfl rfl
  ⟨demoReplica_wellTyped, demoReplica_valid, demoReplica_auxTyped, rfl, rfl, rfl, rfl,
    hr.1, (hr.2.1 rfl rfl).1,
    (parallelTempering_flag demoBuildMPI demo 41 demoWorld demo_wellTyped_mpi demo_valid
      (auxTyped_of_unused _ _ (Or.inr rfl)) rfl rfl).2.2.2.1 rfl rfl,
    (parallelTempering_flag demoBuild demo 41 demoWorld demo_wellTyped demo_valid
      demo_auxTyped rfl rfl).2.2.2.2 rfl⟩

/-- C15 (as stated, fails in a build without `GOMC_LIB_MPI`): the snapshot with
1 box and 2 atoms, constructed and initialised in the demo build, where the
constructor sets parallel tempering to disabled. `DoOutput` returns and
writes 5552 bytes, the sum of the six sections; the stated total, with one
more byte for the flag, is 5553. -/
theorem DoOutput_length_counterexample :
    demo = CheckpointOutput.Init demoBuild
        (CheckpointOutput.construct demoBuild demoSystem false 0) "" ⟨true, 1000⟩ ∧
      demoBuild.BOX_TOTAL = 1 ∧ demo.coordCurrRef.length = 2 ∧
      demo.enableParallelTempering = false ∧
      (CheckpointOutput.DoOutput demoBuild demo 41 demoWorld).isOk = true ∧
      ((CheckpointOutput.DoOutput demoBuild demo 41 demoWorld).world.file).length = 5552 ∧
      8 + (8 + 48 * 1) + 627 * 8 + (8 + 24 * 2) + lookupLength demo.molLookupRef
          + moveSettingsLength demo.moveSetRef + 1 = 5553 ∧
      ((CheckpointOutput.DoOutput demoBuild demo 41 demoWorld).world.file).length
        ≠ 8 + (8 + 48 * 1) + 627 * 8 + (8 + 24 * 2) + lookupLength demo.molLookupRef
          + moveSettingsLength demo.moveSetRef + 1 := by
  have hlen := (DoOutput_offsets demoBuild demo 41 demoWorld demo_wellTyped demo_valid
    demo_auxTyped rfl rfl).1
  have hnum : 8 + boxLength demoBuild + generatorLength + coordinateLength demo
      + lookupLength demo.molLookupRef + moveSettingsLength demo.moveSetRef
      + (parallelTemperingTail demoBuild demo).length = 5552 := by decide
  have htotal : 8 + (8 + 48 * 1) + 627 * 8 + (8 + 24 * 2) + lookupLength demo.molLookupRef
      + moveSettingsLength demo.moveSetRef + 1 = 5553 := by decide
  rw [hnum] at hlen
  refine ⟨rfl, rfl, rfl, rfl,
    (DoOutput_world demoBuild demo 41 demoWorld demo_wellTyped demo_valid demo_auxTyped
      rfl rfl).2, hlen, htotal, ?_⟩
  rw [hlen, htotal]
  decide

/-- C15 (amended): for a well-typed, valid snapshot with `B` boxes and `n` atoms,
written to an openable destination by a build without `GOMC_LIB_MPI` or with
parallel tempering disabled, `DoOutput` returns and the file has exactly
`8 + (8 + 48 * B) + 627 * 8 + (8 + 24 * n) + L + M + F` bytes, where `L` and `M` are
the lengths the lookup and move-statistics sections have by their own size
fields and `F`, the flag byte, is 1 in a build with `GOMC_LIB_MPI` and 0 in a
build without; each section starts at the sum of the lengths of the sections
before it. -/
theorem DoOutput_length (cfg : Build) (self : CheckpointOutput) (step : Nat) (w : World)
    (hty : WellTyped cfg self) (hv : Valid self step)
    (hen : self.enableOutCheckpoint = true) (hcan : w.canOpen = true)
    (hpt : cfg.GOMC_LIB_MPI = false ∨ self.enableParallelTempering = false) :
    (CheckpointOutput.DoOutput cfg self step w).isOk = true
      ∧ ((CheckpointOutput.DoOutput cfg self step w).world.file).length
          = 8 + (8 + 48 * cfg.BOX_TOTAL) + 627 * 8 + (8 + 24 * self.coordCurrRef.length)
            + lookupLength self.molLookupRef + moveSettingsLength self.moveSetRef
            + (if cfg.GOMC_LIB_MPI then 1 else 0)
      ∧ slice (CheckpointOutput.DoOutput cfg self step w).world.file 0 8 = stepBytes cfg step
      ∧ slice (CheckpointOutput.DoOutput cfg self step w).world.file 8 (boxLength cfg)
          = boxBytes cfg self
      ∧ slice (CheckpointOutput.DoOutput cfg self step w).world.file
          (8 + boxLength cfg) generatorLength = generatorBytes cfg self
      ∧ slice (CheckpointOutput.DoOutput cfg self step w).world.file
          (8 + boxLength cfg + generatorLength) (coordinateLength self)
          = coordinateBytes cfg self
      ∧ slice (CheckpointOutput.DoOutput cfg self step w).world.file
          (8 + boxLength cfg + generatorLength + coordinateLength self)
          (lookupLength self.molLookupRef) = lookupBytes cfg self
      ∧ slice (CheckpointOutput.DoOutput cfg self step w).world.file
          (8 + boxLength cfg + generatorLength + coordinateLength self
            + lookupLength self.molLookupRef)
          (moveSettingsLength self.moveSetRef) = moveSettingsBytes cfg.order self.moveSetRef
      ∧ (cfg.GOMC_LIB_MPI = true →
          slice (CheckpointOutput.DoOutput cfg self step w).world.file
            (8 + boxLength cfg + generatorLength + coordinateLength self
              + lookupLength self.molLookupRef + moveSettingsLength self.moveSetRef) 1
            = [OutByte.val 0]) := by
  have haux := auxTyped_of_unused cfg self hpt
  have hok := (DoOutput_world cfg self step w hty hv haux hen hcan).2
  obtain ⟨hlen, h1, h2, h3, h4, h5, h6, h7⟩ :=
    DoOutput_offsets cfg self step w hty hv haux hen hcan
  have htail := parallelTemperingTail_disabled cfg self hpt
  refine ⟨hok, ?_, h1, h2, h3, h4, h5, h6, ?_⟩
  · rw [hlen, htail]
    cases cfg.GOMC_LIB_MPI <;> rfl
  · intro hm
    rw [htail, if_pos hm] at h7
    exact h7

/-- Instance of C15 (amended): the demo snapshot in the build with
`GOMC_LIB_MPI` (5553 bytes, the flag at offset 5552) and in the build without
(5552 bytes). -/
theorem DoOutput_length_witness :
    WellTyped demoBuildMPI demo ∧ WellTyped demoBuild demo ∧ Valid demo 41 ∧
      demo.enableOutCheckpoint = true ∧ demoWorld.canOpen = true ∧
      demo.enableParallelTempering = false ∧
      ((CheckpointOutput.DoOutput demoBuildMPI demo 41 demoWorld).world.file).length
        = 8 + (8 + 48 * demoBuildMPI.BOX_TOTAL) + 627 * 8 + (8 + 24 * demo.coordCurrRef.length)
          + lookupLength demo.molLookupRef + moveSettingsLength demo.moveSetRef
          + (if demoBuildMPI.GOMC_LIB_MPI then 1 else 0) ∧
      ((CheckpointOutput.DoOutput demoBuild demo 41 demoWorld).world.file).length
        = 8 + (8 + 48 * demoBuild.BOX_TOTAL) + 627 * 8 + (8 + 24 * demo.coordCurrRef.length)
          + lookupLength demo.molLookupRef + moveSettingsLength demo.moveSetRef
          + (if demoBuild.GOMC_LIB_MPI then 1 else 0) ∧
      slice (CheckpointOutput.DoOutput demoBuildMPI demo 41 demoWorld).world.file 8
          (boxLength demoBuildMPI) = boxBytes demoBuildMPI demo :=
  have hm := DoOutput_length demoBuildMPI demo 41 demoWorld demo_wellTyped_mpi demo_valid
    rfl rfl (Or.inr rfl)
  have hn := DoOutput_length demoBuild demo 41 demoWorld demo_wellTyped demo_valid
    rfl rfl (Or.inl rfl)
  ⟨demo_wellTyped_mpi, demo_wellTyped, demo_valid, rfl, rfl, rfl, hm.2.1, hn.2.1,
    hm.2.2.2.1⟩

end GOMC
